import Mathlib

/-!
You-Are-Officially-Sus: the game-session state machine

A shallow embedding of the three state-mutating handlers of
`internal/handlers/game.go` (`gameHandleReadyCookie`, `gameHandleVoteCookie`,
`gameHandleSubmitWord`) together with `assignSpyAndSelectWord`, followed by
theorems about phase transitions, quorum computation, vote tallying and score
crediting.

Modelling conventions

* A Go `map[string]V` is an association list with pairwise distinct keys
  (`GoMap V`).  `m[k]` on a missing key yields the zero value, `m[k] = v`
  is an upsert, `len(m)` is the number of entries.
* Go leaves the iteration order of `range m` unspecified and `math/rand`
  is a source of randomness.  Both are supplied by an `Env`: every `range`
  site receives its entries in an order chosen by the environment, every
  `rand.Intn` site receives a value below its bound.  Theorems quantify over
  all environments.
* A run-time panic (nil dereference, `rand.Intn(0)`, index out of range,
  integer division by zero) ends the handler with `Response.panicked`; the
  mutations made before the panic stay in the returned state, as they do in Go.
* Only the state under `lobby.Lock()` and the kind of HTTP response are
  modelled; template rendering, logging and SSE broadcasting are left out.
* Player ids, names and challenge texts are only ever compared or copied and
  are Lean strings.  Submitted words are trimmed, measured and sliced by byte,
  so they are byte lists (`GoString`).
* Go's `int` is the 64-bit two's-complement integer. The score increments
  `GamesWon++` and `GamesLost++` wrap around (`goInc`). `VoteRound++` runs
  only under the guard `VoteRound < MaxVoteRounds` and so cannot wrap; the
  vote counts are bounded by the number of votes.
* The maps are assumed allocated (writing to a nil map is not modelled).
  Pointer-valued maps (`Players`, `Scores`, `PlayerInfo`) hold their records
  by value: a missing key is the nil pointer, and two keys never share a
  record.
* `game.MaxVoteRounds` is a parameter of the vote handler and the challenge
  pool `ctx.Challenges` a field of `Context`; the lookup of the room by its
  code precedes everything modelled here.
-/

namespace Sus

/-! ## Data model (`internal/models`) -/

/-- The game phase, `models.GameStatus`. -/
inductive GameStatus where
  | waiting
  | wordCollection
  | readyCheck
  | roleReveal
  | playing
  | voting
  | finished
  deriving DecidableEq, Repr

/-- The game mode, `models.GameMode`. -/
inductive GameMode where
  | standard
  | customWords
  deriving DecidableEq, Repr

/-- A Go `map[string]V`: an association list without duplicate keys. -/
abbrev GoMap (V : Type) := AList (fun _ : String => V)

/-- A byte of a Go string. -/
abbrev Byte := Fin 256

/-- A Go string seen as its bytes (used for submitted words). -/
abbrev GoString := List Byte

/-- The value `m[k]` of a Go map read, with `zero` for a missing key. -/
def GoMap.get {V : Type} (m : GoMap V) (k : String) (zero : V) : V :=
  (m.lookup k).getD zero

/-- The Go `len(m)`. -/
def GoMap.len {V : Type} (m : GoMap V) : Nat := m.entries.length

/-- A room member, `models.Player` (only `Name` is read by the handlers). -/
structure Player where
  name : String
  deriving DecidableEq, Repr

/-- The per-player win and loss counters, `models.PlayerScore`. -/
structure PlayerScore where
  gamesWon : Int
  gamesLost : Int
  deriving DecidableEq, Repr

/-- The round's word, `models.Location`. -/
structure Location where
  word : GoString
  categories : List String
  deriving DecidableEq, Repr

/-- The per-game player record, `models.GamePlayerInfo`. -/
structure GamePlayerInfo where
  challenge : String
  isSpy : Bool
  deriving DecidableEq, Repr

/-- The ephemeral game, `models.Game`. -/
structure Game where
  mode : GameMode
  location : Option Location
  spyID : String
  spyName : String
  firstQuestioner : String
  playerInfo : GoMap GamePlayerInfo
  status : GameStatus
  playStartedAt : Nat
  customWords : GoMap GoString
  selectedCustomWord : GoString
  wordsSubmitted : GoMap Bool
  readyToReveal : GoMap Bool
  readyAfterReveal : GoMap Bool
  readyToVote : GoMap Bool
  votes : GoMap String
  voteRound : Int
  spyForfeited : Bool

/-- The room, `models.Lobby`, with the fields the handlers touch:
`Players`, `Scores`, `Host` and `CurrentGame` (`none` is the nil pointer). -/
structure Lobby where
  players : GoMap Player
  scores : GoMap PlayerScore
  host : String
  currentGame : Option Game

/-- The part of `handlers.Context` used by role assignment. -/
structure Context where
  challenges : List String

/-- The sources of nondeterminism of one handler call: the order in which each
`range` over a map delivers its entries, the values drawn by `rand.Intn`, the
permutation applied by `rand.Shuffle`, and the clock. Sites are numbered so
that different loops and draws of one call are independent. -/
structure Env where
  rangeOrder : {α : Type} → Nat → List α → List α
  rangeOrder_perm : ∀ {α : Type} (site : Nat) (l : List α), (rangeOrder site l).Perm l
  intn : Nat → Nat → Nat
  intn_lt : ∀ (site n : Nat), 0 < n → intn site n < n
  shuffle : List String → List String
  shuffle_perm : ∀ (l : List String), (shuffle l).Perm l
  now : Nat

/-- What the handler sent back. `httpError` carries the message and status code
of `http.Error`; `hxRedirect` is the `HX-Redirect` to the path of a phase;
`html` is a 200 response with an HTML fragment; `panicked` is a run-time
panic. -/
inductive Response where
  | html
  | hxRedirect (next : GameStatus)
  | httpError (msg : String) (code : Nat)
  | panicked
  deriving DecidableEq, Repr

/-! ## `strings.TrimSpace` on bytes

`TrimSpace` removes leading and then trailing runes for which
`unicode.IsSpace` holds.  On the UTF-8 bytes these runes are exactly the
sequences below; an invalid or truncated sequence decodes to `RuneError`,
which is not a space and stops the trimming. -/

/-- One-byte white space: tab, LF, VT, FF, CR and space. -/
def isSpace1 (a : Byte) : Bool :=
  a = 0x09 || a = 0x0A || a = 0x0B || a = 0x0C || a = 0x0D || a = 0x20

/-- Two-byte white space: U+0085 and U+00A0. -/
def isSpace2 (a b : Byte) : Bool :=
  a = 0xC2 && (b = 0x85 || b = 0xA0)

/-- Three-byte white space: U+1680, U+2000 to U+200A, U+2028, U+2029, U+202F,
U+205F and U+3000. -/
def isSpace3 (a b c : Byte) : Bool :=
  (a = 0xE1 && b = 0x9A && c = 0x80) ||
  (a = 0xE2 && b = 0x80 && (decide (0x80 ≤ c.val ∧ c.val ≤ 0x8A) || c = 0xA8 || c = 0xA9 || c = 0xAF)) ||
  (a = 0xE2 && b = 0x81 && c = 0x9F) ||
  (a = 0xE3 && b = 0x80 && c = 0x80)

/-- Strip white-space runes from the front; `rev` reads multi-byte runes
back to front, for use on a reversed string. -/
def trimFront (rev : Bool) : GoString → GoString
  | [] => []
  | [a] => if isSpace1 a then [] else [a]
  | [a, b] =>
    if isSpace1 a then trimFront rev [b]
    else if (if rev then isSpace2 b a else isSpace2 a b) then []
    else [a, b]
  | a :: b :: c :: s =>
    if isSpace1 a then trimFront rev (b :: c :: s)
    else if (if rev then isSpace2 b a else isSpace2 a b) then trimFront rev (c :: s)
    else if (if rev then isSpace3 c b a else isSpace3 a b c) then trimFront rev s
    else a :: b :: c :: s

/-- The Go `strings.TrimSpace`. -/
def TrimSpace (s : GoString) : GoString :=
  (trimFront true (trimFront false s).reverse).reverse

/-! ## `gameHandleReadyCookie` -/

/-- The keys delivered by `for id := range lobby.Players` at a `range` site. -/
def rangePlayers (env : Env) (site : Nat) (lobby : Lobby) : List String :=
  (env.rangeOrder site lobby.players.entries).map Sigma.fst

/-- The toggle `m[playerID] = !m[playerID]`. -/
def toggle (m : GoMap Bool) (playerID : String) : GoMap Bool :=
  m.insert playerID (!m.get playerID false)

/-- The `readyCount` loop: one increment per ranged id whose entry is true. -/
def countReady (readyStateMap : GoMap Bool) (ids : List String) : Nat :=
  ids.foldl (fun n id => if readyStateMap.get id false then n + 1 else n) 0

/-- The pre-seeding loop `if _, ok := m[id]; !ok { m[id] = false }`. -/
def preSeed (m : GoMap Bool) (ids : List String) : GoMap Bool :=
  ids.foldl (fun m id => if (m.lookup id).isSome then m else m.insert id false) m

/-- The first `switch statusBefore`: toggle the caller in the readiness map of
the current phase and return that map; `none` is the `default` branch. -/
def toggleReady (g : Game) (playerID : String) : Option (Game × GoMap Bool) :=
  match g.status with
  | .readyCheck =>
    let m := toggle g.readyToReveal playerID
    some ({ g with readyToReveal := m }, m)
  | .roleReveal =>
    let m := toggle g.readyAfterReveal playerID
    some ({ g with readyAfterReveal := m }, m)
  | .playing =>
    let m := toggle g.readyToVote playerID
    some ({ g with readyToVote := m }, m)
  | _ => none

/-- The decision `shouldAdvance`. -/
def shouldAdvance (statusBefore : GameStatus) (readyCount totalPlayers : Nat) : Bool :=
  match statusBefore with
  | .readyCheck => decide (readyCount = totalPlayers)
  | .roleReveal => decide (readyCount = totalPlayers)
  | .playing => decide (readyCount > totalPlayers / 2)
  | _ => false

/-- The block `if shouldAdvance { switch statusBefore ... }`. -/
def advancePhase (env : Env) (lobby : Lobby) (g : Game) (statusBefore : GameStatus) :
    Game × Response :=
  match statusBefore with
  | .readyCheck =>
    ({ g with status := .roleReveal,
              readyAfterReveal := preSeed g.readyAfterReveal (rangePlayers env 1 lobby) },
     .hxRedirect .roleReveal)
  | .roleReveal =>
    let g := { g with status := .playing,
                      playStartedAt := env.now,
                      readyToVote := preSeed g.readyToVote (rangePlayers env 1 lobby) }
    let playerIDs := rangePlayers env 2 lobby
    if playerIDs.length = 0 then (g, .panicked)
    else
      match playerIDs[env.intn 0 playerIDs.length]? with
      | none => (g, .panicked)
      | some first => ({ g with firstQuestioner := first }, .hxRedirect .playing)
  | .playing => ({ g with status := .voting }, .hxRedirect .voting)
  | _ => (g, .html)

/-- The handler of `POST /game/:code/ready`, from the cookie check on. -/
def gameHandleReadyCookie (env : Env) (lobby : Lobby) (cookie : Option String) :
    Lobby × Response :=
  match cookie with
  | none => (lobby, .httpError "Unauthorized" 401)
  | some playerID =>
    match lobby.currentGame with
    | none => (lobby, .httpError "No game in progress" 400)
    | some g =>
      let statusBefore := g.status
      match toggleReady g playerID with
      | none => (lobby, .httpError "Invalid game phase" 400)
      | some (g, readyStateMap) =>
        let readyCount := countReady readyStateMap (rangePlayers env 0 lobby)
        let totalPlayers := lobby.players.len
        if shouldAdvance statusBefore readyCount totalPlayers then
          let r := advancePhase env lobby g statusBefore
          ({ lobby with currentGame := some r.1 }, r.2)
        else ({ lobby with currentGame := some g }, .html)

/-! ## `gameHandleVoteCookie` -/

/-- The loop `for _, votedFor := range g.Votes { voteCount[votedFor]++ }`. -/
def countVotes (entries : List (Σ _ : String, String)) : GoMap Int :=
  entries.foldl (fun vc e => vc.insert e.2 (vc.get e.2 0 + 1)) ∅

/-- One iteration of the maximum search over `voteCount`. -/
def tallyStep (acc : Int × List String) (e : Σ _ : String, Int) : Int × List String :=
  if e.2 > acc.1 then (e.2, [e.1])
  else if e.2 = acc.1 then (acc.1, acc.2 ++ [e.1])
  else acc

/-- The maximum search: `(maxVotes, playersWithMaxVotes)`. -/
def tally (entries : List (Σ _ : String, Int)) : Int × List String :=
  entries.foldl tallyStep (0, [])

/-- The largest value of Go's 64-bit `int`. -/
def maxInt64 : Int := 9223372036854775807

/-- The smallest value of Go's 64-bit `int`. -/
def minInt64 : Int := -9223372036854775808

/-- Reduction of an integer to the 64-bit two's-complement range. -/
def wrapInt64 (n : Int) : Int :=
  (n + 9223372036854775808) % 18446744073709551616 - 9223372036854775808

/-- The Go statement `n++` on an `int`: plus one, wrapping from the largest
value to the smallest. -/
def goInc (n : Int) : Int := wrapInt64 (n + 1)

/-- The increment `GamesWon++`. -/
def creditWin (s : PlayerScore) : PlayerScore := { s with gamesWon := goInc s.gamesWon }

/-- The increment `GamesLost++`. -/
def creditLoss (s : PlayerScore) : PlayerScore := { s with gamesLost := goInc s.gamesLost }

/-- The scoring loop over the ranged player ids. The flag is true when
`lobby.Scores[id]` was nil for some id: the loop stops there with a panic and
the credits given so far remain. -/
def creditScores (spyID : String) (innocentWon : Bool) :
    List String → GoMap PlayerScore → GoMap PlayerScore × Bool
  | [], scores => (scores, false)
  | id :: rest, scores =>
    match scores.lookup id with
    | none => (scores, true)
    | some s =>
      let s :=
        if id = spyID then (if innocentWon then creditLoss s else creditWin s)
        else (if innocentWon then creditWin s else creditLoss s)
      creditScores spyID innocentWon rest (scores.insert id s)

/-- The handler of `POST /game/:code/vote`, from the cookie check on.
`maxVoteRounds` is the constant `game.MaxVoteRounds`; `suspectID` is the form
value `suspect` (empty when absent). -/
def gameHandleVoteCookie (maxVoteRounds : Int) (env : Env) (lobby : Lobby)
    (cookie : Option String) (suspectID : String) : Lobby × Response :=
  match cookie with
  | none => (lobby, .httpError "Unauthorized" 401)
  | some playerID =>
    match lobby.currentGame with
    | none => (lobby, .httpError "Not in voting phase" 400)
    | some g =>
      if g.status ≠ .voting then (lobby, .httpError "Not in voting phase" 400)
      else
        let g := { g with votes := g.votes.insert playerID suspectID }
        if g.votes.len = lobby.players.len then
          let voteCount := countVotes (env.rangeOrder 0 g.votes.entries)
          let playersWithMaxVotes := (tally (env.rangeOrder 1 voteCount.entries)).2
          if playersWithMaxVotes.length > 1 ∧ g.voteRound < maxVoteRounds then
            let g := { g with votes := ∅, voteRound := g.voteRound + 1 }
            ({ lobby with currentGame := some g }, .html)
          else
            let innocentWon : Bool :=
              decide (playersWithMaxVotes.length = 1) && (playersWithMaxVotes.head? == some g.spyID)
            let g := { g with status := .finished }
            let r := creditScores g.spyID innocentWon (rangePlayers env 2 lobby) lobby.scores
            ({ lobby with currentGame := some g, scores := r.1 },
             if r.2 then .panicked else .html)
        else ({ lobby with currentGame := some g }, .html)

/-! ## `gameHandleSubmitWord` and `assignSpyAndSelectWord` -/

/-- The loop assigning challenges and roles; `i` is the index of the first id
of the list in `playerIDs`. The flag is true when the loop panicked (modulo
by the length of an empty pool). -/
def assignRoles (shuffledChallenges : List String) (spyID : String) :
    Nat → List String → GoMap GamePlayerInfo → GoMap GamePlayerInfo × Bool
  | _, [], info => (info, false)
  | i, id :: rest, info =>
    if shuffledChallenges.length = 0 then (info, true)
    else
      match shuffledChallenges[i % shuffledChallenges.length]? with
      | none => (info, true)
      | some c =>
        assignRoles shuffledChallenges spyID (i + 1) rest
          (info.insert id { challenge := c, isSpy := decide (id = spyID) })

/-- The function `assignSpyAndSelectWord`. The flag is true when it panicked;
the game returned then holds the assignments made up to that point. -/
def assignSpyAndSelectWord (ctx : Context) (env : Env) (g : Game) (players : GoMap Player) :
    Game × Bool :=
  let words := (env.rangeOrder 2 g.customWords.entries).map Sigma.snd
  if words.length = 0 then (g, true)
  else
    match words[env.intn 0 words.length]? with
    | none => (g, true)
    | some selectedWord =>
      let g := { g with selectedCustomWord := selectedWord,
                        location := some { word := selectedWord, categories := ["custom"] } }
      let playerIDs := (env.rangeOrder 3 players.entries).map Sigma.fst
      if playerIDs.length = 0 then (g, true)
      else
        match playerIDs[env.intn 1 playerIDs.length]? with
        | none => (g, true)
        | some spyID =>
          let g := { g with spyID := spyID }
          match players.lookup spyID with
          | none => (g, true)
          | some p =>
            let g := { g with spyName := p.name }
            let shuffledChallenges := env.shuffle ctx.challenges
            let r := assignRoles shuffledChallenges g.spyID 0 playerIDs g.playerInfo
            ({ g with playerInfo := r.1 }, r.2)

/-- The sanitising step `if len(word) > 50 { word = word[:50] }`. -/
def truncateWord (word : GoString) : GoString :=
  if word.length > 50 then word.take 50 else word

/-- The count of true entries of `g.WordsSubmitted`. -/
def countSubmitted (entries : List (Σ _ : String, Bool)) : Nat :=
  entries.foldl (fun n e => if e.2 then n + 1 else n) 0

/-- The loop `for id := range lobby.Players { g.ReadyToReveal[id] = false }`. -/
def seedFalse (m : GoMap Bool) (ids : List String) : GoMap Bool :=
  ids.foldl (fun m id => m.insert id false) m

/-- The handler of `POST /game/:code/submit-word`, from the cookie check on.
`formWord` is the form value `word` (empty when absent). -/
def gameHandleSubmitWord (ctx : Context) (env : Env) (lobby : Lobby)
    (cookie : Option String) (formWord : GoString) : Lobby × Response :=
  match cookie with
  | none => (lobby, .httpError "Unauthorized" 401)
  | some playerID =>
    let word := TrimSpace formWord
    if word = [] then (lobby, .httpError "Word is required" 400)
    else
      let word := truncateWord word
      match lobby.currentGame with
      | none => (lobby, .httpError "Not in word collection phase" 400)
      | some g =>
        if g.status ≠ .wordCollection then
          (lobby, .httpError "Not in word collection phase" 400)
        else if g.wordsSubmitted.get playerID false then
          (lobby, .httpError "Word already submitted" 400)
        else
          let g := { g with customWords := g.customWords.insert playerID word,
                            wordsSubmitted := g.wordsSubmitted.insert playerID true }
          let wordsSubmittedCount := countSubmitted (env.rangeOrder 0 g.wordsSubmitted.entries)
          let totalPlayers := lobby.players.len
          if wordsSubmittedCount = totalPlayers then
            let r := assignSpyAndSelectWord ctx env g lobby.players
            if r.2 then ({ lobby with currentGame := some r.1 }, .panicked)
            else
              let g := { r.1 with
                status := .readyCheck,
                readyToReveal := seedFalse r.1.readyToReveal (rangePlayers env 1 lobby) }
              ({ lobby with currentGame := some g }, .hxRedirect .readyCheck)
          else ({ lobby with currentGame := some g }, .html)

/-! ## Specification-side notions -/

/-- The number of recorded votes naming `s` as the suspect. -/
def votesFor (votes : GoMap String) (s : String) : Nat :=
  votes.entries.countP (fun e => e.2 = s)

/-- The suspect `s` achieved the maximum vote count: it received a vote and
no suspect received more votes. -/
def isTopSuspect (votes : GoMap String) (s : String) : Prop :=
  0 < votesFor votes s ∧ ∀ t, votesFor votes t ≤ votesFor votes s

/-- At least two suspect ids share the maximum vote count. -/
def TopTie (votes : GoMap String) : Prop :=
  ∃ a b, a ≠ b ∧ isTopSuspect votes a ∧ isTopSuspect votes b

/-- Exactly one suspect id achieved the maximum vote count, and it is `s`. -/
def UniqueTop (votes : GoMap String) (s : String) : Prop :=
  isTopSuspect votes s ∧ ∀ t, isTopSuspect votes t → t = s

/-- The credit one player receives on resolution: the spy loses and everybody
else wins when the innocents won, and the other way round otherwise. -/
def creditOne (spyID : String) (innocentWon : Bool) (id : String) (s : PlayerScore) :
    PlayerScore :=
  if id = spyID then (if innocentWon then creditLoss s else creditWin s)
  else (if innocentWon then creditWin s else creditLoss s)

/-- The number of current room players whose entry in a readiness map is true. -/
def readyCountOf (players : GoMap Player) (m : GoMap Bool) : Nat :=
  players.keys.countP (fun id => m.get id false)

/-- The position of a phase in the order
WordCollection < ReadyCheck < RoleReveal < Playing < Voting < Finished
(`waiting`, which no handler acts on, sits before all of them). -/
def phaseRank : GameStatus → Nat
  | .waiting => 0
  | .wordCollection => 1
  | .readyCheck => 2
  | .roleReveal => 3
  | .playing => 4
  | .voting => 5
  | .finished => 6

/-- The readiness map owned by a phase. -/
def readyMapOf (phase : GameStatus) (g : Game) : GoMap Bool :=
  match phase with
  | .readyCheck => g.readyToReveal
  | .roleReveal => g.readyAfterReveal
  | .playing => g.readyToVote
  | _ => ∅

/-- The phase of the room's current game, if there is one. -/
def statusOf (lobby : Lobby) : Option GameStatus :=
  lobby.currentGame.map (fun g => g.status)

/-- One of the three state-mutating requests, with the cookie value it
presents (`none` when the cookie is missing) and its form value. -/
inductive Call where
  | toggleReady (cookie : Option String)
  | castVote (cookie : Option String) (suspectID : String)
  | submitWord (cookie : Option String) (formWord : GoString)

/-- Dispatch of a request to its handler, as in `HandleGameMux`. -/
def step (maxVoteRounds : Int) (ctx : Context) (env : Env) (lobby : Lobby) :
    Call → Lobby × Response
  | .toggleReady cookie => gameHandleReadyCookie env lobby cookie
  | .castVote cookie suspectID => gameHandleVoteCookie maxVoteRounds env lobby cookie suspectID
  | .submitWord cookie formWord => gameHandleSubmitWord ctx env lobby cookie formWord

/-- The room after a sequence of requests, each with its own environment,
and whether its mutex was left locked. The handlers call `lobby.Unlock()`
explicitly, without `defer`, so a request that panics leaves the mutex held:
every later request that reaches `lobby.Lock()` blocks there, and the state
stays as the panic left it. -/
def runLocked (maxVoteRounds : Int) (ctx : Context) :
    List (Env × Call) → Lobby → Lobby × Bool
  | [], lobby => (lobby, false)
  | c :: rest, lobby =>
    if (step maxVoteRounds ctx c.1 lobby c.2).2 = .panicked then
      ((step maxVoteRounds ctx c.1 lobby c.2).1, true)
    else runLocked maxVoteRounds ctx rest (step maxVoteRounds ctx c.1 lobby c.2).1

/-- The room after a sequence of requests. -/
def run (maxVoteRounds : Int) (ctx : Context) (calls : List (Env × Call)) (lobby : Lobby) :
    Lobby :=
  (runLocked maxVoteRounds ctx calls lobby).1

/-- The room after consecutive `ToggleReady` requests of one player, one per
environment of the list. -/
def toggleN (envs : List Env) (lobby : Lobby) (playerID : String) : Lobby :=
  envs.foldl (fun l env => (gameHandleReadyCookie env l (some playerID)).1) lobby

/-- The value of `innocentWon` in the vote handler. -/
def innocentWonOf (env : Env) (votes : GoMap String) (spyID : String) : Bool :=
  decide ((tally (env.rangeOrder 1 (countVotes (env.rangeOrder 0 votes.entries)).entries)).2.length = 1) &&
    ((tally (env.rangeOrder 1 (countVotes (env.rangeOrder 0 votes.entries)).entries)).2.head? == some spyID)

/-- Every current player for whom `wins` holds had `GamesWon++` applied once,
every other current player had `GamesLost++` applied once, and nothing else
differs between the two score maps. -/
def Credited (players : GoMap Player) (wins : String → Prop) [DecidablePred wins]
    (before after : GoMap PlayerScore) : Prop :=
  ∀ id,
    (id ∉ players → after.lookup id = before.lookup id) ∧
    (id ∈ players → ∃ s, before.lookup id = some s ∧
      after.lookup id = some (if wins id then { s with gamesWon := goInc s.gamesWon }
                              else { s with gamesLost := goInc s.gamesLost }))

/-- The room with its current game replaced. -/
def withGame (lobby : Lobby) (g : Game) : Lobby := { lobby with currentGame := some g }

/-- The number of players whose `wordsSubmitted` entry is true. -/
def submittedCount (m : GoMap Bool) : Nat :=
  m.entries.countP (fun e => e.2)

/-- What every request preserves: the set of players, the presence of a game,
and the presence of a score entry for each id of `covered`. -/
def RoomInv (covered : String → Prop) (lobby₀ lobby : Lobby) : Prop :=
  lobby.players = lobby₀.players ∧ (∃ g, lobby.currentGame = some g) ∧
    ∀ id, covered id → id ∈ lobby.scores

/-- The state of a room during and after the vote: the game is in Voting with
fewer votes than players, or Finished with at most as many. -/
def VoteInv (lobby₀ lobby : Lobby) : Prop :=
  lobby.players = lobby₀.players ∧
  ∃ g, lobby.currentGame = some g ∧
    ((g.status = .voting ∧ g.votes.len < lobby₀.players.len) ∨
     (g.status = .finished ∧ g.votes.len ≤ lobby₀.players.len))

/-- The player id a request presents in its cookie, if any. -/
def Call.cookie : Call → Option String
  | .toggleReady cookie => cookie
  | .castVote cookie _ => cookie
  | .submitWord cookie _ => cookie

/-- The keys of the three readiness maps and of the vote map of a game. -/
def gameKeys (g : Game) : List String :=
  g.readyToReveal.keys ++ g.readyAfterReveal.keys ++ g.readyToVote.keys ++ g.votes.keys

/-- The key sets of `readyToReveal`, `readyAfterReveal`, `readyToVote` and
`votes` are subsets of the ids of the current room players. -/
def DomainsWithin (lobby : Lobby) : Prop :=
  ∀ g, lobby.currentGame = some g → ∀ id ∈ gameKeys g, id ∈ lobby.players.keys

/-! ## Concrete rooms used to instantiate the theorems -/

/-- The environment that ranges in storage order, always draws 0 and shuffles
nothing. -/
def idEnv : Env where
  rangeOrder := fun _ l => l
  rangeOrder_perm := fun _ l => List.Perm.refl l
  intn := fun _ _ => 0
  intn_lt := fun _ _ h => h
  shuffle := fun l => l
  shuffle_perm := fun l => List.Perm.refl l
  now := 0

/-- The map holding the listed bindings. -/
def mapOf {V : Type} (l : List (String × V)) : GoMap V :=
  l.foldr (fun e m => m.insert e.1 e.2) ∅

/-- A game in the given phase with every map empty and vote round 1. -/
def emptyGame (mode : GameMode) (status : GameStatus) : Game where
  mode := mode
  location := none
  spyID := ""
  spyName := ""
  firstQuestioner := ""
  playerInfo := ∅
  status := status
  playStartedAt := 0
  customWords := ∅
  selectedCustomWord := []
  wordsSubmitted := ∅
  readyToReveal := ∅
  readyAfterReveal := ∅
  readyToVote := ∅
  votes := ∅
  voteRound := 1
  spyForfeited := false

/-- A room of the listed player ids (each named after its id, with a zero
score, the first one hosting) running the game `g`. -/
def roomOf (ids : List String) (g : Game) : Lobby where
  players := mapOf (ids.map (fun id => (id, { name := id })))
  scores := mapOf (ids.map (fun id => (id, { gamesWon := 0, gamesLost := 0 })))
  host := ids.headD ""
  currentGame := some g

/-- Four players in Voting, round 1, spy `p1`; `p2` and `p3` voted `p1`,
`p1` voted `p2`, and `p4` has not voted yet. -/
def votingGame4 : Game :=
  { emptyGame .standard .voting with
    spyID := "p1"
    votes := mapOf [("p1", "p2"), ("p2", "p1"), ("p3", "p1")] }

/-- The room of `votingGame4`. -/
def votingRoom4 : Lobby := roomOf ["p1", "p2", "p3", "p4"] votingGame4

/-- Three players in ReadyCheck; `a` and `b` are ready, `c` is not yet. -/
def readyGame3 : Game :=
  { emptyGame .standard .readyCheck with
    readyToReveal := mapOf [("a", true), ("b", true), ("c", false)] }

/-- The room of `readyGame3`. -/
def readyRoom3 : Lobby := roomOf ["a", "b", "c"] readyGame3

/-- Five players in Playing; `a` and `b` are ready to vote. -/
def playingGame5 : Game :=
  { emptyGame .standard .playing with
    readyToVote := mapOf [("a", true), ("b", true)] }

/-- The room of `playingGame5`. -/
def playingRoom5 : Lobby := roomOf ["a", "b", "c", "d", "e"] playingGame5

/-- Two players in WordCollection; `b` has submitted the word `y`. -/
def wordGame2 : Game :=
  { emptyGame .customWords .wordCollection with
    customWords := mapOf [("b", [0x79])]
    wordsSubmitted := mapOf [("b", true)] }

/-- The room of `wordGame2`. -/
def wordRoom2 : Lobby := roomOf ["a", "b"] wordGame2

/-- Three players in WordCollection; nobody has submitted yet. -/
def wordRoom3 : Lobby := roomOf ["a", "b", "c"] (emptyGame .customWords .wordCollection)

/-- Three players in ReadyCheck; only `a` is ready. -/
def soloGame3 : Game :=
  { emptyGame .standard .readyCheck with readyToReveal := mapOf [("a", true)] }

/-- The room of `soloGame3`. -/
def soloRoom3 : Lobby := roomOf ["a", "b", "c"] soloGame3

/-- Three players entering Voting: nobody has voted yet. -/
def freshVotingRoom3 : Lobby := roomOf ["a", "b", "c"] (emptyGame .standard .voting)

/-- Two players in a Finished game. -/
def finishedRoom2 : Lobby := roomOf ["a", "b"] (emptyGame .standard .finished)

/-- Two players in Voting, spy `a`; `a` voted `b` and `b` has not voted yet. -/
def lastVoteGame2 : Game :=
  { emptyGame .standard .voting with
    spyID := "a"
    votes := mapOf [("a", "b")] }

/-- The room of `lastVoteGame2` where only `b` has a score entry. -/
def noScoreRoom2 : Lobby where
  players := mapOf [("a", { name := "a" }), ("b", { name := "b" })]
  scores := mapOf [("b", { gamesWon := 0, gamesLost := 0 })]
  host := "a"
  currentGame := some lastVoteGame2

/-- The room of `lastVoteGame2` where `a` has won the largest `int` number of
games. -/
def maxScoreRoom2 : Lobby where
  players := mapOf [("a", { name := "a" }), ("b", { name := "b" })]
  scores := mapOf [("a", { gamesWon := maxInt64, gamesLost := 0 }),
                   ("b", { gamesWon := 0, gamesLost := 0 })]
  host := "a"
  currentGame := some lastVoteGame2

/-! ## White space, specification side -/

theorem rangePlayers_perm (env : Env) (site : Nat) (lobby : Lobby) :
    (rangePlayers env site lobby).Perm lobby.players.keys := by
  unfold rangePlayers AList.keys List.keys
  exact (env.rangeOrder_perm site _).map _

theorem countReady_loop (m : GoMap Bool) (ids : List String) (n : Nat) :
    ids.foldl (fun n id => if m.get id false then n + 1 else n) n
      = n + ids.countP (fun id => m.get id false) := by
  induction ids generalizing n with
  | nil => simp
  | cons a t ih =>
    simp only [List.foldl_cons, ih, List.countP_cons]
    by_cases h : m.get a false = true <;> simp [h]; omega

theorem countReady_eq (m : GoMap Bool) (ids : List String) :
    countReady m ids = ids.countP (fun id => m.get id false) := by
  simp [countReady, countReady_loop]

theorem mem_rangePlayers (env : Env) (site : Nat) (lobby : Lobby) (id : String) :
    id ∈ rangePlayers env site lobby ↔ id ∈ lobby.players := by
  rw [(rangePlayers_perm env site lobby).mem_iff, AList.mem_keys]

theorem length_rangePlayers (env : Env) (site : Nat) (lobby : Lobby) :
    (rangePlayers env site lobby).length = lobby.players.len := by
  rw [(rangePlayers_perm env site lobby).length_eq]
  simp [GoMap.len, AList.keys, List.keys]

theorem preSeed_lookup_loop (ids : List String) (m : GoMap Bool) (q : String) :
    (preSeed m ids).lookup q =
      if (m.lookup q).isSome then m.lookup q else if q ∈ ids then some false else none := by
  induction ids generalizing m with
  | nil => cases h : m.lookup q <;> simp [preSeed, h]
  | cons a t ih =>
    have : preSeed m (a :: t) = preSeed (if (m.lookup a).isSome then m else m.insert a false) t := rfl
    rw [this, ih]
    by_cases ha : (m.lookup a).isSome
    · simp only [ha, if_true]
      by_cases hq : (m.lookup q).isSome
      · simp [hq]
      · have : q ≠ a := by rintro rfl; exact hq ha
        simp [hq, this]
    · simp only [ha]
      by_cases hqa : q = a
      · subst hqa; simp [ha]
      · simp [AList.lookup_insert_ne hqa, hqa]

theorem countVotes_loop (entries : List (Σ _ : String, String)) (vc : GoMap Int) (s : String) :
    (entries.foldl (fun vc e => vc.insert e.2 (vc.get e.2 0 + 1)) vc).lookup s =
      if s ∈ vc ∨ ∃ e ∈ entries, e.2 = s then
        some (vc.get s 0 + (entries.countP (fun e => e.2 = s) : Nat))
      else none := by
  induction entries generalizing vc with
  | nil =>
    by_cases h : s ∈ vc
    · obtain ⟨v, hv⟩ := Option.isSome_iff_exists.mp (AList.lookup_isSome.mpr h)
      simp [h, GoMap.get, hv]
    · simp [h, AList.lookup_eq_none.mpr h]
  | cons a t ih =>
    rw [List.foldl_cons, ih]
    by_cases hs : a.2 = s
    · subst hs
      simp [GoMap.get, AList.lookup_insert, List.countP_cons]
      ring
    · have hs' : s ≠ a.2 := fun h => hs h.symm
      simp only [AList.mem_insert, GoMap.get, AList.lookup_insert_ne hs', List.mem_cons,
        exists_eq_or_imp, hs, false_or, hs', List.countP_cons, decide_False]
      simp

theorem countVotes_lookup (entries : List (Σ _ : String, String)) (s : String) :
    (countVotes entries).lookup s =
      if 0 < entries.countP (fun e => e.2 = s) then
        some ((entries.countP (fun e => e.2 = s) : Nat) : Int)
      else none := by
  unfold countVotes
  rw [countVotes_loop]
  have h : (s ∈ (∅ : GoMap Int) ∨ ∃ e ∈ entries, e.2 = s) ↔
      0 < entries.countP (fun e => e.2 = s) := by
    simp [List.countP_pos_iff, AList.not_mem_empty]
  simp only [h, GoMap.get, AList.lookup_empty, Option.getD_none, zero_add]

theorem tally_snoc (l : List (Σ _ : String, Int)) (e : Σ _ : String, Int) :
    tally (l ++ [e]) = tallyStep (tally l) e := by
  simp [tally, List.foldl_append]

theorem tally_spec (l : List (Σ _ : String, Int)) :
    (tally l).2 = (l.filter (fun e => e.2 = (tally l).1)).map Sigma.fst ∧
    (∀ e ∈ l, e.2 ≤ (tally l).1) ∧
    ((tally l).1 = 0 ∨ ∃ e ∈ l, e.2 = (tally l).1) := by
  induction l using List.reverseRecOn with
  | nil => simp [tally]
  | append_singleton l e ih =>
    obtain ⟨h1, h2, h3⟩ := ih
    rw [tally_snoc]
    unfold tallyStep
    by_cases hgt : e.2 > (tally l).1
    · simp only [hgt, if_true]
      refine ⟨?_, ?_, ?_⟩
      · have : l.filter (fun x => decide (x.2 = e.2)) = [] := by
          rw [List.filter_eq_nil_iff]
          intro x hx
          have := h2 x hx
          simp; omega
        simp [List.filter_append, this]
      · intro x hx
        rcases List.mem_append.mp hx with hx | hx
        · have := h2 x hx; omega
        · simp at hx; subst hx; exact le_refl _
      · right; exact ⟨e, by simp, rfl⟩
    · simp only [hgt, if_false]
      by_cases heq : e.2 = (tally l).1
      · simp only [heq, if_true]
        refine ⟨?_, ?_, ?_⟩
        · simp [List.filter_append, heq, h1]
        · intro x hx
          rcases List.mem_append.mp hx with hx | hx
          · exact h2 x hx
          · simp at hx; subst hx; omega
        · right; exact ⟨e, by simp, heq⟩
      · simp only [heq, if_false]
        refine ⟨?_, ?_, ?_⟩
        · simp [List.filter_append, heq, h1]
        · intro x hx
          rcases List.mem_append.mp hx with hx | hx
          · exact h2 x hx
          · simp at hx; subst hx; omega
        · rcases h3 with h3 | ⟨x, hx, hx'⟩
          · left; exact h3
          · right; exact ⟨x, by simp [hx], hx'⟩

theorem mem_voteCount (votes : GoMap String) (E : List (Σ _ : String, String))
    (hE : E.Perm votes.entries) (L : List (Σ _ : String, Int))
    (hL : L.Perm (countVotes E).entries) (s : String) (c : Int) :
    (⟨s, c⟩ : Σ _ : String, Int) ∈ L ↔ 0 < votesFor votes s ∧ c = (votesFor votes s : Int) := by
  rw [hL.mem_iff, ← AList.mem_lookup_iff, countVotes_lookup, hE.countP_eq]
  unfold votesFor
  by_cases h : 0 < List.countP (fun e => decide (e.snd = s)) votes.entries
  · simp only [h, if_true, Option.mem_def, Option.some.injEq, true_and]
    exact eq_comm
  · simp [h]

theorem tops_spec (votes : GoMap String) (E : List (Σ _ : String, String))
    (hE : E.Perm votes.entries) (L : List (Σ _ : String, Int))
    (hL : L.Perm (countVotes E).entries) :
    (tally L).2.Nodup ∧ ∀ s, s ∈ (tally L).2 ↔ isTopSuspect votes s := by
  obtain ⟨h1, h2, h3⟩ := tally_spec L
  have hmem := mem_voteCount votes E hE L hL
  constructor
  · rw [h1]
    have hk : (L.map Sigma.fst).Nodup := by
      have := (countVotes E).nodupKeys
      exact (hL.map Sigma.fst).nodup_iff.mpr this
    exact (List.filter_sublist L).map Sigma.fst |>.nodup hk
  · intro s
    rw [h1, List.mem_map]
    constructor
    · rintro ⟨⟨s', c⟩, he, hs⟩
      simp only at hs
      subst hs
      rw [List.mem_filter] at he
      obtain ⟨he, hc⟩ := he
      have hc : c = (tally L).1 := by simpa using hc
      obtain ⟨hpos, hcs⟩ := (hmem s' c).mp he
      refine ⟨hpos, fun t => ?_⟩
      by_cases ht : 0 < votesFor votes t
      · have hle := h2 ⟨t, (votesFor votes t : Int)⟩ ((hmem t _).mpr ⟨ht, rfl⟩)
        simp only at hle
        omega
      · omega
    · rintro ⟨hpos, hmax⟩
      refine ⟨⟨s, (votesFor votes s : Int)⟩, ?_, rfl⟩
      have hin := (hmem s _).mpr ⟨hpos, rfl⟩
      rw [List.mem_filter]
      refine ⟨hin, ?_⟩
      have hle := h2 _ hin
      simp only at hle
      rcases h3 with h3 | ⟨⟨u, c⟩, hu, hc⟩
      · omega
      · obtain ⟨_, hcu⟩ := (hmem u c).mp hu
        have := hmax u
        simp only at hc
        simp only [decide_eq_true_eq]
        omega

theorem nodup_length_gt_one {α : Type} (l : List α) (h : l.Nodup) :
    1 < l.length ↔ ∃ a b, a ≠ b ∧ a ∈ l ∧ b ∈ l := by
  match l, h with
  | [], _ => simp
  | [a], _ =>
    simp only [List.length_singleton, lt_self_iff_false, List.mem_singleton, false_iff]
    rintro ⟨x, y, hne, rfl, rfl⟩
    exact hne rfl
  | a :: b :: t, h =>
    simp only [List.length_cons, true_iff]
    constructor
    · intro _
      refine ⟨a, b, ?_, by simp, by simp⟩
      intro hab
      simp [hab] at h
    · intro _; omega

theorem singleton_head_iff {α : Type} [DecidableEq α] (l : List α) (h : l.Nodup) (x : α) :
    ((decide (l.length = 1) && (l.head? == some x)) = true) ↔ (x ∈ l ∧ ∀ y ∈ l, y = x) := by
  match l, h with
  | [], _ => simp
  | [a], _ =>
    simp only [List.length_singleton, decide_True, List.head?_cons, Bool.true_and, beq_iff_eq,
      Option.some.injEq, List.mem_singleton, forall_eq]
    constructor
    · intro h; exact ⟨h.symm, h⟩
    · intro h; exact h.2
  | a :: b :: t, h =>
    have hab : a ≠ b := by intro hab; simp [hab] at h
    simp only [List.length_cons, List.mem_cons]
    constructor
    · intro h; simp at h
    · rintro ⟨_, hall⟩
      exact absurd ((hall a (Or.inl rfl)).trans (hall b (Or.inr (Or.inl rfl))).symm) hab

theorem creditScores_mem (spyID : String) (w : Bool) (ids : List String)
    (scores : GoMap PlayerScore) (id : String) :
    id ∈ (creditScores spyID w ids scores).1 ↔ id ∈ scores := by
  induction ids generalizing scores with
  | nil => simp [creditScores]
  | cons a t ih =>
    unfold creditScores
    cases h : scores.lookup a with
    | none => simp
    | some s =>
      simp only [ih, AList.mem_insert]
      constructor
      · rintro (rfl | h')
        · exact AList.lookup_isSome.mp (by simp [h])
        · exact h'
      · exact Or.inr

theorem creditScores_spec (spyID : String) (w : Bool) (ids : List String) (hnd : ids.Nodup)
    (scores : GoMap PlayerScore) (hcov : ∀ id ∈ ids, id ∈ scores) :
    (creditScores spyID w ids scores).2 = false ∧
    ∀ id, (creditScores spyID w ids scores).1.lookup id =
      if id ∈ ids then (scores.lookup id).map (creditOne spyID w id) else scores.lookup id := by
  induction ids generalizing scores with
  | nil => simp [creditScores]
  | cons a t ih =>
    have ha : a ∈ scores := hcov a (by simp)
    obtain ⟨s, hs⟩ := Option.isSome_iff_exists.mp (AList.lookup_isSome.mpr ha)
    have hnd' := List.nodup_cons.mp hnd
    have hcov' : ∀ id ∈ t, id ∈ AList.insert a (creditOne spyID w a s) scores := by
      intro id hid
      exact (AList.mem_insert _).mpr (Or.inr (hcov id (by simp [hid])))
    obtain ⟨ih1, ih2⟩ := ih hnd'.2 (AList.insert a (creditOne spyID w a s) scores) hcov'
    have hunf : creditScores spyID w (a :: t) scores =
        creditScores spyID w t (AList.insert a (creditOne spyID w a s) scores) := by
      rw [creditScores]
      simp only [hs]
      rfl
    rw [hunf]
    refine ⟨ih1, fun id => ?_⟩
    rw [ih2]
    by_cases hida : id = a
    · subst hida
      simp [hnd'.1, AList.lookup_insert, hs]
    · simp [hida, AList.lookup_insert_ne hida]

/-- The list `playersWithMaxVotes` computed by the vote handler. -/
theorem playersWithMaxVotes_spec (env : Env) (votes : GoMap String) :
    (tally (env.rangeOrder 1 (countVotes (env.rangeOrder 0 votes.entries)).entries)).2.Nodup ∧
    ∀ s, s ∈ (tally (env.rangeOrder 1 (countVotes (env.rangeOrder 0 votes.entries)).entries)).2 ↔
      isTopSuspect votes s :=
  tops_spec votes _ (env.rangeOrder_perm 0 _) _ (env.rangeOrder_perm 1 _)

theorem topTie_iff (env : Env) (votes : GoMap String) :
    (tally (env.rangeOrder 1 (countVotes (env.rangeOrder 0 votes.entries)).entries)).2.length > 1 ↔
      TopTie votes := by
  obtain ⟨hnd, hmem⟩ := playersWithMaxVotes_spec env votes
  rw [gt_iff_lt, nodup_length_gt_one _ hnd]
  unfold TopTie
  simp only [hmem]

theorem uniqueTop_iff (env : Env) (votes : GoMap String) (spyID : String) :
    ((decide ((tally (env.rangeOrder 1 (countVotes (env.rangeOrder 0 votes.entries)).entries)).2.length = 1) &&
      ((tally (env.rangeOrder 1 (countVotes (env.rangeOrder 0 votes.entries)).entries)).2.head? == some spyID)) = true) ↔
      UniqueTop votes spyID := by
  obtain ⟨hnd, hmem⟩ := playersWithMaxVotes_spec env votes
  rw [singleton_head_iff _ hnd]
  unfold UniqueTop
  simp only [hmem]

theorem vote_recorded (maxVoteRounds : Int) (env : Env) (lobby : Lobby) (g : Game)
    (playerID suspectID : String)
    (hg : lobby.currentGame = some g) (hs : g.status = .voting)
    (hpart : GoMap.len (g.votes.insert playerID suspectID) ≠ lobby.players.len) :
    gameHandleVoteCookie maxVoteRounds env lobby (some playerID) suspectID =
      ({ lobby with currentGame := some { g with votes := g.votes.insert playerID suspectID } },
       .html) := by
  simp only [gameHandleVoteCookie, hg, hs, ne_eq, not_true_eq_false, if_false, hpart]

theorem vote_revote (maxVoteRounds : Int) (env : Env) (lobby : Lobby) (g : Game)
    (playerID suspectID : String)
    (hg : lobby.currentGame = some g) (hs : g.status = .voting)
    (hfull : GoMap.len (g.votes.insert playerID suspectID) = lobby.players.len)
    (htie : TopTie (g.votes.insert playerID suspectID) ∧ g.voteRound < maxVoteRounds) :
    gameHandleVoteCookie maxVoteRounds env lobby (some playerID) suspectID =
      ({ lobby with currentGame := some { g with votes := ∅, voteRound := g.voteRound + 1 } },
       .html) := by
  have h := (topTie_iff env (g.votes.insert playerID suspectID)).mpr htie.1
  simp only [gameHandleVoteCookie, hg, hs, hfull, ne_eq, not_true_eq_false, if_false, if_true]
  rw [if_pos ⟨h, htie.2⟩]

theorem vote_finish (maxVoteRounds : Int) (env : Env) (lobby : Lobby) (g : Game)
    (playerID suspectID : String)
    (hg : lobby.currentGame = some g) (hs : g.status = .voting)
    (hfull : GoMap.len (g.votes.insert playerID suspectID) = lobby.players.len)
    (htie : ¬ (TopTie (g.votes.insert playerID suspectID) ∧ g.voteRound < maxVoteRounds)) :
    gameHandleVoteCookie maxVoteRounds env lobby (some playerID) suspectID =
      ({ lobby with
          currentGame := some { g with votes := g.votes.insert playerID suspectID,
                                       status := .finished },
          scores := (creditScores g.spyID
            (innocentWonOf env (g.votes.insert playerID suspectID) g.spyID)
            (rangePlayers env 2 lobby) lobby.scores).1 },
       if (creditScores g.spyID
            (innocentWonOf env (g.votes.insert playerID suspectID) g.spyID)
            (rangePlayers env 2 lobby) lobby.scores).2 then .panicked else .html) := by
  rw [← topTie_iff env (g.votes.insert playerID suspectID)] at htie
  simp only [gameHandleVoteCookie, hg, hs, hfull, ne_eq, not_true_eq_false, if_false, if_true]
  rw [if_neg htie]
  rfl

theorem statusOf_eq (lobby : Lobby) (g : Game) (h : lobby.currentGame = some g) :
    statusOf lobby = some g.status := by
  simp [statusOf, h]

theorem countReady_rangePlayers (env : Env) (site : Nat) (lobby : Lobby) (m : GoMap Bool) :
    countReady m (rangePlayers env site lobby) = readyCountOf lobby.players m := by
  rw [countReady_eq, readyCountOf]
  exact (rangePlayers_perm env site lobby).countP_eq _

theorem advancePhase_status (env : Env) (lobby : Lobby) (g : Game) :
    (advancePhase env lobby g .readyCheck).1.status = .roleReveal ∧
    (advancePhase env lobby g .roleReveal).1.status = .playing ∧
    (advancePhase env lobby g .playing).1.status = .voting := by
  refine ⟨rfl, ?_, rfl⟩
  unfold advancePhase
  simp only
  split
  · rfl
  · split <;> rfl

theorem advancePhase_maps (env : Env) (lobby : Lobby) (g : Game) :
    (advancePhase env lobby g .readyCheck).1.readyToReveal = g.readyToReveal ∧
    (advancePhase env lobby g .roleReveal).1.readyAfterReveal = g.readyAfterReveal ∧
    (advancePhase env lobby g .roleReveal).1.readyToReveal = g.readyToReveal ∧
    (advancePhase env lobby g .playing).1.readyToVote = g.readyToVote := by
  refine ⟨rfl, ?_, ?_, rfl⟩
  all_goals
    unfold advancePhase
    simp only
    split
    · rfl
    · split <;> rfl

/-- The ready handler on a game in ReadyCheck. -/
theorem ready_readyCheck (env : Env) (lobby : Lobby) (g : Game) (playerID : String)
    (hg : lobby.currentGame = some g) (hs : g.status = .readyCheck) :
    gameHandleReadyCookie env lobby (some playerID) =
      if readyCountOf lobby.players (toggle g.readyToReveal playerID) = lobby.players.len then
        (withGame lobby
          (advancePhase env lobby { g with readyToReveal := toggle g.readyToReveal playerID } .readyCheck).1,
         (advancePhase env lobby { g with readyToReveal := toggle g.readyToReveal playerID } .readyCheck).2)
      else (withGame lobby { g with readyToReveal := toggle g.readyToReveal playerID }, .html) := by
  simp only [gameHandleReadyCookie, hg, toggleReady, hs, countReady_rangePlayers, shouldAdvance,
    decide_eq_true_eq, withGame]

theorem ready_roleReveal (env : Env) (lobby : Lobby) (g : Game) (playerID : String)
    (hg : lobby.currentGame = some g) (hs : g.status = .roleReveal) :
    gameHandleReadyCookie env lobby (some playerID) =
      if readyCountOf lobby.players (toggle g.readyAfterReveal playerID) = lobby.players.len then
        (withGame lobby
          (advancePhase env lobby { g with readyAfterReveal := toggle g.readyAfterReveal playerID } .roleReveal).1,
         (advancePhase env lobby { g with readyAfterReveal := toggle g.readyAfterReveal playerID } .roleReveal).2)
      else (withGame lobby { g with readyAfterReveal := toggle g.readyAfterReveal playerID }, .html) := by
  simp only [gameHandleReadyCookie, hg, toggleReady, hs, countReady_rangePlayers, shouldAdvance,
    decide_eq_true_eq, withGame]

theorem ready_playing (env : Env) (lobby : Lobby) (g : Game) (playerID : String)
    (hg : lobby.currentGame = some g) (hs : g.status = .playing) :
    gameHandleReadyCookie env lobby (some playerID) =
      if readyCountOf lobby.players (toggle g.readyToVote playerID) > lobby.players.len / 2 then
        (withGame lobby
          (advancePhase env lobby { g with readyToVote := toggle g.readyToVote playerID } .playing).1,
         (advancePhase env lobby { g with readyToVote := toggle g.readyToVote playerID } .playing).2)
      else (withGame lobby { g with readyToVote := toggle g.readyToVote playerID }, .html) := by
  simp only [gameHandleReadyCookie, hg, toggleReady, hs, countReady_rangePlayers, shouldAdvance,
    decide_eq_true_eq, withGame]

theorem ready_other (env : Env) (lobby : Lobby) (g : Game) (playerID : String)
    (hg : lobby.currentGame = some g)
    (h1 : g.status ≠ .readyCheck) (h2 : g.status ≠ .roleReveal) (h3 : g.status ≠ .playing) :
    gameHandleReadyCookie env lobby (some playerID) =
      (lobby, .httpError "Invalid game phase" 400) := by
  have : toggleReady g playerID = none := by
    unfold toggleReady
    cases h : g.status <;> simp_all
  simp only [gameHandleReadyCookie, hg, this]

theorem assignSpy_fields (ctx : Context) (env : Env) (g : Game) (players : GoMap Player) :
    (assignSpyAndSelectWord ctx env g players).1.status = g.status ∧
    (assignSpyAndSelectWord ctx env g players).1.customWords = g.customWords ∧
    (assignSpyAndSelectWord ctx env g players).1.wordsSubmitted = g.wordsSubmitted ∧
    (assignSpyAndSelectWord ctx env g players).1.readyToReveal = g.readyToReveal ∧
    (assignSpyAndSelectWord ctx env g players).1.readyAfterReveal = g.readyAfterReveal ∧
    (assignSpyAndSelectWord ctx env g players).1.readyToVote = g.readyToVote ∧
    (assignSpyAndSelectWord ctx env g players).1.votes = g.votes ∧
    (assignSpyAndSelectWord ctx env g players).1.voteRound = g.voteRound := by
  unfold assignSpyAndSelectWord
  simp only
  split
  · simp
  · split
    · simp
    · split
      · simp
      · split
        · simp
        · split <;> simp

/-- The submit handler once all its guards are passed. -/
theorem submit_accepted (ctx : Context) (env : Env) (lobby : Lobby) (g : Game)
    (playerID : String) (formWord : GoString)
    (hw : TrimSpace formWord ≠ [])
    (hg : lobby.currentGame = some g) (hs : g.status = .wordCollection)
    (hnew : g.wordsSubmitted.get playerID false = false) :
    gameHandleSubmitWord ctx env lobby (some playerID) formWord =
      if countSubmitted (env.rangeOrder 0 (g.wordsSubmitted.insert playerID true).entries)
          = lobby.players.len then
        if (assignSpyAndSelectWord ctx env
            { g with customWords := g.customWords.insert playerID (truncateWord (TrimSpace formWord)),
                     wordsSubmitted := g.wordsSubmitted.insert playerID true } lobby.players).2 then
          (withGame lobby (assignSpyAndSelectWord ctx env
            { g with customWords := g.customWords.insert playerID (truncateWord (TrimSpace formWord)),
                     wordsSubmitted := g.wordsSubmitted.insert playerID true } lobby.players).1,
           .panicked)
        else
          (withGame lobby
            { (assignSpyAndSelectWord ctx env
                { g with customWords := g.customWords.insert playerID (truncateWord (TrimSpace formWord)),
                         wordsSubmitted := g.wordsSubmitted.insert playerID true } lobby.players).1 with
              status := .readyCheck,
              readyToReveal := seedFalse (assignSpyAndSelectWord ctx env
                { g with customWords := g.customWords.insert playerID (truncateWord (TrimSpace formWord)),
                         wordsSubmitted := g.wordsSubmitted.insert playerID true } lobby.players).1.readyToReveal
                (rangePlayers env 1 lobby) },
           .hxRedirect .readyCheck)
      else
        (withGame lobby
          { g with customWords := g.customWords.insert playerID (truncateWord (TrimSpace formWord)),
                   wordsSubmitted := g.wordsSubmitted.insert playerID true },
         .html) := by
  simp only [gameHandleSubmitWord, hw, hg, hs, hnew, if_false, ne_eq, not_true_eq_false,
    Bool.false_eq_true, withGame]

/-- The submit handler changes the room only when all its guards are passed. -/
theorem submit_rejected (ctx : Context) (env : Env) (lobby : Lobby)
    (cookie : Option String) (formWord : GoString)
    (h : ∀ playerID g, cookie = some playerID → lobby.currentGame = some g →
      ¬ (TrimSpace formWord ≠ [] ∧ g.status = .wordCollection ∧
        g.wordsSubmitted.get playerID false = false)) :
    (gameHandleSubmitWord ctx env lobby cookie formWord).1 = lobby ∧
    ∃ msg code, (gameHandleSubmitWord ctx env lobby cookie formWord).2 = .httpError msg code := by
  unfold gameHandleSubmitWord
  cases cookie with
  | none => exact ⟨rfl, _, _, rfl⟩
  | some playerID =>
    simp only
    by_cases hw : TrimSpace formWord = []
    · rw [if_pos hw]; exact ⟨rfl, _, _, rfl⟩
    · rw [if_neg hw]
      cases hg : lobby.currentGame with
      | none => exact ⟨rfl, _, _, rfl⟩
      | some g =>
        simp only
        by_cases hs : g.status = .wordCollection
        · have hsub : g.wordsSubmitted.get playerID false = true := by
            cases hb : g.wordsSubmitted.get playerID false
            · exact absurd ⟨hw, hs, hb⟩ (h playerID g rfl hg)
            · rfl
          simp only [hs, ne_eq, not_true_eq_false, if_false, hsub, if_true]
          exact ⟨trivial, _, _, rfl⟩
        · simp only [ne_eq, hs, not_false_eq_true, if_true]
          exact ⟨trivial, _, _, rfl⟩

theorem vote_rejected (maxVoteRounds : Int) (env : Env) (lobby : Lobby)
    (cookie : Option String) (suspectID : String)
    (h : ∀ playerID g, cookie = some playerID → lobby.currentGame = some g →
      g.status ≠ .voting) :
    (gameHandleVoteCookie maxVoteRounds env lobby cookie suspectID).1 = lobby ∧
    ∃ msg code, (gameHandleVoteCookie maxVoteRounds env lobby cookie suspectID).2
      = .httpError msg code := by
  unfold gameHandleVoteCookie
  cases cookie with
  | none => exact ⟨rfl, _, _, rfl⟩
  | some playerID =>
    cases hg : lobby.currentGame with
    | none => exact ⟨rfl, _, _, rfl⟩
    | some g =>
      simp only [h playerID g rfl hg, ne_eq, not_false_eq_true, if_true]
      exact ⟨trivial, _, _, rfl⟩

theorem ready_rejected (env : Env) (lobby : Lobby) (cookie : Option String)
    (h : ∀ playerID g, cookie = some playerID → lobby.currentGame = some g →
      g.status ≠ .readyCheck ∧ g.status ≠ .roleReveal ∧ g.status ≠ .playing) :
    (gameHandleReadyCookie env lobby cookie).1 = lobby ∧
    ∃ msg code, (gameHandleReadyCookie env lobby cookie).2 = .httpError msg code := by
  cases cookie with
  | none => exact ⟨rfl, _, _, rfl⟩
  | some playerID =>
    cases hg : lobby.currentGame with
    | none =>
      simp only [gameHandleReadyCookie, hg]
      exact ⟨trivial, _, _, rfl⟩
    | some g =>
      obtain ⟨h1, h2, h3⟩ := h playerID g rfl hg
      rw [ready_other env lobby g playerID hg h1 h2 h3]
      exact ⟨rfl, _, _, rfl⟩

theorem ready_step_cases (env : Env) (lobby : Lobby) (g : Game) (cookie : Option String)
    (hg : lobby.currentGame = some g) :
    ∃ g', (gameHandleReadyCookie env lobby cookie).1.currentGame = some g' ∧
      (gameHandleReadyCookie env lobby cookie).1.scores = lobby.scores ∧
      (gameHandleReadyCookie env lobby cookie).1.players = lobby.players ∧
      ((gameHandleReadyCookie env lobby cookie).1 = lobby ∨
       (g.status = .readyCheck ∧ (g'.status = .readyCheck ∨ g'.status = .roleReveal)) ∨
       (g.status = .roleReveal ∧ (g'.status = .roleReveal ∨ g'.status = .playing)) ∨
       (g.status = .playing ∧ (g'.status = .playing ∨ g'.status = .voting))) := by
  by_cases hrej : ∀ playerID g, cookie = some playerID → lobby.currentGame = some g →
      g.status ≠ .readyCheck ∧ g.status ≠ .roleReveal ∧ g.status ≠ .playing
  · obtain ⟨h, _⟩ := ready_rejected env lobby cookie hrej
    rw [h]
    exact ⟨g, hg, rfl, rfl, Or.inl rfl⟩
  · push_neg at hrej
    obtain ⟨playerID, g₁, hc, hg₁, hph⟩ := hrej
    have : g₁ = g := by rw [hg] at hg₁; exact (Option.some.inj hg₁).symm
    subst this hc
    by_cases h1 : g₁.status = .readyCheck
    · rw [ready_readyCheck env lobby g₁ playerID hg h1]
      split
      · exact ⟨_, rfl, rfl, rfl, Or.inr (Or.inl ⟨h1, Or.inr rfl⟩)⟩
      · exact ⟨_, rfl, rfl, rfl, Or.inr (Or.inl ⟨h1, Or.inl h1⟩)⟩
    · by_cases h2 : g₁.status = .roleReveal
      · rw [ready_roleReveal env lobby g₁ playerID hg h2]
        split
        · exact ⟨_, rfl, rfl, rfl, Or.inr (Or.inr (Or.inl
            ⟨h2, Or.inr (advancePhase_status env lobby _).2.1⟩))⟩
        · exact ⟨_, rfl, rfl, rfl, Or.inr (Or.inr (Or.inl ⟨h2, Or.inl h2⟩))⟩
      · have h3 := hph h1 h2
        rw [ready_playing env lobby g₁ playerID hg h3]
        split
        · exact ⟨_, rfl, rfl, rfl, Or.inr (Or.inr (Or.inr ⟨h3, Or.inr rfl⟩))⟩
        · exact ⟨_, rfl, rfl, rfl, Or.inr (Or.inr (Or.inr ⟨h3, Or.inl h3⟩))⟩

theorem submit_step_cases (ctx : Context) (env : Env) (lobby : Lobby) (g : Game)
    (cookie : Option String) (formWord : GoString)
    (hg : lobby.currentGame = some g) :
    ∃ g', (gameHandleSubmitWord ctx env lobby cookie formWord).1.currentGame = some g' ∧
      (gameHandleSubmitWord ctx env lobby cookie formWord).1.scores = lobby.scores ∧
      (gameHandleSubmitWord ctx env lobby cookie formWord).1.players = lobby.players ∧
      ((gameHandleSubmitWord ctx env lobby cookie formWord).1 = lobby ∨
       (g.status = .wordCollection ∧
         (g'.status = .wordCollection ∨ g'.status = .readyCheck))) := by
  by_cases hrej : ∀ playerID g, cookie = some playerID → lobby.currentGame = some g →
      ¬ (TrimSpace formWord ≠ [] ∧ g.status = .wordCollection ∧
        g.wordsSubmitted.get playerID false = false)
  · obtain ⟨h, _⟩ := submit_rejected ctx env lobby cookie formWord hrej
    rw [h]
    exact ⟨g, hg, rfl, rfl, Or.inl rfl⟩
  · push_neg at hrej
    obtain ⟨playerID, g₁, hc, hg₁, hw, hs, hnew⟩ := hrej
    have : g₁ = g := by rw [hg] at hg₁; exact (Option.some.inj hg₁).symm
    subst this hc
    rw [submit_accepted ctx env lobby g₁ playerID formWord hw hg hs hnew]
    split
    · split
      · refine ⟨_, rfl, rfl, rfl, Or.inr ⟨hs, Or.inl ?_⟩⟩
        rw [(assignSpy_fields ctx env _ lobby.players).1]
        exact hs
      · exact ⟨_, rfl, rfl, rfl, Or.inr ⟨hs, Or.inr rfl⟩⟩
    · exact ⟨_, rfl, rfl, rfl, Or.inr ⟨hs, Or.inl hs⟩⟩

theorem vote_step_cases (maxVoteRounds : Int) (env : Env) (lobby : Lobby) (g : Game)
    (cookie : Option String) (suspectID : String)
    (hg : lobby.currentGame = some g) :
    ∃ g', (gameHandleVoteCookie maxVoteRounds env lobby cookie suspectID).1.currentGame = some g' ∧
      (gameHandleVoteCookie maxVoteRounds env lobby cookie suspectID).1.players = lobby.players ∧
      ((gameHandleVoteCookie maxVoteRounds env lobby cookie suspectID).1 = lobby ∨
       ∃ playerID, cookie = some playerID ∧ g.status = .voting ∧
        ((GoMap.len (g.votes.insert playerID suspectID) ≠ lobby.players.len ∧
          g' = { g with votes := g.votes.insert playerID suspectID } ∧
          (gameHandleVoteCookie maxVoteRounds env lobby cookie suspectID).1.scores = lobby.scores) ∨
         (GoMap.len (g.votes.insert playerID suspectID) = lobby.players.len ∧
          (TopTie (g.votes.insert playerID suspectID) ∧ g.voteRound < maxVoteRounds) ∧
          g' = { g with votes := ∅, voteRound := g.voteRound + 1 } ∧
          (gameHandleVoteCookie maxVoteRounds env lobby cookie suspectID).1.scores = lobby.scores) ∨
         (GoMap.len (g.votes.insert playerID suspectID) = lobby.players.len ∧
          ¬ (TopTie (g.votes.insert playerID suspectID) ∧ g.voteRound < maxVoteRounds) ∧
          g'.status = .finished))) := by
  by_cases hrej : ∀ playerID g, cookie = some playerID → lobby.currentGame = some g →
      g.status ≠ .voting
  · obtain ⟨h, _⟩ := vote_rejected maxVoteRounds env lobby cookie suspectID hrej
    rw [h]
    exact ⟨g, hg, rfl, Or.inl rfl⟩
  · push_neg at hrej
    obtain ⟨playerID, g₁, hc, hg₁, hs⟩ := hrej
    have : g₁ = g := by rw [hg] at hg₁; exact (Option.some.inj hg₁).symm
    subst this hc
    by_cases hfull : GoMap.len (g₁.votes.insert playerID suspectID) = lobby.players.len
    · by_cases htie : TopTie (g₁.votes.insert playerID suspectID) ∧ g₁.voteRound < maxVoteRounds
      · rw [vote_revote maxVoteRounds env lobby g₁ playerID suspectID hg hs hfull htie]
        exact ⟨_, rfl, rfl, Or.inr ⟨playerID, rfl, hs, Or.inr (Or.inl ⟨hfull, htie, rfl, rfl⟩)⟩⟩
      · rw [vote_finish maxVoteRounds env lobby g₁ playerID suspectID hg hs hfull htie]
        exact ⟨_, rfl, rfl, Or.inr ⟨playerID, rfl, hs, Or.inr (Or.inr ⟨hfull, htie, rfl⟩)⟩⟩
    · rw [vote_recorded maxVoteRounds env lobby g₁ playerID suspectID hg hs hfull]
      exact ⟨_, rfl, rfl, Or.inr ⟨playerID, rfl, hs, Or.inl ⟨hfull, rfl, rfl⟩⟩⟩

theorem toggle_get (m : GoMap Bool) (p : String) :
    (toggle m p).get p false = !m.get p false := by
  simp [toggle, GoMap.get, AList.lookup_insert]

theorem toggle_lookup_ne (m : GoMap Bool) (p q : String) (h : q ≠ p) :
    (toggle m p).lookup q = m.lookup q := by
  simp [toggle, AList.lookup_insert_ne h]

/-- A `ToggleReady` made in a readiness phase replaces that phase's map by its
toggle at the caller, whether or not the phase advances. -/
theorem ready_step_map (env : Env) (lobby : Lobby) (g : Game) (playerID : String)
    (phase : GameStatus)
    (hph : phase = .readyCheck ∨ phase = .roleReveal ∨ phase = .playing)
    (hg : lobby.currentGame = some g) (hs : g.status = phase) :
    ∃ g', (gameHandleReadyCookie env lobby (some playerID)).1.currentGame = some g' ∧
      readyMapOf phase g' = toggle (readyMapOf phase g) playerID := by
  rcases hph with h | h | h <;> subst h
  · rw [ready_readyCheck env lobby g playerID hg hs]
    split
    · exact ⟨_, rfl, rfl⟩
    · exact ⟨_, rfl, rfl⟩
  · rw [ready_roleReveal env lobby g playerID hg hs]
    split
    · exact ⟨_, rfl, (advancePhase_maps env lobby _).2.1⟩
    · exact ⟨_, rfl, rfl⟩
  · rw [ready_playing env lobby g playerID hg hs]
    split
    · exact ⟨_, rfl, rfl⟩
    · exact ⟨_, rfl, rfl⟩

theorem toggleN_snoc (envs : List Env) (env : Env) (lobby : Lobby) (playerID : String) :
    toggleN (envs ++ [env]) lobby playerID =
      (gameHandleReadyCookie env (toggleN envs lobby playerID) (some playerID)).1 := by
  simp [toggleN, List.foldl_append]

theorem step_players (maxVoteRounds : Int) (ctx : Context) (env : Env) (lobby : Lobby)
    (g : Game) (call : Call) (hg : lobby.currentGame = some g) :
    (step maxVoteRounds ctx env lobby call).1.players = lobby.players ∧
    ∃ g', (step maxVoteRounds ctx env lobby call).1.currentGame = some g' := by
  cases call with
  | toggleReady cookie =>
    obtain ⟨g', h1, _, h2, _⟩ := ready_step_cases env lobby g cookie hg
    exact ⟨h2, g', h1⟩
  | castVote cookie suspectID =>
    obtain ⟨g', h1, h2, _⟩ := vote_step_cases maxVoteRounds env lobby g cookie suspectID hg
    exact ⟨h2, g', h1⟩
  | submitWord cookie formWord =>
    obtain ⟨g', h1, _, h2, _⟩ := submit_step_cases ctx env lobby g cookie formWord hg
    exact ⟨h2, g', h1⟩

/-- A request changes the scores only by resolving a Voting game; the new
scores are then those of the scoring loop. -/
theorem step_scores (maxVoteRounds : Int) (ctx : Context) (env : Env) (lobby : Lobby)
    (g : Game) (call : Call) (hg : lobby.currentGame = some g) :
    (step maxVoteRounds ctx env lobby call).1.scores = lobby.scores ∨
    ((∃ playerID suspectID, call = .castVote (some playerID) suspectID) ∧
      g.status = .voting ∧
      statusOf (step maxVoteRounds ctx env lobby call).1 = some .finished ∧
      ∃ w, (step maxVoteRounds ctx env lobby call).1.scores =
        (creditScores g.spyID w (rangePlayers env 2 lobby) lobby.scores).1 ∧
        (step maxVoteRounds ctx env lobby call).2 =
          if (creditScores g.spyID w (rangePlayers env 2 lobby) lobby.scores).2
          then .panicked else .html) := by
  cases call with
  | toggleReady cookie =>
    obtain ⟨g', _, h, _⟩ := ready_step_cases env lobby g cookie hg
    exact Or.inl h
  | submitWord cookie formWord =>
    obtain ⟨g', _, h, _⟩ := submit_step_cases ctx env lobby g cookie formWord hg
    exact Or.inl h
  | castVote cookie suspectID =>
    obtain ⟨g', h1, _, h2⟩ := vote_step_cases maxVoteRounds env lobby g cookie suspectID hg
    rcases h2 with h | ⟨p, hc, hs, ⟨_, _, h⟩ | ⟨_, _, _, h⟩ | ⟨hfull, htie, _⟩⟩
    · left; show (gameHandleVoteCookie maxVoteRounds env lobby cookie suspectID).1.scores = _
      rw [h]
    · exact Or.inl h
    · exact Or.inl h
    · right
      subst hc
      refine ⟨⟨p, suspectID, rfl⟩, hs, ?_, ?_⟩
      · show statusOf (gameHandleVoteCookie maxVoteRounds env lobby (some p) suspectID).1 = _
        rw [vote_finish maxVoteRounds env lobby g p suspectID hg hs hfull htie]
        rfl
      · refine ⟨innocentWonOf env (g.votes.insert p suspectID) g.spyID, ?_, ?_⟩
        · show (gameHandleVoteCookie maxVoteRounds env lobby (some p) suspectID).1.scores = _
          rw [vote_finish maxVoteRounds env lobby g p suspectID hg hs hfull htie]
        · show (gameHandleVoteCookie maxVoteRounds env lobby (some p) suspectID).2 = _
          rw [vote_finish maxVoteRounds env lobby g p suspectID hg hs hfull htie]

/-- A request that takes a Voting game to Finished ran the scoring loop. -/
theorem step_resolving (maxVoteRounds : Int) (ctx : Context) (env : Env) (lobby : Lobby)
    (g : Game) (call : Call) (hg : lobby.currentGame = some g) (hs : g.status = .voting)
    (hfin : statusOf (step maxVoteRounds ctx env lobby call).1 = some .finished) :
    ∃ w, (step maxVoteRounds ctx env lobby call).1.scores =
      (creditScores g.spyID w (rangePlayers env 2 lobby) lobby.scores).1 := by
  have hne : (step maxVoteRounds ctx env lobby call).1 ≠ lobby := by
    intro h
    rw [h, statusOf, hg] at hfin
    simp [hs] at hfin
  cases call with
  | toggleReady cookie =>
    exact absurd (ready_rejected env lobby cookie (fun p g' _ hg' => by
      rw [hg] at hg'; cases hg'; simp [hs])).1 hne
  | submitWord cookie formWord =>
    exact absurd (submit_rejected ctx env lobby cookie formWord (fun p g' _ hg' => by
      rw [hg] at hg'; cases hg'; simp [hs])).1 hne
  | castVote cookie suspectID =>
    obtain ⟨g', h1, _, h2⟩ := vote_step_cases maxVoteRounds env lobby g cookie suspectID hg
    have hst : g'.status = .finished := by
      have : statusOf (gameHandleVoteCookie maxVoteRounds env lobby cookie suspectID).1
          = some .finished := hfin
      rw [statusOf, h1] at this
      exact Option.some.inj this
    rcases h2 with h | ⟨p, hc, _, ⟨_, h, _⟩ | ⟨_, _, h, _⟩ | ⟨hfull, htie, _⟩⟩
    · exact absurd h hne
    · rw [h] at hst; simp [hs] at hst
    · rw [h] at hst; simp [hs] at hst
    · subst hc
      refine ⟨innocentWonOf env (g.votes.insert p suspectID) g.spyID, ?_⟩
      show (gameHandleVoteCookie maxVoteRounds env lobby (some p) suspectID).1.scores = _
      rw [vote_finish maxVoteRounds env lobby g p suspectID hg hs hfull htie]

theorem step_inv (covered : String → Prop) (maxVoteRounds : Int) (ctx : Context) (env : Env)
    (lobby₀ lobby : Lobby) (call : Call) (h : RoomInv covered lobby₀ lobby) :
    RoomInv covered lobby₀ (step maxVoteRounds ctx env lobby call).1 := by
  obtain ⟨hp, ⟨g, hg⟩, hc⟩ := h
  obtain ⟨hp', hg'⟩ := step_players maxVoteRounds ctx env lobby g call hg
  refine ⟨hp'.trans hp, hg', fun id hid => ?_⟩
  rcases step_scores maxVoteRounds ctx env lobby g call hg with hsc | ⟨_, _, _, w, hsc, _⟩
  · rw [hsc]; exact hc id hid
  · rw [hsc, creditScores_mem]; exact hc id hid

theorem runLocked_append (maxVoteRounds : Int) (ctx : Context) (xs ys : List (Env × Call))
    (lobby : Lobby) :
    runLocked maxVoteRounds ctx (xs ++ ys) lobby =
      if (runLocked maxVoteRounds ctx xs lobby).2 then runLocked maxVoteRounds ctx xs lobby
      else runLocked maxVoteRounds ctx ys (runLocked maxVoteRounds ctx xs lobby).1 := by
  induction xs generalizing lobby with
  | nil => simp [runLocked]
  | cons c rest ih =>
    by_cases hp : (step maxVoteRounds ctx c.1 lobby c.2).2 = .panicked
    · simp [runLocked, hp]
    · simp only [List.cons_append, runLocked, hp, if_false]
      exact ih _

theorem run_append (maxVoteRounds : Int) (ctx : Context) (xs ys : List (Env × Call))
    (lobby : Lobby) :
    run maxVoteRounds ctx (xs ++ ys) lobby =
      if (runLocked maxVoteRounds ctx xs lobby).2 then run maxVoteRounds ctx xs lobby
      else run maxVoteRounds ctx ys (run maxVoteRounds ctx xs lobby) := by
  unfold run
  rw [runLocked_append]
  split <;> rfl

theorem run_snoc (maxVoteRounds : Int) (ctx : Context) (calls : List (Env × Call))
    (c : Env × Call) (lobby : Lobby) :
    run maxVoteRounds ctx (calls ++ [c]) lobby =
      if (runLocked maxVoteRounds ctx calls lobby).2 then run maxVoteRounds ctx calls lobby
      else (step maxVoteRounds ctx c.1 (run maxVoteRounds ctx calls lobby) c.2).1 := by
  rw [run_append]
  split
  · rfl
  · unfold run
    simp only [runLocked]
    split <;> rfl

/-- The mutex is locked after a sequence extended by one request exactly when
it was locked before or the request, served, panicked. -/
theorem locked_snoc (maxVoteRounds : Int) (ctx : Context) (calls : List (Env × Call))
    (c : Env × Call) (lobby : Lobby) :
    (runLocked maxVoteRounds ctx (calls ++ [c]) lobby).2 =
      ((runLocked maxVoteRounds ctx calls lobby).2 ||
        decide ((step maxVoteRounds ctx c.1 (run maxVoteRounds ctx calls lobby) c.2).2
          = .panicked)) := by
  rw [runLocked_append]
  cases h : (runLocked maxVoteRounds ctx calls lobby).2
  · simp only [Bool.false_eq_true, if_false, Bool.false_or, runLocked, run]
    split <;> simp_all
  · simp [h]

theorem run_inv (covered : String → Prop) (maxVoteRounds : Int) (ctx : Context)
    (calls : List (Env × Call)) (lobby₀ : Lobby) (h : RoomInv covered lobby₀ lobby₀) :
    RoomInv covered lobby₀ (run maxVoteRounds ctx calls lobby₀) := by
  induction calls using List.reverseRecOn with
  | nil => exact h
  | append_singleton calls c ih =>
    rw [run_snoc]
    split
    · exact ih
    · exact step_inv covered maxVoteRounds ctx c.1 lobby₀ _ c.2 ih

/-- Every request on a Finished game is rejected and leaves the room as it is. -/
theorem step_finished (maxVoteRounds : Int) (ctx : Context) (env : Env) (lobby : Lobby)
    (call : Call) (hf : statusOf lobby = some .finished) :
    (step maxVoteRounds ctx env lobby call).1 = lobby ∧
    ∃ msg code, (step maxVoteRounds ctx env lobby call).2 = .httpError msg code := by
  have hst : ∀ g, lobby.currentGame = some g → g.status = .finished := by
    intro g hg
    rw [statusOf, hg] at hf
    exact Option.some.inj hf
  cases call with
  | toggleReady cookie =>
    exact ready_rejected env lobby cookie (fun p g _ hg => by simp [hst g hg])
  | castVote cookie suspectID =>
    exact vote_rejected maxVoteRounds env lobby cookie suspectID
      (fun p g _ hg => by simp [hst g hg])
  | submitWord cookie formWord =>
    exact submit_rejected ctx env lobby cookie formWord
      (fun p g _ hg => by simp [hst g hg])

theorem run_finished (maxVoteRounds : Int) (ctx : Context) (calls : List (Env × Call))
    (lobby : Lobby) (hf : statusOf lobby = some .finished) :
    run maxVoteRounds ctx calls lobby = lobby := by
  induction calls using List.reverseRecOn with
  | nil => rfl
  | append_singleton calls c ih =>
    rw [run_snoc, ih]
    split
    · rfl
    · exact (step_finished maxVoteRounds ctx c.1 lobby c.2 hf).1

theorem assignRoles_spec (sh : List String) (hsh : sh ≠ []) (spyID : String)
    (ids : List String) (hnd : ids.Nodup) (i : Nat) (info : GoMap GamePlayerInfo) :
    (assignRoles sh spyID i ids info).2 = false ∧
    (∀ id, id ∉ ids → (assignRoles sh spyID i ids info).1.lookup id = info.lookup id) ∧
    (∀ j, (hj : j < ids.length) → ∃ c, sh[(i + j) % sh.length]? = some c ∧
      (assignRoles sh spyID i ids info).1.lookup (ids.get ⟨j, hj⟩)
        = some { challenge := c, isSpy := decide (ids.get ⟨j, hj⟩ = spyID) }) := by
  have hlen : 0 < sh.length := List.length_pos.mpr hsh
  induction ids generalizing i info with
  | nil => exact ⟨rfl, fun _ _ => rfl, fun j hj => absurd hj (by simp)⟩
  | cons a t ih =>
    have hnd' := List.nodup_cons.mp hnd
    have hlt : i % sh.length < sh.length := Nat.mod_lt _ hlen
    have hget : sh[i % sh.length]? = some (sh.get ⟨i % sh.length, hlt⟩) :=
      List.getElem?_eq_getElem hlt
    have hunf : assignRoles sh spyID i (a :: t) info =
        assignRoles sh spyID (i + 1) t
          (info.insert a { challenge := sh.get ⟨i % sh.length, hlt⟩,
                           isSpy := decide (a = spyID) }) := by
      rw [assignRoles]
      simp only [Nat.ne_of_gt hlen, if_false, hget]
    rw [hunf]
    obtain ⟨ih1, ih2, ih3⟩ := ih hnd'.2 (i + 1)
      (info.insert a { challenge := sh.get ⟨i % sh.length, hlt⟩, isSpy := decide (a = spyID) })
    refine ⟨ih1, ?_, ?_⟩
    · intro id hid
      rw [List.mem_cons, not_or] at hid
      rw [ih2 id hid.2, AList.lookup_insert_ne hid.1]
    · intro j hj
      cases j with
      | zero =>
        refine ⟨sh.get ⟨i % sh.length, hlt⟩, by simp, ?_⟩
        have h0 : (a :: t).get ⟨0, hj⟩ = a := rfl
        rw [h0, ih2 a hnd'.1, AList.lookup_insert]
      | succ j =>
        have hj' : j < t.length := by simpa using hj
        obtain ⟨c, hc1, hc2⟩ := ih3 j hj'
        refine ⟨c, ?_, ?_⟩
        · rw [← hc1]; congr 2; omega
        · simpa using hc2

theorem assignRoles_mem (sh : List String) (hsh : sh ≠ []) (spyID : String)
    (ids : List String) (hnd : ids.Nodup) (info : GoMap GamePlayerInfo) (id : String)
    (hid : id ∈ ids) :
    ∃ c, c ∈ sh ∧ (assignRoles sh spyID 0 ids info).1.lookup id
      = some { challenge := c, isSpy := decide (id = spyID) } := by
  obtain ⟨⟨j, hj⟩, rfl⟩ := List.mem_iff_get.mp hid
  obtain ⟨c, hc1, hc2⟩ := (assignRoles_spec sh hsh spyID ids hnd 0 info).2.2 j hj
  exact ⟨c, List.getElem?_mem hc1, hc2⟩

/-- With at least one submitted word, one player and one challenge, role
assignment completes and assigns as follows. -/
theorem assignSpy_spec (ctx : Context) (env : Env) (g : Game) (players : GoMap Player)
    (hw : g.customWords.entries ≠ []) (hp : players.entries ≠ [])
    (hc : ctx.challenges ≠ []) :
    (assignSpyAndSelectWord ctx env g players).2 = false ∧
    (∃ id, g.customWords.lookup id
      = some (assignSpyAndSelectWord ctx env g players).1.selectedCustomWord) ∧
    (assignSpyAndSelectWord ctx env g players).1.location
      = some { word := (assignSpyAndSelectWord ctx env g players).1.selectedCustomWord,
               categories := ["custom"] } ∧
    (∃ p, players.lookup (assignSpyAndSelectWord ctx env g players).1.spyID = some p ∧
      (assignSpyAndSelectWord ctx env g players).1.spyName = p.name) ∧
    (∀ id, id ∈ players → ∃ c, c ∈ ctx.challenges ∧
      (assignSpyAndSelectWord ctx env g players).1.playerInfo.lookup id
        = some { challenge := c,
                 isSpy := decide (id = (assignSpyAndSelectWord ctx env g players).1.spyID) }) ∧
    (∀ id, id ∉ players →
      (assignSpyAndSelectWord ctx env g players).1.playerInfo.lookup id
        = g.playerInfo.lookup id) := by
  -- the selected word
  have hwperm := env.rangeOrder_perm 2 g.customWords.entries
  have hwlen : ((env.rangeOrder 2 g.customWords.entries).map Sigma.snd).length ≠ 0 := by
    rw [List.length_map, hwperm.length_eq]
    exact fun h => hw (List.length_eq_zero.mp h)
  have hwlt := env.intn_lt 0 _ (Nat.pos_of_ne_zero hwlen)
  have hwget := List.getElem?_eq_getElem hwlt
  generalize hsel : ((env.rangeOrder 2 g.customWords.entries).map Sigma.snd)[env.intn 0
    ((env.rangeOrder 2 g.customWords.entries).map Sigma.snd).length] = selectedWord at hwget
  have hselmem : selectedWord ∈ (env.rangeOrder 2 g.customWords.entries).map Sigma.snd :=
    List.getElem?_mem hwget
  -- the spy
  have hpperm := env.rangeOrder_perm 3 players.entries
  have hplen : ((env.rangeOrder 3 players.entries).map Sigma.fst).length ≠ 0 := by
    rw [List.length_map, hpperm.length_eq]
    exact fun h => hp (List.length_eq_zero.mp h)
  have hplt := env.intn_lt 1 _ (Nat.pos_of_ne_zero hplen)
  have hpget := List.getElem?_eq_getElem hplt
  generalize hspy : ((env.rangeOrder 3 players.entries).map Sigma.fst)[env.intn 1
    ((env.rangeOrder 3 players.entries).map Sigma.fst).length] = spyID at hpget
  have hkeys : ((env.rangeOrder 3 players.entries).map Sigma.fst).Perm players.keys :=
    hpperm.map Sigma.fst
  have hspymem : spyID ∈ players := by
    rw [AList.mem_keys, ← hkeys.mem_iff]
    exact List.getElem?_mem hpget
  obtain ⟨p, hplook⟩ := Option.isSome_iff_exists.mp (AList.lookup_isSome.mpr hspymem)
  -- the roles
  have hsh : env.shuffle ctx.challenges ≠ [] := by
    intro h
    have := (env.shuffle_perm ctx.challenges).length_eq
    rw [h] at this
    exact hc (List.length_eq_zero.mp this.symm)
  have hnd : ((env.rangeOrder 3 players.entries).map Sigma.fst).Nodup :=
    hkeys.nodup_iff.mpr players.keys_nodup
  have hunf : assignSpyAndSelectWord ctx env g players =
      ({ g with selectedCustomWord := selectedWord,
                location := some { word := selectedWord, categories := ["custom"] },
                spyID := spyID, spyName := p.name,
                playerInfo := (assignRoles (env.shuffle ctx.challenges) spyID 0
                  ((env.rangeOrder 3 players.entries).map Sigma.fst) g.playerInfo).1 },
       (assignRoles (env.shuffle ctx.challenges) spyID 0
          ((env.rangeOrder 3 players.entries).map Sigma.fst) g.playerInfo).2) := by
    unfold assignSpyAndSelectWord
    simp only [hwlen, if_false, hwget, hplen, hpget, hplook]
  rw [hunf]
  obtain ⟨hr1, hr2, _⟩ := assignRoles_spec (env.shuffle ctx.challenges) hsh spyID _ hnd 0
    g.playerInfo
  refine ⟨hr1, ?_, rfl, ⟨p, hplook, rfl⟩, ?_, ?_⟩
  · obtain ⟨⟨id, w⟩, he, hw'⟩ := List.mem_map.mp hselmem
    refine ⟨id, ?_⟩
    have : (⟨id, w⟩ : Σ _ : String, GoString) ∈ g.customWords.entries := hwperm.mem_iff.mp he
    simp only at hw'
    subst hw'
    exact AList.mem_lookup_iff.mpr this
  · intro id hid
    have hid' : id ∈ (env.rangeOrder 3 players.entries).map Sigma.fst := by
      rw [hkeys.mem_iff]; exact hid
    obtain ⟨c, hc1, hc2⟩ := assignRoles_mem (env.shuffle ctx.challenges) hsh spyID _ hnd
      g.playerInfo id hid'
    exact ⟨c, (env.shuffle_perm ctx.challenges).mem_iff.mp hc1, hc2⟩
  · intro id hid
    apply hr2
    rw [hkeys.mem_iff]
    exact hid

theorem countSubmitted_loop (entries : List (Σ _ : String, Bool)) (n : Nat) :
    entries.foldl (fun n e => if e.2 then n + 1 else n) n
      = n + entries.countP (fun e => e.2) := by
  induction entries generalizing n with
  | nil => simp
  | cons a t ih =>
    simp only [List.foldl_cons, ih, List.countP_cons]
    by_cases h : a.2 = true <;> simp [h]; omega

theorem countSubmitted_range (env : Env) (site : Nat) (m : GoMap Bool) :
    countSubmitted (env.rangeOrder site m.entries) = submittedCount m := by
  rw [countSubmitted, countSubmitted_loop, Nat.zero_add, submittedCount]
  exact (env.rangeOrder_perm site m.entries).countP_eq _

theorem submittedCount_insert_pos (m : GoMap Bool) (p : String) :
    0 < submittedCount (m.insert p true) := by
  rw [submittedCount, List.countP_pos_iff]
  exact ⟨⟨p, true⟩, by simp [AList.insert_entries], rfl⟩

/-- The submit handler on its accepting path, with the count spelled out. -/
theorem submit_accepted_cases (ctx : Context) (env : Env) (lobby : Lobby) (g : Game)
    (playerID : String) (formWord : GoString)
    (hw : TrimSpace formWord ≠ [])
    (hg : lobby.currentGame = some g) (hs : g.status = .wordCollection)
    (hnew : g.wordsSubmitted.get playerID false = false) :
    ∃ g', (gameHandleSubmitWord ctx env lobby (some playerID) formWord).1 = withGame lobby g' ∧
      g'.customWords = g.customWords.insert playerID (truncateWord (TrimSpace formWord)) ∧
      g'.wordsSubmitted = g.wordsSubmitted.insert playerID true ∧
      (∀ msg code,
        (gameHandleSubmitWord ctx env lobby (some playerID) formWord).2 ≠ .httpError msg code) ∧
      (submittedCount (g.wordsSubmitted.insert playerID true) ≠ lobby.players.len →
        g' = { g with
                customWords := g.customWords.insert playerID (truncateWord (TrimSpace formWord)),
                wordsSubmitted := g.wordsSubmitted.insert playerID true } ∧
        (gameHandleSubmitWord ctx env lobby (some playerID) formWord).2 = .html) ∧
      (submittedCount (g.wordsSubmitted.insert playerID true) = lobby.players.len →
        (g'.status = .wordCollection ∧
          (gameHandleSubmitWord ctx env lobby (some playerID) formWord).2 = .panicked) ∨
        (g'.status = .readyCheck ∧
          (gameHandleSubmitWord ctx env lobby (some playerID) formWord).2
            = .hxRedirect .readyCheck)) ∧
      (submittedCount (g.wordsSubmitted.insert playerID true) = lobby.players.len →
        ctx.challenges ≠ [] →
        (gameHandleSubmitWord ctx env lobby (some playerID) formWord).2
            = .hxRedirect .readyCheck ∧
        g'.status = .readyCheck ∧
        (∃ id, g'.customWords.lookup id = some g'.selectedCustomWord) ∧
        g'.location = some { word := g'.selectedCustomWord, categories := ["custom"] } ∧
        (∃ p, lobby.players.lookup g'.spyID = some p ∧ g'.spyName = p.name) ∧
        (∀ id, id ∈ lobby.players → ∃ c, c ∈ ctx.challenges ∧
          g'.playerInfo.lookup id = some { challenge := c, isSpy := decide (id = g'.spyID) }) ∧
        (∀ id, id ∉ lobby.players → g'.playerInfo.lookup id = g.playerInfo.lookup id)) := by
  rw [submit_accepted ctx env lobby g playerID formWord hw hg hs hnew, countSubmitted_range]
  obtain ⟨f1, f2, f3, _⟩ := assignSpy_fields ctx env
    { g with customWords := g.customWords.insert playerID (truncateWord (TrimSpace formWord)),
             wordsSubmitted := g.wordsSubmitted.insert playerID true } lobby.players
  by_cases hcnt : submittedCount (g.wordsSubmitted.insert playerID true) = lobby.players.len
  · rw [if_pos hcnt]
    have hpl : lobby.players.entries ≠ [] := by
      intro h
      have := submittedCount_insert_pos g.wordsSubmitted playerID
      rw [hcnt, GoMap.len, h] at this
      exact absurd this (by simp)
    have hwl : (g.customWords.insert playerID (truncateWord (TrimSpace formWord))).entries ≠ [] := by
      simp [AList.insert_entries]
    cases hpan : (assignSpyAndSelectWord ctx env
        { g with customWords := g.customWords.insert playerID (truncateWord (TrimSpace formWord)),
                 wordsSubmitted := g.wordsSubmitted.insert playerID true } lobby.players).2
    · rw [if_neg Bool.false_ne_true]
      refine ⟨_, rfl, f2, f3, ?_, fun h => absurd hcnt h, fun _ => Or.inr ⟨rfl, rfl⟩,
        fun _ hc => ?_⟩
      · intro _ _ h; cases h
      obtain ⟨_, a2, a3, a4, a5, a6⟩ := assignSpy_spec ctx env
        { g with customWords := g.customWords.insert playerID (truncateWord (TrimSpace formWord)),
                 wordsSubmitted := g.wordsSubmitted.insert playerID true } lobby.players hwl hpl hc
      refine ⟨rfl, rfl, ?_, a3, a4, a5, a6⟩
      obtain ⟨id, hid⟩ := a2
      exact ⟨id, by rw [← hid]; exact congrArg _ f2⟩
    · rw [if_pos rfl]
      refine ⟨_, rfl, f2, f3, ?_, fun h => absurd hcnt h, fun _ => Or.inl ⟨f1.trans hs, rfl⟩,
        fun _ hc => ?_⟩
      · intro _ _ h; cases h
      have := (assignSpy_spec ctx env
        { g with customWords := g.customWords.insert playerID (truncateWord (TrimSpace formWord)),
                 wordsSubmitted := g.wordsSubmitted.insert playerID true } lobby.players hwl hpl hc).1
      rw [hpan] at this
      cases this
  · rw [if_neg hcnt]
    refine ⟨_, rfl, rfl, rfl, ?_, fun _ => ⟨rfl, rfl⟩,
      fun h => absurd h hcnt, fun h => absurd h hcnt⟩
    intro _ _ h; cases h

/-- A second submission of a player whose word is already recorded. -/
theorem submit_again (ctx : Context) (env : Env) (lobby : Lobby) (g : Game)
    (playerID : String) (formWord : GoString)
    (hg : lobby.currentGame = some g)
    (hsub : g.wordsSubmitted.get playerID false = true) :
    (gameHandleSubmitWord ctx env lobby (some playerID) formWord).1 = lobby ∧
    (TrimSpace formWord = [] →
      (gameHandleSubmitWord ctx env lobby (some playerID) formWord).2
        = .httpError "Word is required" 400) ∧
    (TrimSpace formWord ≠ [] → g.status = .wordCollection →
      (gameHandleSubmitWord ctx env lobby (some playerID) formWord).2
        = .httpError "Word already submitted" 400) ∧
    (TrimSpace formWord ≠ [] → g.status ≠ .wordCollection →
      (gameHandleSubmitWord ctx env lobby (some playerID) formWord).2
        = .httpError "Not in word collection phase" 400) := by
  refine ⟨?_, ?_, ?_, ?_⟩
  · exact (submit_rejected ctx env lobby (some playerID) formWord (fun p g' hp hg' => by
      cases hp
      rw [hg] at hg'; cases hg'
      simp [hsub])).1
  · intro hw
    simp only [gameHandleSubmitWord, hw, if_true]
  · intro hw hs
    simp only [gameHandleSubmitWord, hw, if_false, hg, hs, ne_eq, not_true_eq_false, hsub,
      if_true]
  · intro hw hs
    simp only [gameHandleSubmitWord, hw, if_false, hg, ne_eq, hs, not_false_eq_true, if_true]

/-- On a Finished game a request that carries a player id (and, for a
submission, a non-blank word) is turned away by the phase guard of its
handler. -/
theorem finished_phase_guard (maxVoteRounds : Int) (ctx : Context) (env : Env) (lobby : Lobby)
    (hf : statusOf lobby = some .finished) (playerID : String) :
    (step maxVoteRounds ctx env lobby (.toggleReady (some playerID))).2
      = .httpError "Invalid game phase" 400 ∧
    (∀ suspectID, (step maxVoteRounds ctx env lobby (.castVote (some playerID) suspectID)).2
      = .httpError "Not in voting phase" 400) ∧
    (∀ formWord, TrimSpace formWord ≠ [] →
      (step maxVoteRounds ctx env lobby (.submitWord (some playerID) formWord)).2
        = .httpError "Not in word collection phase" 400) := by
  cases hg : lobby.currentGame with
  | none => simp [statusOf, hg] at hf
  | some g =>
    have hs : g.status = .finished := by
      rw [statusOf, hg] at hf
      exact Option.some.inj hf
    refine ⟨?_, fun s => ?_, fun w hw => ?_⟩
    · show (gameHandleReadyCookie env lobby (some playerID)).2 = _
      rw [ready_other env lobby g playerID hg (by simp [hs]) (by simp [hs]) (by simp [hs])]
    · show (gameHandleVoteCookie maxVoteRounds env lobby (some playerID) s).2 = _
      simp only [gameHandleVoteCookie, hg, hs, ne_eq, not_false_eq_true, if_true]
      rfl
    · show (gameHandleSubmitWord ctx env lobby (some playerID) w).2 = _
      simp only [gameHandleSubmitWord, hw, if_false, hg, hs, ne_eq, not_false_eq_true, if_true]
      rfl

/-- With at least one word and one player, `assignSpyAndSelectWord` reaches its
role loop: the resulting `playerInfo` and panic flag are those of the loop run
on the shuffled pool and the ranged player ids. -/
theorem assignSpy_roles (ctx : Context) (env : Env) (g : Game) (players : GoMap Player)
    (hw : g.customWords.entries ≠ []) (hp : players.entries ≠ []) :
    (assignSpyAndSelectWord ctx env g players).1.playerInfo =
      (assignRoles (env.shuffle ctx.challenges)
        (assignSpyAndSelectWord ctx env g players).1.spyID 0
        ((env.rangeOrder 3 players.entries).map Sigma.fst) g.playerInfo).1 ∧
    (assignSpyAndSelectWord ctx env g players).2 =
      (assignRoles (env.shuffle ctx.challenges)
        (assignSpyAndSelectWord ctx env g players).1.spyID 0
        ((env.rangeOrder 3 players.entries).map Sigma.fst) g.playerInfo).2 := by
  have hwperm := env.rangeOrder_perm 2 g.customWords.entries
  have hwlen : ((env.rangeOrder 2 g.customWords.entries).map Sigma.snd).length ≠ 0 := by
    rw [List.length_map, hwperm.length_eq]
    exact fun h => hw (List.length_eq_zero.mp h)
  have hwlt := env.intn_lt 0 _ (Nat.pos_of_ne_zero hwlen)
  have hwget := List.getElem?_eq_getElem hwlt
  generalize ((env.rangeOrder 2 g.customWords.entries).map Sigma.snd)[env.intn 0
    ((env.rangeOrder 2 g.customWords.entries).map Sigma.snd).length] = selectedWord at hwget
  have hpperm := env.rangeOrder_perm 3 players.entries
  have hplen : ((env.rangeOrder 3 players.entries).map Sigma.fst).length ≠ 0 := by
    rw [List.length_map, hpperm.length_eq]
    exact fun h => hp (List.length_eq_zero.mp h)
  have hplt := env.intn_lt 1 _ (Nat.pos_of_ne_zero hplen)
  have hpget := List.getElem?_eq_getElem hplt
  generalize ((env.rangeOrder 3 players.entries).map Sigma.fst)[env.intn 1
    ((env.rangeOrder 3 players.entries).map Sigma.fst).length] = spyID at hpget
  have hkeys : ((env.rangeOrder 3 players.entries).map Sigma.fst).Perm players.keys :=
    hpperm.map Sigma.fst
  have hspymem : spyID ∈ players := by
    rw [AList.mem_keys, ← hkeys.mem_iff]
    exact List.getElem?_mem hpget
  obtain ⟨p, hplook⟩ := Option.isSome_iff_exists.mp (AList.lookup_isSome.mpr hspymem)
  have hunf : assignSpyAndSelectWord ctx env g players =
      ({ g with selectedCustomWord := selectedWord,
                location := some { word := selectedWord, categories := ["custom"] },
                spyID := spyID, spyName := p.name,
                playerInfo := (assignRoles (env.shuffle ctx.challenges) spyID 0
                  ((env.rangeOrder 3 players.entries).map Sigma.fst) g.playerInfo).1 },
       (assignRoles (env.shuffle ctx.challenges) spyID 0
          ((env.rangeOrder 3 players.entries).map Sigma.fst) g.playerInfo).2) := by
    unfold assignSpyAndSelectWord
    simp only [hwlen, if_false, hwget, hplen, hpget, hplook]
  rw [hunf]
  exact ⟨rfl, rfl⟩

/-- In a list without duplicates, different positions hold different elements. -/
theorem nodup_getElem?_ne {α : Type} (l : List α) (hnd : l.Nodup) (i j : Nat) (a b : α)
    (hi : l[i]? = some a) (hj : l[j]? = some b) (hij : i ≠ j) : a ≠ b := by
  intro hab
  subst hab
  obtain ⟨hi', rfl⟩ := List.getElem?_eq_some.mp hi
  obtain ⟨hj', hj''⟩ := List.getElem?_eq_some.mp hj
  exact hij ((hnd.getElem_inj_iff).mp hj''.symm)

/-- The submission that completes the collection, with a non-empty pool: the
response, and the `playerInfo` written by the role loop. -/
theorem submit_full_roles (ctx : Context) (env : Env) (lobby : Lobby) (g : Game)
    (playerID : String) (formWord : GoString)
    (hpool : ctx.challenges ≠ [])
    (hg : lobby.currentGame = some g) (hs : g.status = .wordCollection)
    (hw : TrimSpace formWord ≠ [])
    (hnew : g.wordsSubmitted.get playerID false = false)
    (hcnt : submittedCount (g.wordsSubmitted.insert playerID true) = lobby.players.len) :
    (gameHandleSubmitWord ctx env lobby (some playerID) formWord).2 = .hxRedirect .readyCheck ∧
    ∃ g' spyID, (gameHandleSubmitWord ctx env lobby (some playerID) formWord).1.currentGame
        = some g' ∧
      g'.playerInfo = (assignRoles (env.shuffle ctx.challenges) spyID 0
        ((env.rangeOrder 3 lobby.players.entries).map Sigma.fst) g.playerInfo).1 := by
  have hpl : lobby.players.entries ≠ [] := by
    intro h
    have := submittedCount_insert_pos g.wordsSubmitted playerID
    rw [hcnt, GoMap.len, h] at this
    exact absurd this (by simp)
  have hwl : (g.customWords.insert playerID (truncateWord (TrimSpace formWord))).entries ≠ [] := by
    simp [AList.insert_entries]
  have hnp := (assignSpy_spec ctx env
    { g with customWords := g.customWords.insert playerID (truncateWord (TrimSpace formWord)),
             wordsSubmitted := g.wordsSubmitted.insert playerID true } lobby.players hwl hpl
    hpool).1
  obtain ⟨hr, _⟩ := assignSpy_roles ctx env
    { g with customWords := g.customWords.insert playerID (truncateWord (TrimSpace formWord)),
             wordsSubmitted := g.wordsSubmitted.insert playerID true } lobby.players hwl hpl
  rw [submit_accepted ctx env lobby g playerID formWord hw hg hs hnew, countSubmitted_range,
    if_pos hcnt, hnp, if_neg Bool.false_ne_true]
  exact ⟨rfl, _, _, rfl, hr⟩

theorem len_insert_le {V : Type} (m : GoMap V) (k : String) (v : V) :
    GoMap.len (m.insert k v) ≤ m.len + 1 := by
  have h1 : GoMap.len (m.insert k v) = (m.insert k v).keys.length := by
    simp [GoMap.len, AList.keys, List.keys]
  have h2 : m.len = m.keys.length := by
    simp [GoMap.len, AList.keys, List.keys]
  rw [h1, h2, AList.keys_insert, List.length_cons]
  exact Nat.succ_le_succ (List.length_erase_le k m.keys)

theorem len_empty {V : Type} : GoMap.len (∅ : GoMap V) = 0 := rfl

theorem step_voteInv (maxVoteRounds : Int) (ctx : Context) (env : Env) (lobby₀ lobby : Lobby)
    (call : Call) (h : VoteInv lobby₀ lobby) :
    VoteInv lobby₀ (step maxVoteRounds ctx env lobby call).1 := by
  obtain ⟨hp, g, hg, hst⟩ := h
  have hkeep : (step maxVoteRounds ctx env lobby call).1 = lobby →
      VoteInv lobby₀ (step maxVoteRounds ctx env lobby call).1 := by
    intro h; rw [h]; exact ⟨hp, g, hg, hst⟩
  have hnr : g.status ≠ .readyCheck ∧ g.status ≠ .roleReveal ∧ g.status ≠ .playing ∧
      g.status ≠ .wordCollection := by
    rcases hst with ⟨h, _⟩ | ⟨h, _⟩ <;> simp [h]
  cases call with
  | toggleReady cookie =>
    exact hkeep (ready_rejected env lobby cookie (fun p g' _ hg' => by
      rw [hg] at hg'; cases hg'; exact ⟨hnr.1, hnr.2.1, hnr.2.2.1⟩)).1
  | submitWord cookie formWord =>
    exact hkeep (submit_rejected ctx env lobby cookie formWord (fun p g' _ hg' => by
      rw [hg] at hg'; cases hg'
      intro h
      exact hnr.2.2.2 h.2.1)).1
  | castVote cookie suspectID =>
    obtain ⟨g', h1, h2, h3⟩ := vote_step_cases maxVoteRounds env lobby g cookie suspectID hg
    rcases h3 with h | ⟨p, hc, hs, ⟨hne, hg', _⟩ | ⟨_, _, hg', _⟩ | ⟨hfull, htie, _⟩⟩
    · exact hkeep h
    · refine ⟨h2.trans hp, g', h1, Or.inl ⟨by rw [hg']; exact hs, ?_⟩⟩
      rcases hst with ⟨_, hlt⟩ | ⟨hf, _⟩
      · have hle := len_insert_le g.votes p suspectID
        rw [hg']
        show GoMap.len (g.votes.insert p suspectID) < _
        rw [hp] at hne
        omega
      · rw [hf] at hs; cases hs
    · refine ⟨h2.trans hp, g', h1, Or.inl ⟨by rw [hg']; exact hs, ?_⟩⟩
      rcases hst with ⟨_, hlt⟩ | ⟨hf, _⟩
      · rw [hg']
        show GoMap.len (∅ : GoMap String) < _
        rw [len_empty]
        omega
      · rw [hf] at hs; cases hs
    · subst hc
      have hfin := vote_finish maxVoteRounds env lobby g p suspectID hg hs hfull htie
      have hcur : (step maxVoteRounds ctx env lobby (.castVote (some p) suspectID)).1.currentGame
          = some { g with votes := g.votes.insert p suspectID, status := .finished } := by
        show (gameHandleVoteCookie maxVoteRounds env lobby (some p) suspectID).1.currentGame = _
        rw [hfin]
      refine ⟨h2.trans hp, _, hcur, Or.inr ⟨rfl, ?_⟩⟩
      show GoMap.len (g.votes.insert p suspectID) ≤ _
      rw [hfull, hp]

theorem run_voteInv (maxVoteRounds : Int) (ctx : Context) (calls : List (Env × Call))
    (lobby₀ : Lobby) (h : VoteInv lobby₀ lobby₀) :
    VoteInv lobby₀ (run maxVoteRounds ctx calls lobby₀) := by
  induction calls using List.reverseRecOn with
  | nil => exact h
  | append_singleton calls c ih =>
    rw [run_snoc]
    split
    · exact ih
    · exact step_voteInv maxVoteRounds ctx c.1 lobby₀ _ c.2 ih

theorem advancePhase_resp (env : Env) (lobby : Lobby) (g : Game) (phase : GameStatus)
    (msg : String) (code : Nat) :
    (advancePhase env lobby g phase).2 ≠ .httpError msg code := by
  unfold advancePhase
  cases phase <;> simp only <;> try (intro h; cases h)
  split
  · intro h; cases h
  · split <;> (intro h; cases h)

/-- A `ToggleReady` carrying a player id, made in a readiness phase, is never
rejected; it toggles the caller in the phase's map, leaves the maps of the
earlier readiness phases as they are, and keeps or advances the phase. -/
theorem ready_in_phase (env : Env) (lobby : Lobby) (g : Game) (playerID : String)
    (hg : lobby.currentGame = some g)
    (hph : g.status = .readyCheck ∨ g.status = .roleReveal ∨ g.status = .playing) :
    ∃ g', (gameHandleReadyCookie env lobby (some playerID)).1.currentGame = some g' ∧
      (∀ msg code, (gameHandleReadyCookie env lobby (some playerID)).2 ≠ .httpError msg code) ∧
      readyMapOf g.status g' = toggle (readyMapOf g.status g) playerID ∧
      phaseRank g.status ≤ phaseRank g'.status ∧
      (g.status ≠ .readyCheck → g'.readyToReveal = g.readyToReveal) ∧
      (g.status = .playing → g'.readyAfterReveal = g.readyAfterReveal) := by
  rcases hph with h | h | h
  · rw [ready_readyCheck env lobby g playerID hg h, h]
    split
    · exact ⟨_, rfl, fun msg code => advancePhase_resp env lobby _ _ msg code, rfl,
        by simp [advancePhase, phaseRank], fun hne => absurd rfl hne, fun hp => by cases hp⟩
    · refine ⟨_, rfl, ?_, rfl, by simp [h], fun hne => absurd rfl hne, fun hp => by cases hp⟩
      intro msg code hc; cases hc
  · rw [ready_roleReveal env lobby g playerID hg h, h]
    split
    · refine ⟨_, rfl, fun msg code => advancePhase_resp env lobby _ _ msg code,
        (advancePhase_maps env lobby _).2.1, ?_, fun _ => (advancePhase_maps env lobby _).2.2.1,
        fun hp => by cases hp⟩
      rw [(advancePhase_status env lobby _).2.1]
      simp [phaseRank]
    · refine ⟨_, rfl, ?_, rfl, by simp [h], fun _ => rfl, fun hp => by cases hp⟩
      intro msg code hc; cases hc
  · rw [ready_playing env lobby g playerID hg h, h]
    split
    · exact ⟨_, rfl, fun msg code => advancePhase_resp env lobby _ _ msg code, rfl,
        by simp [advancePhase, phaseRank], fun _ => rfl, fun _ => rfl⟩
    · refine ⟨_, rfl, ?_, rfl, by simp [h], fun _ => rfl, fun _ => rfl⟩
      intro msg code hc; cases hc

/-- The status after a `ToggleReady` made in ReadyCheck or RoleReveal that
fired the advance. -/
theorem ready_advanced (env : Env) (lobby : Lobby) (g : Game) (playerID : String)
    (hg : lobby.currentGame = some g)
    (hph : g.status = .readyCheck ∨ g.status = .roleReveal)
    (hadv : statusOf (gameHandleReadyCookie env lobby (some playerID)).1 ≠ some g.status) :
    ∃ g₁, (gameHandleReadyCookie env lobby (some playerID)).1.currentGame = some g₁ ∧
      ((g.status = .readyCheck ∧ g₁.status = .roleReveal) ∨
       (g.status = .roleReveal ∧ g₁.status = .playing)) := by
  rcases hph with h | h
  · rw [ready_readyCheck env lobby g playerID hg h] at hadv ⊢
    split at hadv
    · rename_i hq
      rw [if_pos hq]
      exact ⟨_, rfl, Or.inl ⟨h, rfl⟩⟩
    · exact absurd (by simp [statusOf, withGame]) hadv
  · rw [ready_roleReveal env lobby g playerID hg h] at hadv ⊢
    split at hadv
    · rename_i hq
      rw [if_pos hq]
      exact ⟨_, rfl, Or.inr ⟨h, (advancePhase_status env lobby _).2.1⟩⟩
    · exact absurd (by simp [statusOf, withGame]) hadv

theorem mem_gameKeys (g : Game) (id : String) :
    id ∈ gameKeys g ↔
      id ∈ g.readyToReveal ∨ id ∈ g.readyAfterReveal ∨ id ∈ g.readyToVote ∨ id ∈ g.votes := by
  simp only [gameKeys, List.mem_append, AList.mem_keys, or_assoc]

theorem mem_toggle (m : GoMap Bool) (p id : String) :
    id ∈ toggle m p ↔ id = p ∨ id ∈ m := by
  unfold toggle
  exact AList.mem_insert m

theorem mem_preSeed (ids : List String) (m : GoMap Bool) (id : String)
    (h : id ∈ preSeed m ids) : id ∈ m ∨ id ∈ ids := by
  have hl := preSeed_lookup_loop ids m id
  have hsome := AList.lookup_isSome.mpr h
  by_cases hm : (m.lookup id).isSome
  · exact Or.inl (AList.lookup_isSome.mp hm)
  · rw [hl, if_neg hm] at hsome
    by_cases hi : id ∈ ids
    · exact Or.inr hi
    · rw [if_neg hi] at hsome
      cases hsome

theorem mem_seedFalse (ids : List String) (m : GoMap Bool) (id : String)
    (h : id ∈ seedFalse m ids) : id ∈ m ∨ id ∈ ids := by
  induction ids generalizing m with
  | nil => exact Or.inl h
  | cons a t ih =>
    have hunf : seedFalse m (a :: t) = seedFalse (m.insert a false) t := rfl
    rw [hunf] at h
    rcases ih _ h with h' | h'
    · rcases (AList.mem_insert m).mp h' with rfl | h''
      · exact Or.inr (List.mem_cons_self _ _)
      · exact Or.inl h''
    · exact Or.inr (List.mem_cons_of_mem _ h')

theorem advancePhase_keys (env : Env) (lobby : Lobby) (g : Game) (phase : GameStatus)
    (id : String) (h : id ∈ gameKeys (advancePhase env lobby g phase).1) :
    id ∈ gameKeys g ∨ id ∈ lobby.players := by
  have hseed : ∀ (m : GoMap Bool) (site : Nat), id ∈ preSeed m (rangePlayers env site lobby) →
      id ∈ m ∨ id ∈ lobby.players := by
    intro m site hm
    rcases mem_preSeed _ m id hm with h' | h'
    · exact Or.inl h'
    · exact Or.inr ((mem_rangePlayers env site lobby id).mp h')
  rw [mem_gameKeys] at h ⊢
  cases phase
  case readyCheck =>
    simp only [advancePhase] at h
    rcases h with h | h | h | h
    · exact Or.inl (Or.inl h)
    · rcases hseed _ _ h with h' | h'
      · exact Or.inl (Or.inr (Or.inl h'))
      · exact Or.inr h'
    · exact Or.inl (Or.inr (Or.inr (Or.inl h)))
    · exact Or.inl (Or.inr (Or.inr (Or.inr h)))
  case roleReveal =>
    have hf : (advancePhase env lobby g .roleReveal).1.readyToReveal = g.readyToReveal ∧
        (advancePhase env lobby g .roleReveal).1.readyAfterReveal = g.readyAfterReveal ∧
        (advancePhase env lobby g .roleReveal).1.readyToVote
          = preSeed g.readyToVote (rangePlayers env 1 lobby) ∧
        (advancePhase env lobby g .roleReveal).1.votes = g.votes := by
      unfold advancePhase
      simp only
      split
      · exact ⟨rfl, rfl, rfl, rfl⟩
      · split <;> exact ⟨rfl, rfl, rfl, rfl⟩
    rw [hf.1, hf.2.1, hf.2.2.1, hf.2.2.2] at h
    rcases h with h | h | h | h
    · exact Or.inl (Or.inl h)
    · exact Or.inl (Or.inr (Or.inl h))
    · rcases hseed _ _ h with h' | h'
      · exact Or.inl (Or.inr (Or.inr (Or.inl h')))
      · exact Or.inr h'
    · exact Or.inl (Or.inr (Or.inr (Or.inr h)))
  all_goals exact Or.inl h

theorem toggleReady_keys (g g₁ : Game) (m : GoMap Bool) (p id : String)
    (h : toggleReady g p = some (g₁, m)) (hid : id ∈ gameKeys g₁) :
    id ∈ gameKeys g ∨ id = p := by
  rw [mem_gameKeys] at hid ⊢
  unfold toggleReady at h
  split at h
  all_goals
    cases h
    try (simp only [mem_toggle] at hid; tauto)

/-- The keys of the readiness and vote maps after a `ToggleReady`. -/
theorem ready_keys (env : Env) (lobby : Lobby) (g : Game) (cookie : Option String)
    (hg : lobby.currentGame = some g) :
    ∃ g', (gameHandleReadyCookie env lobby cookie).1.currentGame = some g' ∧
      ∀ id ∈ gameKeys g', id ∈ gameKeys g ∨ cookie = some id ∨ id ∈ lobby.players := by
  cases cookie with
  | none => exact ⟨g, hg, fun id h => Or.inl h⟩
  | some p =>
    cases ht : toggleReady g p with
    | none =>
      refine ⟨g, ?_, fun id h => Or.inl h⟩
      simp only [gameHandleReadyCookie, hg, ht]
    | some r =>
      obtain ⟨g₁, m⟩ := r
      simp only [gameHandleReadyCookie, hg, ht]
      split
      · refine ⟨_, rfl, fun id hid => ?_⟩
        rcases advancePhase_keys env lobby g₁ g.status id hid with h | h
        · rcases toggleReady_keys g g₁ m p id ht h with h' | h'
          · exact Or.inl h'
          · exact Or.inr (Or.inl (by rw [h']))
        · exact Or.inr (Or.inr h)
      · refine ⟨_, rfl, fun id hid => ?_⟩
        rcases toggleReady_keys g g₁ m p id ht hid with h' | h'
        · exact Or.inl h'
        · exact Or.inr (Or.inl (by rw [h']))

/-- The keys of the readiness and vote maps after a `CastVote`. -/
theorem vote_keys (maxVoteRounds : Int) (env : Env) (lobby : Lobby) (g : Game)
    (cookie : Option String) (suspectID : String) (hg : lobby.currentGame = some g) :
    ∃ g', (gameHandleVoteCookie maxVoteRounds env lobby cookie suspectID).1.currentGame = some g' ∧
      ∀ id ∈ gameKeys g', id ∈ gameKeys g ∨ cookie = some id ∨ id ∈ lobby.players := by
  obtain ⟨g', h1, _, h3⟩ := vote_step_cases maxVoteRounds env lobby g cookie suspectID hg
  rcases h3 with h | ⟨p, hc, hs, ⟨_, hg', _⟩ | ⟨_, _, hg', _⟩ | ⟨hfull, htie, _⟩⟩
  · rw [h]
    exact ⟨g, hg, fun id h => Or.inl h⟩
  · refine ⟨g', h1, fun id hid => ?_⟩
    rw [hg', mem_gameKeys] at hid
    rw [mem_gameKeys, hc]
    rcases hid with h | h | h | h
    · exact Or.inl (Or.inl h)
    · exact Or.inl (Or.inr (Or.inl h))
    · exact Or.inl (Or.inr (Or.inr (Or.inl h)))
    · rcases (AList.mem_insert g.votes).mp h with h' | h'
      · exact Or.inr (Or.inl (by rw [h']))
      · exact Or.inl (Or.inr (Or.inr (Or.inr h')))
  · refine ⟨g', h1, fun id hid => ?_⟩
    rw [hg', mem_gameKeys] at hid
    rw [mem_gameKeys]
    rcases hid with h | h | h | h
    · exact Or.inl (Or.inl h)
    · exact Or.inl (Or.inr (Or.inl h))
    · exact Or.inl (Or.inr (Or.inr (Or.inl h)))
    · exact absurd h (AList.not_mem_empty id)
  · subst hc
    rw [vote_finish maxVoteRounds env lobby g p suspectID hg hs hfull htie]
    refine ⟨_, rfl, fun id hid => ?_⟩
    rw [mem_gameKeys] at hid ⊢
    rcases hid with h | h | h | h
    · exact Or.inl (Or.inl h)
    · exact Or.inl (Or.inr (Or.inl h))
    · exact Or.inl (Or.inr (Or.inr (Or.inl h)))
    · rcases (AList.mem_insert g.votes).mp h with h' | h'
      · exact Or.inr (Or.inl (by rw [h']))
      · exact Or.inl (Or.inr (Or.inr (Or.inr h')))

/-- The keys of the readiness and vote maps after a `SubmitWord`. -/
theorem submit_keys (ctx : Context) (env : Env) (lobby : Lobby) (g : Game)
    (cookie : Option String) (formWord : GoString) (hg : lobby.currentGame = some g) :
    ∃ g', (gameHandleSubmitWord ctx env lobby cookie formWord).1.currentGame = some g' ∧
      ∀ id ∈ gameKeys g', id ∈ gameKeys g ∨ id ∈ lobby.players := by
  by_cases hrej : ∀ playerID g, cookie = some playerID → lobby.currentGame = some g →
      ¬ (TrimSpace formWord ≠ [] ∧ g.status = .wordCollection ∧
        g.wordsSubmitted.get playerID false = false)
  · obtain ⟨h, _⟩ := submit_rejected ctx env lobby cookie formWord hrej
    rw [h]
    exact ⟨g, hg, fun id h => Or.inl h⟩
  · push_neg at hrej
    obtain ⟨playerID, g₁, hc, hg₁, hw, hs, hnew⟩ := hrej
    have : g₁ = g := by rw [hg] at hg₁; exact (Option.some.inj hg₁).symm
    subst this hc
    obtain ⟨_, _, _, f4, f5, f6, f7, _⟩ := assignSpy_fields ctx env
      { g₁ with customWords := g₁.customWords.insert playerID (truncateWord (TrimSpace formWord)),
                wordsSubmitted := g₁.wordsSubmitted.insert playerID true } lobby.players
    rw [submit_accepted ctx env lobby g₁ playerID formWord hw hg hs hnew]
    split
    · split
      · refine ⟨_, rfl, fun id hid => Or.inl ?_⟩
        rw [mem_gameKeys] at hid ⊢
        rw [f4, f5, f6, f7] at hid
        exact hid
      · refine ⟨_, rfl, fun id hid => ?_⟩
        rw [mem_gameKeys] at hid ⊢
        simp only at hid
        rw [f4, f5, f6, f7] at hid
        rcases hid with h | h | h | h
        · rcases mem_seedFalse _ _ id h with h' | h'
          · exact Or.inl (Or.inl h')
          · exact Or.inr ((mem_rangePlayers env 1 lobby id).mp h')
        · exact Or.inl (Or.inr (Or.inl h))
        · exact Or.inl (Or.inr (Or.inr (Or.inl h)))
        · exact Or.inl (Or.inr (Or.inr (Or.inr h)))
    · exact ⟨_, rfl, fun id hid => Or.inl hid⟩

/-- A room without a game is left as it is by every request. -/
theorem step_no_game (maxVoteRounds : Int) (ctx : Context) (env : Env) (lobby : Lobby)
    (call : Call) (hg : lobby.currentGame = none) :
    (step maxVoteRounds ctx env lobby call).1 = lobby := by
  cases call with
  | toggleReady cookie =>
    exact (ready_rejected env lobby cookie (fun p g _ hg' => by rw [hg] at hg'; cases hg')).1
  | castVote cookie suspectID =>
    exact (vote_rejected maxVoteRounds env lobby cookie suspectID
      (fun p g _ hg' => by rw [hg] at hg'; cases hg')).1
  | submitWord cookie formWord =>
    exact (submit_rejected ctx env lobby cookie formWord
      (fun p g _ hg' => by rw [hg] at hg'; cases hg')).1

/-- The keys of the readiness and vote maps after any request. -/
theorem step_keys (maxVoteRounds : Int) (ctx : Context) (env : Env) (lobby : Lobby) (g : Game)
    (call : Call) (hg : lobby.currentGame = some g) :
    ∃ g', (step maxVoteRounds ctx env lobby call).1.currentGame = some g' ∧
      (step maxVoteRounds ctx env lobby call).1.players = lobby.players ∧
      ∀ id ∈ gameKeys g', id ∈ gameKeys g ∨ call.cookie = some id ∨ id ∈ lobby.players := by
  have hp := (step_players maxVoteRounds ctx env lobby g call hg).1
  cases call with
  | toggleReady cookie =>
    obtain ⟨g', h1, h2⟩ := ready_keys env lobby g cookie hg
    exact ⟨g', h1, hp, h2⟩
  | castVote cookie suspectID =>
    obtain ⟨g', h1, h2⟩ := vote_keys maxVoteRounds env lobby g cookie suspectID hg
    exact ⟨g', h1, hp, h2⟩
  | submitWord cookie formWord =>
    obtain ⟨g', h1, h2⟩ := submit_keys ctx env lobby g cookie formWord hg
    refine ⟨g', h1, hp, fun id hid => ?_⟩
    rcases h2 id hid with h | h
    · exact Or.inl h
    · exact Or.inr (Or.inr h)

theorem goInc_eq (n : Int) (h1 : minInt64 ≤ n) (h2 : n < maxInt64) : goInc n = n + 1 := by
  unfold goInc wrapInt64
  unfold minInt64 at h1
  unfold maxInt64 at h2
  omega

/-- A request that takes a game that is not Finished to Finished is a `CastVote`
on a Voting game that ran the scoring loop; it panicked exactly when the loop
did. -/
theorem step_resolved (maxVoteRounds : Int) (ctx : Context) (env : Env) (lobby : Lobby)
    (g : Game) (call : Call) (hg : lobby.currentGame = some g) (hne : g.status ≠ .finished)
    (hfin : statusOf (step maxVoteRounds ctx env lobby call).1 = some .finished) :
    g.status = .voting ∧ (∃ playerID suspectID, call = .castVote (some playerID) suspectID) ∧
    ∃ w, (step maxVoteRounds ctx env lobby call).1.scores =
        (creditScores g.spyID w (rangePlayers env 2 lobby) lobby.scores).1 ∧
      (step maxVoteRounds ctx env lobby call).2 =
        if (creditScores g.spyID w (rangePlayers env 2 lobby) lobby.scores).2
        then .panicked else .html := by
  have hnl : (step maxVoteRounds ctx env lobby call).1 ≠ lobby := by
    intro h
    rw [h, statusOf, hg] at hfin
    exact hne (Option.some.inj hfin)
  cases call with
  | toggleReady cookie =>
    obtain ⟨g', h1, _, _, h2⟩ := ready_step_cases env lobby g cookie hg
    have hst : g'.status = .finished := by
      have : statusOf (gameHandleReadyCookie env lobby cookie).1 = some .finished := hfin
      rw [statusOf, h1] at this
      exact Option.some.inj this
    rcases h2 with h | ⟨_, h | h⟩ | ⟨_, h | h⟩ | ⟨_, h | h⟩
    · exact absurd h hnl
    all_goals (rw [hst] at h; cases h)
  | submitWord cookie formWord =>
    obtain ⟨g', h1, _, _, h2⟩ := submit_step_cases ctx env lobby g cookie formWord hg
    have hst : g'.status = .finished := by
      have : statusOf (gameHandleSubmitWord ctx env lobby cookie formWord).1
          = some .finished := hfin
      rw [statusOf, h1] at this
      exact Option.some.inj this
    rcases h2 with h | ⟨_, h | h⟩
    · exact absurd h hnl
    all_goals (rw [hst] at h; cases h)
  | castVote cookie suspectID =>
    obtain ⟨g', h1, _, h2⟩ := vote_step_cases maxVoteRounds env lobby g cookie suspectID hg
    have hst : g'.status = .finished := by
      have : statusOf (gameHandleVoteCookie maxVoteRounds env lobby cookie suspectID).1
          = some .finished := hfin
      rw [statusOf, h1] at this
      exact Option.some.inj this
    rcases h2 with h | ⟨p, hc, hs, ⟨_, h, _⟩ | ⟨_, _, h, _⟩ | ⟨hfull, htie, _⟩⟩
    · exact absurd h hnl
    · rw [h] at hst; exact absurd hst hne
    · rw [h] at hst; exact absurd hst hne
    · subst hc
      refine ⟨hs, ⟨p, suspectID, rfl⟩,
        innocentWonOf env (g.votes.insert p suspectID) g.spyID, ?_, ?_⟩
      · show (gameHandleVoteCookie maxVoteRounds env lobby (some p) suspectID).1.scores = _
        rw [vote_finish maxVoteRounds env lobby g p suspectID hg hs hfull htie]
      · show (gameHandleVoteCookie maxVoteRounds env lobby (some p) suspectID).2 = _
        rw [vote_finish maxVoteRounds env lobby g p suspectID hg hs hfull htie]

/-- With a score entry for every player, a served request that panics does
not leave the game Finished. -/
theorem panicked_not_finished (maxVoteRounds : Int) (ctx : Context) (env : Env)
    (lobby : Lobby) (g : Game) (call : Call) (hg : lobby.currentGame = some g)
    (hcov : ∀ id, id ∈ lobby.players → id ∈ lobby.scores)
    (hpan : (step maxVoteRounds ctx env lobby call).2 = .panicked) :
    statusOf (step maxVoteRounds ctx env lobby call).1 ≠ some .finished := by
  intro hfin
  by_cases hne : g.status = .finished
  · obtain ⟨_, msg, code, hr⟩ := step_finished maxVoteRounds ctx env lobby call
      (by simp [statusOf, hg, hne])
    rw [hr] at hpan
    cases hpan
  · obtain ⟨_, _, w, _, hr⟩ := step_resolved maxVoteRounds ctx env lobby g call hg hne hfin
    have hnd : (rangePlayers env 2 lobby).Nodup :=
      (rangePlayers_perm env 2 lobby).nodup_iff.mpr lobby.players.keys_nodup
    have hcov' : ∀ id ∈ rangePlayers env 2 lobby, id ∈ lobby.scores :=
      fun id hid => hcov id ((mem_rangePlayers env 2 lobby id).mp hid)
    have hnp := (creditScores_spec g.spyID w _ hnd lobby.scores hcov').1
    rw [hr, hnp] at hpan
    cases hpan

/-- With a score entry for every player, a room whose game is Finished is not
locked: the resolution completed. -/
theorem finished_unlocked (maxVoteRounds : Int) (ctx : Context) (lobby : Lobby) (g : Game)
    (hg : lobby.currentGame = some g)
    (hcov : ∀ id, id ∈ lobby.players → id ∈ lobby.scores)
    (calls : List (Env × Call))
    (hf : statusOf (run maxVoteRounds ctx calls lobby) = some .finished) :
    (runLocked maxVoteRounds ctx calls lobby).2 = false := by
  induction calls using List.reverseRecOn with
  | nil => rfl
  | append_singleton calls c ih =>
    rw [locked_snoc]
    rw [run_snoc] at hf
    cases hl : (runLocked maxVoteRounds ctx calls lobby).2
    · rw [hl] at hf
      simp only [Bool.false_eq_true, if_false] at hf
      obtain ⟨hp, ⟨g₁, hg₁⟩, hc⟩ := run_inv (fun id => id ∈ lobby.players) maxVoteRounds ctx
        calls lobby ⟨rfl, ⟨g, hg⟩, hcov⟩
      have hcov₁ : ∀ id, id ∈ (run maxVoteRounds ctx calls lobby).players →
          id ∈ (run maxVoteRounds ctx calls lobby).scores := by
        intro id hid
        rw [hp] at hid
        exact hc id hid
      have := panicked_not_finished maxVoteRounds ctx c.1 _ g₁ c.2 hg₁ hcov₁
      simp only [Bool.false_or, decide_eq_false_iff_not]
      exact fun hpan => this hpan hf
    · rw [hl] at hf
      simp only [if_true] at hf
      rw [ih hf] at hl
      cases hl

/-- What each request is answered on a Finished game. -/
theorem finished_responses (maxVoteRounds : Int) (ctx : Context) (env : Env) (lobby : Lobby)
    (hf : statusOf lobby = some .finished) (call : Call) :
    (step maxVoteRounds ctx env lobby call).1 = lobby ∧
    (call.cookie = none →
      (step maxVoteRounds ctx env lobby call).2 = .httpError "Unauthorized" 401) ∧
    (∀ p, call = .toggleReady (some p) →
      (step maxVoteRounds ctx env lobby call).2 = .httpError "Invalid game phase" 400) ∧
    (∀ p s, call = .castVote (some p) s →
      (step maxVoteRounds ctx env lobby call).2 = .httpError "Not in voting phase" 400) ∧
    (∀ p w, call = .submitWord (some p) w →
      (TrimSpace w = [] →
        (step maxVoteRounds ctx env lobby call).2 = .httpError "Word is required" 400) ∧
      (TrimSpace w ≠ [] →
        (step maxVoteRounds ctx env lobby call).2
          = .httpError "Not in word collection phase" 400)) := by
  refine ⟨(step_finished maxVoteRounds ctx env lobby call hf).1, ?_, ?_, ?_, ?_⟩
  · intro hc
    cases call <;> (simp only [Call.cookie] at hc; subst hc; rfl)
  · intro p hc
    subst hc
    exact (finished_phase_guard maxVoteRounds ctx env lobby hf p).1
  · intro p s hc
    subst hc
    exact (finished_phase_guard maxVoteRounds ctx env lobby hf p).2.1 s
  · intro p w hc
    subst hc
    refine ⟨fun hw => ?_, (finished_phase_guard maxVoteRounds ctx env lobby hf p).2.2 w⟩
    show (gameHandleSubmitWord ctx env lobby (some p) w).2 = _
    simp only [gameHandleSubmitWord, hw, if_true]

/-- C1. Vote tally decision. In a game in Voting, a `CastVote` after which the
number of recorded votes equals the player count results in a revote (votes
cleared, `voteRound` one higher, still Voting) exactly when at least two
suspect ids share the maximum vote count and `voteRound` is below
`MaxVoteRounds`; in every other such case the status becomes Finished. The
game left by the call is the same in every environment, that is, whatever
the order in which the vote maps are iterated. -/
theorem vote_tally_decision (maxVoteRounds : Int) (env : Env) (lobby : Lobby) (g : Game)
    (playerID suspectID : String)
    (hg : lobby.currentGame = some g) (hs : g.status = .voting)
    (hfull : GoMap.len (g.votes.insert playerID suspectID) = lobby.players.len) :
    ∃ g', (gameHandleVoteCookie maxVoteRounds env lobby (some playerID) suspectID).1.currentGame
        = some g' ∧
      ((g'.votes = ∅ ∧ g'.voteRound = g.voteRound + 1 ∧ g'.status = .voting) ↔
        (TopTie (g.votes.insert playerID suspectID) ∧ g.voteRound < maxVoteRounds)) ∧
      (¬ (TopTie (g.votes.insert playerID suspectID) ∧ g.voteRound < maxVoteRounds) →
        g'.status = .finished) ∧
      ∀ env', (gameHandleVoteCookie maxVoteRounds env' lobby (some playerID)
        suspectID).1.currentGame = some g' := by
  by_cases htie : TopTie (g.votes.insert playerID suspectID) ∧ g.voteRound < maxVoteRounds
  · rw [vote_revote maxVoteRounds env lobby g playerID suspectID hg hs hfull htie]
    refine ⟨_, rfl, by simp [htie, hs], fun h => absurd htie h, fun env' => ?_⟩
    rw [vote_revote maxVoteRounds env' lobby g playerID suspectID hg hs hfull htie]
  · rw [vote_finish maxVoteRounds env lobby g playerID suspectID hg hs hfull htie]
    refine ⟨_, rfl, ?_, fun _ => rfl, fun env' => ?_⟩
    · simp [htie]
    · rw [vote_finish maxVoteRounds env' lobby g playerID suspectID hg hs hfull htie]

/-- Instance of C1: four players, the last vote produces a tie between `p1` and `p2`. -/
theorem vote_tally_decision_witness :
    votingRoom4.currentGame = some votingGame4 ∧ votingGame4.status = .voting ∧
    GoMap.len (votingGame4.votes.insert "p4" "p2") = votingRoom4.players.len ∧
    ∃ g', (gameHandleVoteCookie 3 idEnv votingRoom4 (some "p4") "p2").1.currentGame = some g' ∧
      ((g'.votes = ∅ ∧ g'.voteRound = votingGame4.voteRound + 1 ∧ g'.status = .voting) ↔
        (TopTie (votingGame4.votes.insert "p4" "p2") ∧ votingGame4.voteRound < 3)) ∧
      (¬ (TopTie (votingGame4.votes.insert "p4" "p2") ∧ votingGame4.voteRound < 3) →
        g'.status = .finished) ∧
      ∀ env', (gameHandleVoteCookie 3 env' votingRoom4 (some "p4") "p2").1.currentGame
        = some g' :=
  ⟨rfl, rfl, by decide,
    vote_tally_decision 3 idEnv votingRoom4 votingGame4 "p4" "p2" rfl rfl (by decide)⟩

/-- C2, as written, fails at the largest `int`. In a two-player room where
every player has a score entry and the spy `a` has won 9223372036854775807
games, the vote of `b` resolves the game to Finished and the handler returns
normally; the spy's `GamesLost` stays 0 and its `GamesWon` becomes
-9223372036854775808, so neither counter of the spy was incremented by one. -/
theorem score_crediting_counterexample :
    maxScoreRoom2.currentGame = some lastVoteGame2 ∧ lastVoteGame2.status = .voting ∧
    lastVoteGame2.spyID = "a" ∧
    (∀ id ∈ maxScoreRoom2.players, id ∈ maxScoreRoom2.scores) ∧
    statusOf (gameHandleVoteCookie 3 idEnv maxScoreRoom2 (some "b") "b").1 = some .finished ∧
    (gameHandleVoteCookie 3 idEnv maxScoreRoom2 (some "b") "b").2 = .html ∧
    maxScoreRoom2.scores.lookup "a" = some ⟨9223372036854775807, 0⟩ ∧
    (gameHandleVoteCookie 3 idEnv maxScoreRoom2 (some "b") "b").1.scores.lookup "a"
      = some ⟨-9223372036854775808, 0⟩ ∧
    (-9223372036854775808 : Int) ≠ 9223372036854775807 + 1 := by
  refine ⟨rfl, rfl, rfl, ?_, ?_, ?_, ?_, ?_, ?_⟩ <;> decide

/-- C2, amended. Score crediting on resolution. When a `CastVote` resolves the
game to Finished and every player has a score entry, the handler completes
normally; if exactly one suspect achieved the maximum vote count and it is the
spy (innocents win), the spy's `GamesLost` and every other player's `GamesWon`
get one Go increment; otherwise the spy's `GamesWon` and every other player's
`GamesLost` get one Go increment. No other score field or entry changes. A Go
increment adds one to a counter below the largest `int` and turns the largest
`int` into the smallest. -/
theorem score_crediting (maxVoteRounds : Int) (env : Env) (lobby : Lobby) (g : Game)
    (playerID suspectID : String)
    (hg : lobby.currentGame = some g) (hs : g.status = .voting)
    (hfin : statusOf (gameHandleVoteCookie maxVoteRounds env lobby (some playerID) suspectID).1
      = some .finished)
    (hcov : ∀ id ∈ lobby.players, id ∈ lobby.scores) :
    (gameHandleVoteCookie maxVoteRounds env lobby (some playerID) suspectID).2 = .html ∧
    (UniqueTop (g.votes.insert playerID suspectID) g.spyID →
      Credited lobby.players (fun id => id ≠ g.spyID) lobby.scores
        (gameHandleVoteCookie maxVoteRounds env lobby (some playerID) suspectID).1.scores) ∧
    (¬ UniqueTop (g.votes.insert playerID suspectID) g.spyID →
      Credited lobby.players (fun id => id = g.spyID) lobby.scores
        (gameHandleVoteCookie maxVoteRounds env lobby (some playerID) suspectID).1.scores) ∧
    (∀ n, minInt64 ≤ n → n < maxInt64 → goInc n = n + 1) ∧
    goInc maxInt64 = minInt64 := by
  have hfull : GoMap.len (g.votes.insert playerID suspectID) = lobby.players.len := by
    by_contra hpart
    rw [vote_recorded maxVoteRounds env lobby g playerID suspectID hg hs hpart] at hfin
    simp [statusOf, hs] at hfin
  have htie : ¬ (TopTie (g.votes.insert playerID suspectID) ∧ g.voteRound < maxVoteRounds) := by
    intro htie
    rw [vote_revote maxVoteRounds env lobby g playerID suspectID hg hs hfull htie] at hfin
    simp [statusOf, hs] at hfin
  rw [vote_finish maxVoteRounds env lobby g playerID suspectID hg hs hfull htie]
  have hnd : (rangePlayers env 2 lobby).Nodup :=
    (rangePlayers_perm env 2 lobby).nodup_iff.mpr lobby.players.keys_nodup
  have hcov' : ∀ id ∈ rangePlayers env 2 lobby, id ∈ lobby.scores :=
    fun id hid => hcov id ((mem_rangePlayers env 2 lobby id).mp hid)
  obtain ⟨hp, hl⟩ := creditScores_spec g.spyID
    (innocentWonOf env (g.votes.insert playerID suspectID) g.spyID) _ hnd lobby.scores hcov'
  have hw := uniqueTop_iff env (g.votes.insert playerID suspectID) g.spyID
  refine ⟨by simp [hp], ?_, ?_, goInc_eq, by decide⟩
  · intro hu id
    show (_ → _) ∧ (_ → ∃ s, _ ∧ _)
    have hw' : innocentWonOf env (g.votes.insert playerID suspectID) g.spyID = true := hw.mpr hu
    rw [hw'] at hl
    simp only [hw', hl, mem_rangePlayers]
    refine ⟨fun h => by simp [h], fun h => ?_⟩
    obtain ⟨s, hs'⟩ := Option.isSome_iff_exists.mp (AList.lookup_isSome.mpr (hcov id h))
    refine ⟨s, hs', ?_⟩
    rw [if_pos h, hs']
    by_cases hsp : id = g.spyID <;> simp [hsp, creditOne, creditLoss, creditWin]
  · intro hu id
    show (_ → _) ∧ (_ → ∃ s, _ ∧ _)
    have hw' : innocentWonOf env (g.votes.insert playerID suspectID) g.spyID = false := by
      cases h : innocentWonOf env (g.votes.insert playerID suspectID) g.spyID
      · rfl
      · exact absurd (hw.mp h) hu
    rw [hw'] at hl
    simp only [hw', hl, mem_rangePlayers]
    refine ⟨fun h => by simp [h], fun h => ?_⟩
    obtain ⟨s, hs'⟩ := Option.isSome_iff_exists.mp (AList.lookup_isSome.mpr (hcov id h))
    refine ⟨s, hs', ?_⟩
    rw [if_pos h, hs']
    by_cases hsp : id = g.spyID <;> simp [hsp, creditOne, creditLoss, creditWin]

/-- Instance of C2: the last vote makes the spy `p1` the unique top suspect, so
`p1` goes from 0 wins and 0 losses to 0 wins and 1 loss and `p2` to 1 win and
0 losses. -/
theorem score_crediting_witness :
    votingRoom4.currentGame = some votingGame4 ∧ votingGame4.status = .voting ∧
    statusOf (gameHandleVoteCookie 3 idEnv votingRoom4 (some "p4") "p1").1 = some .finished ∧
    (∀ id ∈ votingRoom4.players, id ∈ votingRoom4.scores) ∧
    UniqueTop (votingGame4.votes.insert "p4" "p1") votingGame4.spyID ∧
    (gameHandleVoteCookie 3 idEnv votingRoom4 (some "p4") "p1").2 = .html ∧
    Credited votingRoom4.players (fun id => id ≠ votingGame4.spyID) votingRoom4.scores
      (gameHandleVoteCookie 3 idEnv votingRoom4 (some "p4") "p1").1.scores ∧
    votingRoom4.scores.lookup "p1" = some ⟨0, 0⟩ ∧
    (gameHandleVoteCookie 3 idEnv votingRoom4 (some "p4") "p1").1.scores.lookup "p1"
      = some ⟨0, 1⟩ ∧
    votingRoom4.scores.lookup "p2" = some ⟨0, 0⟩ ∧
    (gameHandleVoteCookie 3 idEnv votingRoom4 (some "p4") "p1").1.scores.lookup "p2"
      = some ⟨1, 0⟩ :=
  ⟨rfl, rfl, by decide, by decide,
    (uniqueTop_iff idEnv (votingGame4.votes.insert "p4" "p1") votingGame4.spyID).mp
      (by decide),
    (score_crediting 3 idEnv votingRoom4 votingGame4 "p4" "p1" rfl rfl (by decide)
      (by decide)).1,
    (score_crediting 3 idEnv votingRoom4 votingGame4 "p4" "p1" rfl rfl (by decide)
      (by decide)).2.1
      ((uniqueTop_iff idEnv (votingGame4.votes.insert "p4" "p1") votingGame4.spyID).mp
        (by decide)),
    by decide, by decide, by decide, by decide⟩

/-- C3. Unanimous readiness quorum. A `ToggleReady` on a game in ReadyCheck
(respectively RoleReveal) flips the caller in that phase's readiness map, and
the status advances to RoleReveal (respectively Playing) exactly when the
number of current room players whose entry in that map is then true equals
the player count; otherwise the status is unchanged. -/
theorem unanimous_quorum (env : Env) (lobby : Lobby) (g : Game) (playerID : String)
    (hg : lobby.currentGame = some g) :
    (g.status = .readyCheck →
      ∃ g', (gameHandleReadyCookie env lobby (some playerID)).1.currentGame = some g' ∧
        (gameHandleReadyCookie env lobby (some playerID)).1.players = lobby.players ∧
        g'.readyToReveal = toggle g.readyToReveal playerID ∧
        (g'.status = .roleReveal ↔
          readyCountOf lobby.players g'.readyToReveal = lobby.players.len) ∧
        (readyCountOf lobby.players g'.readyToReveal ≠ lobby.players.len →
          g'.status = .readyCheck)) ∧
    (g.status = .roleReveal →
      ∃ g', (gameHandleReadyCookie env lobby (some playerID)).1.currentGame = some g' ∧
        (gameHandleReadyCookie env lobby (some playerID)).1.players = lobby.players ∧
        g'.readyAfterReveal = toggle g.readyAfterReveal playerID ∧
        (g'.status = .playing ↔
          readyCountOf lobby.players g'.readyAfterReveal = lobby.players.len) ∧
        (readyCountOf lobby.players g'.readyAfterReveal ≠ lobby.players.len →
          g'.status = .roleReveal)) := by
  constructor
  · intro hs
    rw [ready_readyCheck env lobby g playerID hg hs]
    by_cases hq : readyCountOf lobby.players (toggle g.readyToReveal playerID) = lobby.players.len
    · rw [if_pos hq]
      exact ⟨_, rfl, rfl, rfl, by simp [advancePhase, hq], fun h => absurd hq h⟩
    · rw [if_neg hq]
      exact ⟨_, rfl, rfl, rfl, by simp [hq, hs], fun _ => hs⟩
  · intro hs
    rw [ready_roleReveal env lobby g playerID hg hs]
    by_cases hq : readyCountOf lobby.players (toggle g.readyAfterReveal playerID) = lobby.players.len
    · rw [if_pos hq]
      refine ⟨_, rfl, rfl, (advancePhase_maps env lobby _).2.1, ?_, ?_⟩
      · rw [(advancePhase_maps env lobby _).2.1, (advancePhase_status env lobby _).2.1]
        simp [hq]
      · rw [(advancePhase_maps env lobby _).2.1]
        exact fun h => absurd hq h
    · rw [if_neg hq]
      exact ⟨_, rfl, rfl, rfl, by simp [hq, hs], fun _ => hs⟩

/-- Instance of C3: the third of three players becomes ready in ReadyCheck. -/
theorem unanimous_quorum_witness :
    readyRoom3.currentGame = some readyGame3 ∧
    ((readyGame3.status = .readyCheck →
      ∃ g', (gameHandleReadyCookie idEnv readyRoom3 (some "c")).1.currentGame = some g' ∧
        (gameHandleReadyCookie idEnv readyRoom3 (some "c")).1.players = readyRoom3.players ∧
        g'.readyToReveal = toggle readyGame3.readyToReveal "c" ∧
        (g'.status = .roleReveal ↔
          readyCountOf readyRoom3.players g'.readyToReveal = readyRoom3.players.len) ∧
        (readyCountOf readyRoom3.players g'.readyToReveal ≠ readyRoom3.players.len →
          g'.status = .readyCheck)) ∧
    (readyGame3.status = .roleReveal →
      ∃ g', (gameHandleReadyCookie idEnv readyRoom3 (some "c")).1.currentGame = some g' ∧
        (gameHandleReadyCookie idEnv readyRoom3 (some "c")).1.players = readyRoom3.players ∧
        g'.readyAfterReveal = toggle readyGame3.readyAfterReveal "c" ∧
        (g'.status = .playing ↔
          readyCountOf readyRoom3.players g'.readyAfterReveal = readyRoom3.players.len) ∧
        (readyCountOf readyRoom3.players g'.readyAfterReveal ≠ readyRoom3.players.len →
          g'.status = .roleReveal))) :=
  ⟨rfl, unanimous_quorum idEnv readyRoom3 readyGame3 "c" rfl⟩

/-- C4. Majority readiness quorum. A `ToggleReady` on a game in Playing advances
the status to Voting exactly when the post-toggle ready count exceeds the
player count divided by 2 (integer division), which is the same as
`2 * readyCount > playerCount`; otherwise the game stays in Playing, in
particular when exactly half of an even number of players is ready. -/
theorem majority_quorum (env : Env) (lobby : Lobby) (g : Game) (playerID : String)
    (hg : lobby.currentGame = some g) (hs : g.status = .playing) :
    ∃ g', (gameHandleReadyCookie env lobby (some playerID)).1.currentGame = some g' ∧
      (gameHandleReadyCookie env lobby (some playerID)).1.players = lobby.players ∧
      g'.readyToVote = toggle g.readyToVote playerID ∧
      (g'.status = .voting ↔
        readyCountOf lobby.players g'.readyToVote > lobby.players.len / 2) ∧
      (g'.status = .voting ↔ 2 * readyCountOf lobby.players g'.readyToVote > lobby.players.len) ∧
      (g'.status ≠ .voting → g'.status = .playing) ∧
      (2 * readyCountOf lobby.players g'.readyToVote = lobby.players.len →
        g'.status = .playing) := by
  rw [ready_playing env lobby g playerID hg hs]
  by_cases hq : readyCountOf lobby.players (toggle g.readyToVote playerID) > lobby.players.len / 2
  · rw [if_pos hq]
    refine ⟨_, rfl, rfl, rfl, by simp [advancePhase, hq], ?_, ?_, ?_⟩
    · simp only [advancePhase, true_iff]; omega
    · simp [advancePhase]
    · simp only [advancePhase]; intro h; omega
  · rw [if_neg hq]
    refine ⟨_, rfl, rfl, rfl, by simp [hq, hs], ?_, fun _ => hs, fun _ => hs⟩
    simp only [hs]
    constructor
    · intro h; cases h
    · intro h; omega

/-- Instance of C4: the third of five players becomes ready to vote. -/
theorem majority_quorum_witness :
    playingRoom5.currentGame = some playingGame5 ∧ playingGame5.status = .playing ∧
    ∃ g', (gameHandleReadyCookie idEnv playingRoom5 (some "c")).1.currentGame = some g' ∧
      (gameHandleReadyCookie idEnv playingRoom5 (some "c")).1.players = playingRoom5.players ∧
      g'.readyToVote = toggle playingGame5.readyToVote "c" ∧
      (g'.status = .voting ↔
        readyCountOf playingRoom5.players g'.readyToVote > playingRoom5.players.len / 2) ∧
      (g'.status = .voting ↔
        2 * readyCountOf playingRoom5.players g'.readyToVote > playingRoom5.players.len) ∧
      (g'.status ≠ .voting → g'.status = .playing) ∧
      (2 * readyCountOf playingRoom5.players g'.readyToVote = playingRoom5.players.len →
        g'.status = .playing) :=
  ⟨rfl, rfl, majority_quorum idEnv playingRoom5 playingGame5 "c" rfl rfl⟩

/-- C5. Phase monotonicity. Whatever the request and its arguments, the status
after the call is never earlier in the phase order than before; a Finished
game is left untouched; and a Voting game that is still in Voting afterwards
was either left untouched (rejected request), or gained the vote just cast, or
was reset by the tie revote (votes cleared and round incremented, with a tie
at the top below the round cap). -/
theorem phase_monotone (maxVoteRounds : Int) (ctx : Context) (env : Env) (lobby : Lobby)
    (g : Game) (call : Call) (hg : lobby.currentGame = some g) :
    ∃ g', (step maxVoteRounds ctx env lobby call).1.currentGame = some g' ∧
      phaseRank g.status ≤ phaseRank g'.status ∧
      (g.status = .finished → (step maxVoteRounds ctx env lobby call).1 = lobby) ∧
      (g.status = .voting → g'.status = .voting →
        (step maxVoteRounds ctx env lobby call).1 = lobby ∨
        ∃ playerID suspectID, call = .castVote (some playerID) suspectID ∧
          (g' = { g with votes := g.votes.insert playerID suspectID } ∨
           ((TopTie (g.votes.insert playerID suspectID) ∧ g.voteRound < maxVoteRounds) ∧
            g' = { g with votes := ∅, voteRound := g.voteRound + 1 }))) := by
  cases call with
  | toggleReady cookie =>
    obtain ⟨g', h1, _, _, h2⟩ := ready_step_cases env lobby g cookie hg
    refine ⟨g', h1, ?_, ?_, ?_⟩
    · rcases h2 with h | ⟨h, h' | h'⟩ | ⟨h, h' | h'⟩ | ⟨h, h' | h'⟩
      · have : g' = g := by
          have := h1; rw [h, hg] at this
          exact (Option.some.inj this).symm
        rw [this]
      all_goals simp [h, h', phaseRank]
    · intro hf
      rcases h2 with h | ⟨h, _⟩ | ⟨h, _⟩ | ⟨h, _⟩
      · exact h
      all_goals simp [hf] at h
    · intro hv _
      rcases h2 with h | ⟨h, _⟩ | ⟨h, _⟩ | ⟨h, _⟩
      · exact Or.inl h
      all_goals simp [hv] at h
  | submitWord cookie formWord =>
    obtain ⟨g', h1, _, _, h2⟩ := submit_step_cases ctx env lobby g cookie formWord hg
    refine ⟨g', h1, ?_, ?_, ?_⟩
    · rcases h2 with h | ⟨h, h' | h'⟩
      · have : g' = g := by
          have := h1; rw [h, hg] at this
          exact (Option.some.inj this).symm
        rw [this]
      all_goals simp [h, h', phaseRank]
    · intro hf
      rcases h2 with h | ⟨h, _⟩
      · exact h
      · simp [hf] at h
    · intro hv _
      rcases h2 with h | ⟨h, _⟩
      · exact Or.inl h
      · simp [hv] at h
  | castVote cookie suspectID =>
    obtain ⟨g', h1, _, h2⟩ := vote_step_cases maxVoteRounds env lobby g cookie suspectID hg
    refine ⟨g', h1, ?_, ?_, ?_⟩
    · rcases h2 with h | ⟨p, _, hs, ⟨_, h', _⟩ | ⟨_, _, h', _⟩ | ⟨_, _, h'⟩⟩
      · have : g' = g := by
          have := h1; rw [h, hg] at this
          exact (Option.some.inj this).symm
        rw [this]
      · rw [h']
      · rw [h']
      · rw [h', hs]; decide
    · intro hf
      rcases h2 with h | ⟨p, _, hs, _⟩
      · exact h
      · simp [hf] at hs
    · intro hv hv'
      rcases h2 with h | ⟨p, hc, hs, ⟨_, h', _⟩ | ⟨_, ht, h', _⟩ | ⟨_, _, h'⟩⟩
      · exact Or.inl h
      · exact Or.inr ⟨p, suspectID, by rw [hc], Or.inl h'⟩
      · exact Or.inr ⟨p, suspectID, by rw [hc], Or.inr ⟨ht, h'⟩⟩
      · rw [h'] at hv'; cases hv'

/-- Instance of C5: the vote that triggers the tie revote. -/
theorem phase_monotone_witness :
    votingRoom4.currentGame = some votingGame4 ∧
    ∃ g', (step 3 ⟨["c1"]⟩ idEnv votingRoom4 (.castVote (some "p4") "p2")).1.currentGame
        = some g' ∧
      phaseRank votingGame4.status ≤ phaseRank g'.status ∧
      (votingGame4.status = .finished →
        (step 3 ⟨["c1"]⟩ idEnv votingRoom4 (.castVote (some "p4") "p2")).1 = votingRoom4) ∧
      (votingGame4.status = .voting → g'.status = .voting →
        (step 3 ⟨["c1"]⟩ idEnv votingRoom4 (.castVote (some "p4") "p2")).1 = votingRoom4 ∨
        ∃ playerID suspectID, Call.castVote (some "p4") "p2" = .castVote (some playerID) suspectID ∧
          (g' = { votingGame4 with votes := votingGame4.votes.insert playerID suspectID } ∨
           ((TopTie (votingGame4.votes.insert playerID suspectID) ∧ votingGame4.voteRound < 3) ∧
            g' = { votingGame4 with votes := ∅, voteRound := votingGame4.voteRound + 1 }))) :=
  ⟨rfl, phase_monotone 3 ⟨["c1"]⟩ idEnv votingRoom4 votingGame4 (.castVote (some "p4") "p2") rfl⟩

/-- C6. Toggle parity. In a readiness phase (ReadyCheck, RoleReveal, Playing),
after `n` consecutive `ToggleReady` calls of one player, each made while the
game is in that phase, and starting from an entry that is false or absent,
the player's entry in the phase's readiness map is true exactly when `n` is
odd, and every other player's entry is as it was. -/
theorem toggle_parity (phase : GameStatus)
    (hph : phase = .readyCheck ∨ phase = .roleReveal ∨ phase = .playing)
    (envs : List Env) (lobby : Lobby) (g : Game) (playerID : String)
    (hg : lobby.currentGame = some g)
    (hinit : (readyMapOf phase g).get playerID false = false)
    (hstay : ∀ k, k < envs.length → statusOf (toggleN (envs.take k) lobby playerID) = some phase) :
    ∃ g', (toggleN envs lobby playerID).currentGame = some g' ∧
      ((readyMapOf phase g').get playerID false = true ↔ envs.length % 2 = 1) ∧
      ∀ q, q ≠ playerID → (readyMapOf phase g').lookup q = (readyMapOf phase g).lookup q := by
  induction envs using List.reverseRecOn with
  | nil => exact ⟨g, hg, by simp [hinit], fun _ _ => rfl⟩
  | append_singleton envs env ih =>
    have hstay' : ∀ k, k < envs.length →
        statusOf (toggleN (envs.take k) lobby playerID) = some phase := by
      intro k hk
      have := hstay k (by simp; omega)
      rwa [List.take_append_of_le_length (le_of_lt hk)] at this
    obtain ⟨g₁, hg₁, hpar, hoth⟩ := ih hstay'
    have hs₁ : g₁.status = phase := by
      have := hstay envs.length (by simp)
      rw [List.take_left' rfl, statusOf, hg₁] at this
      exact Option.some.inj this
    obtain ⟨g₂, hg₂, hmap⟩ := ready_step_map env _ g₁ playerID phase hph hg₁ hs₁
    rw [toggleN_snoc]
    refine ⟨g₂, hg₂, ?_, ?_⟩
    · rw [hmap, toggle_get, List.length_append, List.length_singleton]
      cases hb : (readyMapOf phase g₁).get playerID false
      · have : ¬ envs.length % 2 = 1 := fun h => by simpa [hb] using hpar.mpr h
        simp; omega
      · have := hpar.mp hb
        simp; omega
    · intro q hq
      rw [hmap, toggle_lookup_ne _ _ _ hq]
      exact hoth q hq

/-- Instance of C6: three toggles of `c` in a room that never reaches the quorum. -/
theorem toggle_parity_witness :
    (GameStatus.readyCheck = .readyCheck ∨ GameStatus.readyCheck = .roleReveal ∨
      GameStatus.readyCheck = .playing) ∧
    soloRoom3.currentGame = some soloGame3 ∧
    (readyMapOf .readyCheck soloGame3).get "c" false = false ∧
    (∀ k, k < [idEnv, idEnv, idEnv].length →
      statusOf (toggleN ([idEnv, idEnv, idEnv].take k) soloRoom3 "c") = some .readyCheck) ∧
    ∃ g', (toggleN [idEnv, idEnv, idEnv] soloRoom3 "c").currentGame = some g' ∧
      ((readyMapOf .readyCheck g').get "c" false = true ↔ [idEnv, idEnv, idEnv].length % 2 = 1) ∧
      ∀ q, q ≠ "c" →
        (readyMapOf .readyCheck g').lookup q = (readyMapOf .readyCheck soloGame3).lookup q :=
  have hstay : ∀ k, k < [idEnv, idEnv, idEnv].length →
      statusOf (toggleN ([idEnv, idEnv, idEnv].take k) soloRoom3 "c") = some .readyCheck := by
    intro k hk
    have hk' : k < 3 := hk
    interval_cases k <;> rfl
  ⟨Or.inl rfl, rfl, by decide, hstay,
    toggle_parity .readyCheck (Or.inl rfl) [idEnv, idEnv, idEnv] soloRoom3 soloGame3 "c" rfl
      (by decide) hstay⟩

/-- C7, as written, fails in three ways. (1) On a Finished game a request
without a cookie is answered 401 "Unauthorized" and a submission of a blank
word 400 "Word is required", neither of them by the phase guard. (2) Where
player `a` has no score entry, the vote that takes the game from Voting to
Finished panics in the scoring loop: player `b` keeps `GamesWon + GamesLost`
as it was, and the mutex stays locked, so later requests are not rejected but
never served. (3) Where `a` has won the largest `int` number of games, the
resolving vote wraps `GamesWon` to the smallest `int`, so the sum does not
grow by one. -/
theorem scores_change_once_counterexample :
    (statusOf finishedRoom2 = some .finished ∧
      (step 3 ⟨["c1"]⟩ idEnv finishedRoom2 (.toggleReady none)).2
        = .httpError "Unauthorized" 401 ∧
      (step 3 ⟨["c1"]⟩ idEnv finishedRoom2 (.submitWord (some "a") [0x20])).2
        = .httpError "Word is required" 400) ∧
    (statusOf noScoreRoom2 = some .voting ∧
      statusOf (run 3 ⟨["c1"]⟩ [(idEnv, .castVote (some "b") "b")] noScoreRoom2)
        = some .finished ∧
      "b" ∈ noScoreRoom2.players ∧
      noScoreRoom2.scores.lookup "b" = some ⟨0, 0⟩ ∧
      (run 3 ⟨["c1"]⟩ [(idEnv, .castVote (some "b") "b")] noScoreRoom2).scores.lookup "b"
        = some ⟨0, 0⟩ ∧
      (runLocked 3 ⟨["c1"]⟩ [(idEnv, .castVote (some "b") "b")] noScoreRoom2).2 = true) ∧
    (statusOf maxScoreRoom2 = some .voting ∧
      statusOf (run 3 ⟨["c1"]⟩ [(idEnv, .castVote (some "b") "b")] maxScoreRoom2)
        = some .finished ∧
      (∀ id, id ∈ maxScoreRoom2.players → id ∈ maxScoreRoom2.scores) ∧
      maxScoreRoom2.scores.lookup "a" = some ⟨9223372036854775807, 0⟩ ∧
      (run 3 ⟨["c1"]⟩ [(idEnv, .castVote (some "b") "b")] maxScoreRoom2).scores.lookup "a"
        = some ⟨-9223372036854775808, 0⟩) := by
  refine ⟨⟨?_, ?_, ?_⟩, ⟨?_, ?_, ?_, ?_, ?_, ?_⟩, ⟨?_, ?_, ?_, ?_, ?_⟩⟩ <;> decide

/-- C7, amended. Along any sequence of requests on a room with a game, served
one after the other until one panics with the mutex held: a request changes
the scores only if it is a `CastVote` taking the game from Voting to Finished;
when every player has a score entry, such a request returns with the mutex
free and gives every player one Go increment of exactly one of `GamesWon` and
`GamesLost`, so that `GamesWon + GamesLost` grows by exactly one whenever both
counters are below the largest `int`; and once the game is Finished every
further sequence of requests leaves the room as it is, each request that is
served being rejected: with 401 "Unauthorized" when it carries no cookie, 400
"Word is required" when it submits a blank word, and the phase guard's own
error otherwise, so the resolution cannot be replayed. -/
theorem scores_change_once (maxVoteRounds : Int) (ctx : Context) (lobby : Lobby) (g : Game)
    (hg : lobby.currentGame = some g)
    (pre post : List (Env × Call)) (env env' : Env) (call call' : Call) :
    ((run maxVoteRounds ctx (pre ++ [(env, call)]) lobby).scores
        ≠ (run maxVoteRounds ctx pre lobby).scores →
      (∃ playerID suspectID, call = .castVote (some playerID) suspectID) ∧
      statusOf (run maxVoteRounds ctx pre lobby) = some .voting ∧
      statusOf (run maxVoteRounds ctx (pre ++ [(env, call)]) lobby) = some .finished) ∧
    ((∀ id, id ∈ lobby.players → id ∈ lobby.scores) →
      statusOf (run maxVoteRounds ctx pre lobby) = some .voting →
      statusOf (run maxVoteRounds ctx (pre ++ [(env, call)]) lobby) = some .finished →
      (runLocked maxVoteRounds ctx (pre ++ [(env, call)]) lobby).2 = false ∧
      ∀ id, id ∈ lobby.players → ∃ s s',
        (run maxVoteRounds ctx pre lobby).scores.lookup id = some s ∧
        (run maxVoteRounds ctx (pre ++ [(env, call)]) lobby).scores.lookup id = some s' ∧
        (s' = { s with gamesWon := goInc s.gamesWon } ∨
          s' = { s with gamesLost := goInc s.gamesLost }) ∧
        (minInt64 ≤ s.gamesWon → s.gamesWon < maxInt64 →
          minInt64 ≤ s.gamesLost → s.gamesLost < maxInt64 →
          s'.gamesWon + s'.gamesLost = s.gamesWon + s.gamesLost + 1)) ∧
    (statusOf (run maxVoteRounds ctx pre lobby) = some .finished →
      run maxVoteRounds ctx (pre ++ post) lobby = run maxVoteRounds ctx pre lobby ∧
      ((∀ id, id ∈ lobby.players → id ∈ lobby.scores) →
        (runLocked maxVoteRounds ctx (pre ++ post) lobby).2 = false) ∧
      ((runLocked maxVoteRounds ctx (pre ++ post) lobby).2 = false →
        run maxVoteRounds ctx (pre ++ post ++ [(env', call')]) lobby
          = run maxVoteRounds ctx pre lobby ∧
        (call'.cookie = none →
          (step maxVoteRounds ctx env' (run maxVoteRounds ctx (pre ++ post) lobby) call').2
            = .httpError "Unauthorized" 401) ∧
        (∀ playerID, call' = .toggleReady (some playerID) →
          (step maxVoteRounds ctx env' (run maxVoteRounds ctx (pre ++ post) lobby) call').2
            = .httpError "Invalid game phase" 400) ∧
        (∀ playerID suspectID, call' = .castVote (some playerID) suspectID →
          (step maxVoteRounds ctx env' (run maxVoteRounds ctx (pre ++ post) lobby) call').2
            = .httpError "Not in voting phase" 400) ∧
        (∀ playerID formWord, call' = .submitWord (some playerID) formWord →
          (TrimSpace formWord = [] →
            (step maxVoteRounds ctx env' (run maxVoteRounds ctx (pre ++ post) lobby) call').2
              = .httpError "Word is required" 400) ∧
          (TrimSpace formWord ≠ [] →
            (step maxVoteRounds ctx env' (run maxVoteRounds ctx (pre ++ post) lobby) call').2
              = .httpError "Not in word collection phase" 400)))) := by
  have hinv : RoomInv (fun _ => False) lobby (run maxVoteRounds ctx pre lobby) :=
    run_inv _ maxVoteRounds ctx pre lobby ⟨rfl, ⟨g, hg⟩, fun _ h => h.elim⟩
  obtain ⟨hp, ⟨g₁, hg₁⟩, _⟩ := hinv
  have hstat : statusOf (run maxVoteRounds ctx pre lobby) = some g₁.status := by
    rw [statusOf, hg₁]; rfl
  refine ⟨?_, ?_, ?_⟩
  · intro hne
    rw [run_snoc] at hne ⊢
    split at hne
    · exact absurd rfl hne
    · rename_i hl
      rw [if_neg hl]
      rcases step_scores maxVoteRounds ctx env _ g₁ call hg₁ with h | ⟨h1, h2, h3, _⟩
      · exact absurd h hne
      · exact ⟨h1, by rw [hstat, h2], h3⟩
  · intro hcov hv hfin
    refine ⟨finished_unlocked maxVoteRounds ctx lobby g hg hcov _ hfin, ?_⟩
    intro id hid
    rw [run_snoc] at hfin ⊢
    split at hfin
    · rw [hv] at hfin
      cases hfin
    rename_i hl
    rw [if_neg hl]
    have hc : ∀ id, id ∈ lobby.players → id ∈ (run maxVoteRounds ctx pre lobby).scores :=
      (run_inv (fun id => id ∈ lobby.players) maxVoteRounds ctx pre lobby
        ⟨rfl, ⟨g, hg⟩, hcov⟩).2.2
    have hv₁ : g₁.status = .voting := by
      rw [hstat] at hv; exact Option.some.inj hv
    obtain ⟨w, hsc⟩ := step_resolving maxVoteRounds ctx env _ g₁ call hg₁ hv₁ hfin
    have hnd : (rangePlayers env 2 (run maxVoteRounds ctx pre lobby)).Nodup :=
      (rangePlayers_perm env 2 _).nodup_iff.mpr (AList.keys_nodup _)
    have hcov' : ∀ id ∈ rangePlayers env 2 (run maxVoteRounds ctx pre lobby),
        id ∈ (run maxVoteRounds ctx pre lobby).scores := by
      intro id hid
      rw [mem_rangePlayers, hp] at hid
      exact hc id hid
    obtain ⟨_, hl⟩ := creditScores_spec g₁.spyID w _ hnd _ hcov'
    obtain ⟨s, hs⟩ := Option.isSome_iff_exists.mp (AList.lookup_isSome.mpr (hc id hid))
    have hid' : id ∈ rangePlayers env 2 (run maxVoteRounds ctx pre lobby) := by
      rw [mem_rangePlayers, hp]; exact hid
    refine ⟨s, creditOne g₁.spyID w id s, hs, ?_, ?_, ?_⟩
    · show (step maxVoteRounds ctx env (run maxVoteRounds ctx pre lobby) call).1.scores.lookup id
        = _
      rw [hsc, hl, if_pos hid', hs]; rfl
    · unfold creditOne creditLoss creditWin
      split <;> split <;> simp
    · intro h1 h2 h3 h4
      have e1 := goInc_eq s.gamesWon h1 h2
      have e2 := goInc_eq s.gamesLost h3 h4
      unfold creditOne creditLoss creditWin
      split <;> split <;> simp only [e1, e2] <;> omega
  · intro hf
    have happ : run maxVoteRounds ctx (pre ++ post) lobby = run maxVoteRounds ctx pre lobby := by
      rw [run_append]
      split
      · rfl
      · exact run_finished maxVoteRounds ctx post _ hf
    refine ⟨happ, ?_, ?_⟩
    · intro hcov
      exact finished_unlocked maxVoteRounds ctx lobby g hg hcov _ (by rw [happ]; exact hf)
    · intro hl
      have hf' : statusOf (run maxVoteRounds ctx (pre ++ post) lobby) = some .finished := by
        rw [happ]; exact hf
      obtain ⟨h0, h1, h2, h3, h4⟩ := finished_responses maxVoteRounds ctx env'
        (run maxVoteRounds ctx (pre ++ post) lobby) hf' call'
      refine ⟨?_, h1, h2, h3, h4⟩
      rw [run_snoc, hl]
      simp only [Bool.false_eq_true, if_false]
      rw [h0, happ]

/-- Instance of C7: in the four-player room the fourth vote resolves the game
and turns every score from 0 wins and 0 losses into a sum of one, the mutex is
released, and afterwards a vote, a cookie-less request and a blank word are
answered by the phase guard, 401 and "Word is required". -/
theorem scores_change_once_witness :
    votingRoom4.currentGame = some votingGame4 ∧
    (runLocked 3 ⟨["c1"]⟩ ([] ++ [(idEnv, .castVote (some "p4") "p1")]) votingRoom4).2 = false ∧
    (∀ id, id ∈ votingRoom4.players → ∃ s s',
      (run 3 ⟨["c1"]⟩ [] votingRoom4).scores.lookup id = some s ∧
      (run 3 ⟨["c1"]⟩ ([] ++ [(idEnv, .castVote (some "p4") "p1")]) votingRoom4).scores.lookup id
        = some s' ∧
      (s' = { s with gamesWon := goInc s.gamesWon } ∨
        s' = { s with gamesLost := goInc s.gamesLost }) ∧
      (minInt64 ≤ s.gamesWon → s.gamesWon < maxInt64 →
        minInt64 ≤ s.gamesLost → s.gamesLost < maxInt64 →
        s'.gamesWon + s'.gamesLost = s.gamesWon + s.gamesLost + 1)) ∧
    (step 3 ⟨["c1"]⟩ idEnv
      (run 3 ⟨["c1"]⟩ ([(idEnv, .castVote (some "p4") "p1")]
        ++ [(idEnv, .toggleReady (some "p1"))]) votingRoom4)
      (.castVote (some "p2") "p3")).2 = .httpError "Not in voting phase" 400 ∧
    (step 3 ⟨["c1"]⟩ idEnv
      (run 3 ⟨["c1"]⟩ ([(idEnv, .castVote (some "p4") "p1")]
        ++ [(idEnv, .toggleReady (some "p1"))]) votingRoom4)
      (.toggleReady none)).2 = .httpError "Unauthorized" 401 ∧
    (step 3 ⟨["c1"]⟩ idEnv
      (run 3 ⟨["c1"]⟩ ([(idEnv, .castVote (some "p4") "p1")]
        ++ [(idEnv, .toggleReady (some "p1"))]) votingRoom4)
      (.submitWord (some "p2") [0x20, 0x09])).2 = .httpError "Word is required" 400 :=
  ⟨rfl,
    ((scores_change_once 3 ⟨["c1"]⟩ votingRoom4 votingGame4 rfl []
      [] idEnv idEnv (.castVote (some "p4") "p1")
      (.castVote (some "p2") "p3")).2.1 (by decide) (by decide) (by decide)).1,
    ((scores_change_once 3 ⟨["c1"]⟩ votingRoom4 votingGame4 rfl []
      [] idEnv idEnv (.castVote (some "p4") "p1")
      (.castVote (some "p2") "p3")).2.1 (by decide) (by decide) (by decide)).2,
    ((scores_change_once 3 ⟨["c1"]⟩ votingRoom4 votingGame4 rfl
      [(idEnv, .castVote (some "p4") "p1")] [(idEnv, .toggleReady (some "p1"))] idEnv idEnv
      (.castVote (some "p4") "p1") (.castVote (some "p2") "p3")).2.2 (by decide)).2.2
        (by decide) |>.2.2.2.1 "p2" "p3" rfl,
    ((scores_change_once 3 ⟨["c1"]⟩ votingRoom4 votingGame4 rfl
      [(idEnv, .castVote (some "p4") "p1")] [(idEnv, .toggleReady (some "p1"))] idEnv idEnv
      (.castVote (some "p4") "p1") (.toggleReady none)).2.2 (by decide)).2.2
        (by decide) |>.2.1 rfl,
    ((scores_change_once 3 ⟨["c1"]⟩ votingRoom4 votingGame4 rfl
      [(idEnv, .castVote (some "p4") "p1")] [(idEnv, .toggleReady (some "p1"))] idEnv idEnv
      (.castVote (some "p4") "p1") (.submitWord (some "p2") [0x20, 0x09])).2.2
        (by decide)).2.2 (by decide) |>.2.2.2.2 "p2" [0x20, 0x09] rfl |>.1 (by decide)⟩

/-- Counterexample to C8 as stated. In a two-player room where `b` has
submitted, the submission of `a` is accepted and completes the collection, so
the game moves to ReadyCheck and a second submission of `a` is answered with
the phase error, not with "Word already submitted". In a three-player room a
second submission consisting of a blank is answered with "Word is required". -/
theorem one_shot_submission_counterexample :
    (statusOf wordRoom2 = some .wordCollection ∧
      (gameHandleSubmitWord ⟨["c1"]⟩ idEnv wordRoom2 (some "a") [0x78]).2
        = .hxRedirect .readyCheck ∧
      (gameHandleSubmitWord ⟨["c1"]⟩ idEnv
          (gameHandleSubmitWord ⟨["c1"]⟩ idEnv wordRoom2 (some "a") [0x78]).1
          (some "a") [0x7A]).2
        = .httpError "Not in word collection phase" 400 ∧
      (gameHandleSubmitWord ⟨["c1"]⟩ idEnv
          (gameHandleSubmitWord ⟨["c1"]⟩ idEnv wordRoom2 (some "a") [0x78]).1
          (some "a") [0x7A]).2
        ≠ .httpError "Word already submitted" 400) ∧
    (statusOf wordRoom3 = some .wordCollection ∧
      (gameHandleSubmitWord ⟨["c1"]⟩ idEnv wordRoom3 (some "a") [0x78]).2 = .html ∧
      (gameHandleSubmitWord ⟨["c1"]⟩ idEnv
          (gameHandleSubmitWord ⟨["c1"]⟩ idEnv wordRoom3 (some "a") [0x78]).1
          (some "a") [0x20]).2
        = .httpError "Word is required" 400) := by
  decide

/-- C8, amended. After an accepted `SubmitWord` of a player in WordCollection, a
second `SubmitWord` of the same player is rejected and leaves the room, and so
the stored word, exactly as the first call left it. The rejection is "Word
already submitted" when the second word is not blank and the game is still in
WordCollection; it is the phase error when the first call completed the
collection, and "Word is required" when the second word is blank. -/
theorem one_shot_submission (ctx : Context) (env₁ env₂ : Env) (lobby : Lobby) (g : Game)
    (playerID : String) (word₁ word₂ : GoString)
    (hg : lobby.currentGame = some g) (hs : g.status = .wordCollection)
    (hacc : ∀ msg code,
      (gameHandleSubmitWord ctx env₁ lobby (some playerID) word₁).2 ≠ .httpError msg code) :
    (gameHandleSubmitWord ctx env₂
        (gameHandleSubmitWord ctx env₁ lobby (some playerID) word₁).1 (some playerID) word₂).1
      = (gameHandleSubmitWord ctx env₁ lobby (some playerID) word₁).1 ∧
    (∃ g₁, (gameHandleSubmitWord ctx env₁ lobby (some playerID) word₁).1.currentGame = some g₁ ∧
      g₁.customWords.lookup playerID = some (truncateWord (TrimSpace word₁))) ∧
    (TrimSpace word₂ ≠ [] →
      statusOf (gameHandleSubmitWord ctx env₁ lobby (some playerID) word₁).1
        = some .wordCollection →
      (gameHandleSubmitWord ctx env₂
          (gameHandleSubmitWord ctx env₁ lobby (some playerID) word₁).1 (some playerID) word₂).2
        = .httpError "Word already submitted" 400) ∧
    (TrimSpace word₂ ≠ [] →
      statusOf (gameHandleSubmitWord ctx env₁ lobby (some playerID) word₁).1
        ≠ some .wordCollection →
      (gameHandleSubmitWord ctx env₂
          (gameHandleSubmitWord ctx env₁ lobby (some playerID) word₁).1 (some playerID) word₂).2
        = .httpError "Not in word collection phase" 400) ∧
    (TrimSpace word₂ = [] →
      (gameHandleSubmitWord ctx env₂
          (gameHandleSubmitWord ctx env₁ lobby (some playerID) word₁).1 (some playerID) word₂).2
        = .httpError "Word is required" 400) := by
  have hok : TrimSpace word₁ ≠ [] ∧ g.wordsSubmitted.get playerID false = false := by
    by_contra hcon
    obtain ⟨_, msg, code, hr⟩ := submit_rejected ctx env₁ lobby (some playerID) word₁
      (fun p g' hp hg' => by
        cases hp
        rw [hg] at hg'; cases hg'
        intro h
        exact hcon ⟨h.1, h.2.2⟩)
    exact hacc msg code hr
  obtain ⟨g₁, h1, hcw, hws, _⟩ :=
    submit_accepted_cases ctx env₁ lobby g playerID word₁ hok.1 hg hs hok.2
  have hg₁ : (gameHandleSubmitWord ctx env₁ lobby (some playerID) word₁).1.currentGame
      = some g₁ := by rw [h1]; rfl
  have hsub : g₁.wordsSubmitted.get playerID false = true := by
    rw [hws, GoMap.get, AList.lookup_insert]; rfl
  obtain ⟨a1, a2, a3, a4⟩ := submit_again ctx env₂ _ g₁ playerID word₂ hg₁ hsub
  refine ⟨a1, ⟨g₁, hg₁, by rw [hcw, AList.lookup_insert]⟩, ?_, ?_, a2⟩
  · intro hw hst
    apply a3 hw
    rw [statusOf, hg₁] at hst
    exact Option.some.inj hst
  · intro hw hst
    apply a4 hw
    intro h
    apply hst
    rw [statusOf, hg₁, ← h]; rfl

/-- Instance of the amended C8: `a` submits twice in a three-player room. -/
theorem one_shot_submission_witness :
    wordRoom3.currentGame = some (emptyGame .customWords .wordCollection) ∧
    (emptyGame .customWords .wordCollection).status = .wordCollection ∧
    (∀ (msg : String) (code : Nat),
      (gameHandleSubmitWord ⟨["c1"]⟩ idEnv wordRoom3 (some "a") [0x78]).2
        ≠ .httpError msg code) ∧
    (gameHandleSubmitWord ⟨["c1"]⟩ idEnv
        (gameHandleSubmitWord ⟨["c1"]⟩ idEnv wordRoom3 (some "a") [0x78]).1 (some "a") [0x7A]).1
      = (gameHandleSubmitWord ⟨["c1"]⟩ idEnv wordRoom3 (some "a") [0x78]).1 :=
  have hhtml : (gameHandleSubmitWord ⟨["c1"]⟩ idEnv wordRoom3 (some "a") [0x78]).2 = .html := by
    decide
  have hacc : ∀ msg code,
      (gameHandleSubmitWord ⟨["c1"]⟩ idEnv wordRoom3 (some "a") [0x78]).2
        ≠ .httpError msg code := by
    intro msg code h
    rw [hhtml] at h
    cases h
  ⟨rfl, rfl, hacc,
    (one_shot_submission ⟨["c1"]⟩ idEnv idEnv wordRoom3 (emptyGame .customWords .wordCollection)
      "a" [0x78] [0x7A] rfl rfl hacc).1⟩

/-- Counterexample to C10 as stated. With an empty challenge pool, the submission
that makes the submitted-word count equal the player count panics inside
`assignSpyAndSelectWord` (modulo by the pool size) before the status is
advanced: the game is still in WordCollection. -/
theorem custom_words_assignment_counterexample :
    wordGame2.mode = .customWords ∧ statusOf wordRoom2 = some .wordCollection ∧
    0 < wordRoom2.players.len ∧
    submittedCount (wordGame2.wordsSubmitted.insert "a" true) = wordRoom2.players.len ∧
    (gameHandleSubmitWord ⟨[]⟩ idEnv wordRoom2 (some "a") [0x78]).2 = .panicked ∧
    statusOf (gameHandleSubmitWord ⟨[]⟩ idEnv wordRoom2 (some "a") [0x78]).1
      = some .wordCollection := by
  decide

/-- C10, amended. With a non-empty challenge pool, an accepted `SubmitWord` that
makes the submitted-word count equal the player count redirects to ReadyCheck
and, for every environment (every outcome of the random choices), leaves a
game in ReadyCheck whose `selectedCustomWord` is one of the submitted words
and the location's word, whose `spyID` is a current player with `spyName` that
player's name, and where each current player has a `playerInfo` entry that is
marked spy exactly for `spyID`. An accepted call with any other count only
records the word: nothing is assigned and the game stays in WordCollection. -/
theorem custom_words_assignment (ctx : Context) (env : Env) (lobby : Lobby) (g : Game)
    (playerID : String) (formWord : GoString)
    (hpool : ctx.challenges ≠ [])
    (hg : lobby.currentGame = some g) (hs : g.status = .wordCollection)
    (hw : TrimSpace formWord ≠ [])
    (hnew : g.wordsSubmitted.get playerID false = false) :
    (submittedCount (g.wordsSubmitted.insert playerID true) = lobby.players.len →
      (gameHandleSubmitWord ctx env lobby (some playerID) formWord).2 = .hxRedirect .readyCheck ∧
      ∃ g', (gameHandleSubmitWord ctx env lobby (some playerID) formWord).1.currentGame
          = some g' ∧
        g'.status = .readyCheck ∧
        (∃ id, g'.customWords.lookup id = some g'.selectedCustomWord) ∧
        g'.location = some { word := g'.selectedCustomWord, categories := ["custom"] } ∧
        (∃ p, lobby.players.lookup g'.spyID = some p ∧ g'.spyName = p.name) ∧
        (∀ id, id ∈ lobby.players → ∃ info, g'.playerInfo.lookup id = some info ∧
          (info.isSpy = true ↔ id = g'.spyID))) ∧
    (submittedCount (g.wordsSubmitted.insert playerID true) ≠ lobby.players.len →
      gameHandleSubmitWord ctx env lobby (some playerID) formWord =
        (withGame lobby
          { g with
            customWords := g.customWords.insert playerID (truncateWord (TrimSpace formWord)),
            wordsSubmitted := g.wordsSubmitted.insert playerID true },
         .html)) := by
  obtain ⟨g', h1, _, _, _, hlow, _, hfull⟩ :=
    submit_accepted_cases ctx env lobby g playerID formWord hw hg hs hnew
  constructor
  · intro hcnt
    obtain ⟨r, st, a1, a2, a3, a4, _⟩ := hfull hcnt hpool
    refine ⟨r, g', by rw [h1]; rfl, st, a1, a2, a3, fun id hid => ?_⟩
    obtain ⟨c, _, hc⟩ := a4 id hid
    exact ⟨_, hc, by simp⟩
  · intro hcnt
    obtain ⟨e1, e2⟩ := hlow hcnt
    rw [← e1]
    exact Prod.ext h1 e2

/-- Instance of the amended C10: the last of two players submits. -/
theorem custom_words_assignment_witness :
    (["c1"] : List String) ≠ [] ∧
    wordRoom2.currentGame = some wordGame2 ∧ wordGame2.status = .wordCollection ∧
    TrimSpace [0x78] ≠ [] ∧ wordGame2.wordsSubmitted.get "a" false = false ∧
    submittedCount (wordGame2.wordsSubmitted.insert "a" true) = wordRoom2.players.len ∧
    (gameHandleSubmitWord ⟨["c1"]⟩ idEnv wordRoom2 (some "a") [0x78]).2
      = .hxRedirect .readyCheck ∧
    ∃ g', (gameHandleSubmitWord ⟨["c1"]⟩ idEnv wordRoom2 (some "a") [0x78]).1.currentGame
        = some g' ∧
      g'.status = .readyCheck ∧
      (∃ id, g'.customWords.lookup id = some g'.selectedCustomWord) ∧
      g'.location = some { word := g'.selectedCustomWord, categories := ["custom"] } ∧
      (∃ p, wordRoom2.players.lookup g'.spyID = some p ∧ g'.spyName = p.name) ∧
      (∀ id, id ∈ wordRoom2.players → ∃ info, g'.playerInfo.lookup id = some info ∧
        (info.isSpy = true ↔ id = g'.spyID)) :=
  ⟨by decide, rfl, rfl, by decide, by decide, by decide,
    (custom_words_assignment ⟨["c1"]⟩ idEnv wordRoom2 wordGame2 "a" [0x78] (by decide) rfl rfl
      (by decide) (by decide)).1 (by decide)⟩

/-- Counterexample to C11 as stated. With an empty challenge pool and two
players, role assignment panics (modulo by the pool size) on the first player:
the submission that completes the collection ends in a panic and no
`playerInfo` entry has been written for player `a`. -/
theorem cyclic_challenges_counterexample :
    0 < wordRoom2.players.len ∧
    (assignSpyAndSelectWord ⟨[]⟩ idEnv
      { wordGame2 with customWords := wordGame2.customWords.insert "a" [0x78] }
      wordRoom2.players).2 = true ∧
    (gameHandleSubmitWord ⟨[]⟩ idEnv wordRoom2 (some "a") [0x78]).2 = .panicked ∧
    (gameHandleSubmitWord ⟨[]⟩ idEnv wordRoom2 (some "a") [0x78]).1.currentGame.map
      (fun g => g.playerInfo.lookup "a") = some none := by
  decide

/-- C11, amended. For every non-empty challenge pool, whatever its size
relative to the player count, the role assignment triggered by the submission
that completes the collection finishes without fault (the response is the
redirect to ReadyCheck) and there are an enumeration `ids` of the players and
a permutation `shuffled` of the pool such that the `i`-th player has a
`playerInfo` entry whose challenge is `shuffled[i % shuffled.length]`. Hence
every player has an entry, every assigned challenge is a member of the pool,
and when the pool has distinct prompts and is at least as large as the player
count, two different players never share a challenge. -/
theorem cyclic_challenges (ctx : Context) (env : Env) (lobby : Lobby) (g : Game)
    (playerID : String) (formWord : GoString)
    (hpool : ctx.challenges ≠ [])
    (hg : lobby.currentGame = some g) (hs : g.status = .wordCollection)
    (hw : TrimSpace formWord ≠ [])
    (hnew : g.wordsSubmitted.get playerID false = false)
    (hcnt : submittedCount (g.wordsSubmitted.insert playerID true) = lobby.players.len) :
    (gameHandleSubmitWord ctx env lobby (some playerID) formWord).2 = .hxRedirect .readyCheck ∧
    ∃ (g' : Game) (ids shuffled : List String),
      (gameHandleSubmitWord ctx env lobby (some playerID) formWord).1.currentGame = some g' ∧
      ids.Perm lobby.players.keys ∧ shuffled.Perm ctx.challenges ∧
      (∀ i (hi : i < ids.length), ∃ info : GamePlayerInfo,
        shuffled[i % shuffled.length]? = some info.challenge ∧
        g'.playerInfo.lookup (ids.get ⟨i, hi⟩) = some info) ∧
      (∀ id, id ∈ lobby.players → ∃ info : GamePlayerInfo,
        g'.playerInfo.lookup id = some info ∧ info.challenge ∈ ctx.challenges) ∧
      (ctx.challenges.Nodup → lobby.players.len ≤ ctx.challenges.length →
        ∀ p q ip iq, p ∈ lobby.players → q ∈ lobby.players → p ≠ q →
          g'.playerInfo.lookup p = some ip → g'.playerInfo.lookup q = some iq →
          ip.challenge ≠ iq.challenge) := by
  obtain ⟨hresp, g', spyID, hg', hinfo⟩ :=
    submit_full_roles ctx env lobby g playerID formWord hpool hg hs hw hnew hcnt
  have hkeys : ((env.rangeOrder 3 lobby.players.entries).map Sigma.fst).Perm lobby.players.keys :=
    (env.rangeOrder_perm 3 lobby.players.entries).map Sigma.fst
  have hshp := env.shuffle_perm ctx.challenges
  have hsh : env.shuffle ctx.challenges ≠ [] := by
    intro h
    have := hshp.length_eq
    rw [h] at this
    exact hpool (List.length_eq_zero.mp this.symm)
  have hnd : ((env.rangeOrder 3 lobby.players.entries).map Sigma.fst).Nodup :=
    hkeys.nodup_iff.mpr lobby.players.keys_nodup
  obtain ⟨_, _, hidx⟩ := assignRoles_spec (env.shuffle ctx.challenges) hsh spyID _ hnd 0
    g.playerInfo
  have hidx' : ∀ i (hi : i < ((env.rangeOrder 3 lobby.players.entries).map Sigma.fst).length),
      ∃ info : GamePlayerInfo, (env.shuffle ctx.challenges)[i % (env.shuffle ctx.challenges).length]?
          = some info.challenge ∧
        g'.playerInfo.lookup (((env.rangeOrder 3 lobby.players.entries).map Sigma.fst).get ⟨i, hi⟩)
          = some info := by
    intro i hi
    obtain ⟨c, hc1, hc2⟩ := hidx i hi
    rw [Nat.zero_add] at hc1
    exact ⟨_, hc1, by rw [hinfo]; exact hc2⟩
  refine ⟨hresp, g', _, _, hg', hkeys, hshp, hidx', ?_, ?_⟩
  · intro id hid
    have hid' : id ∈ (env.rangeOrder 3 lobby.players.entries).map Sigma.fst := by
      rw [hkeys.mem_iff]; exact hid
    obtain ⟨⟨i, hi⟩, rfl⟩ := List.mem_iff_get.mp hid'
    obtain ⟨info, h1, h2⟩ := hidx' i hi
    exact ⟨info, h2, hshp.mem_iff.mp (List.getElem?_mem h1)⟩
  · intro hpn hle p q ip iq hp hq hpq hip hiq
    have hp' : p ∈ (env.rangeOrder 3 lobby.players.entries).map Sigma.fst := by
      rw [hkeys.mem_iff]; exact hp
    have hq' : q ∈ (env.rangeOrder 3 lobby.players.entries).map Sigma.fst := by
      rw [hkeys.mem_iff]; exact hq
    obtain ⟨⟨i, hi⟩, hpi⟩ := List.mem_iff_get.mp hp'
    obtain ⟨⟨j, hj⟩, hqj⟩ := List.mem_iff_get.mp hq'
    obtain ⟨info₁, a1, a2⟩ := hidx' i hi
    obtain ⟨info₂, b1, b2⟩ := hidx' j hj
    rw [hpi, hip] at a2
    rw [hqj, hiq] at b2
    cases a2
    cases b2
    have hlen : ((env.rangeOrder 3 lobby.players.entries).map Sigma.fst).length
        ≤ (env.shuffle ctx.challenges).length := by
      rw [hkeys.length_eq, hshp.length_eq]
      simpa [GoMap.len, AList.keys, List.keys] using hle
    have hij : i ≠ j := by
      intro h
      subst h
      exact hpq (hpi.symm.trans hqj)
    rw [Nat.mod_eq_of_lt (lt_of_lt_of_le hi hlen)] at a1
    rw [Nat.mod_eq_of_lt (lt_of_lt_of_le hj hlen)] at b1
    exact nodup_getElem?_ne _ (hshp.nodup_iff.mpr hpn) i j _ _ a1 b1 hij

/-- Instance of the amended C11: two players and a pool of one challenge, so the index wraps. -/
theorem cyclic_challenges_witness :
    (["c1"] : List String) ≠ [] ∧
    wordRoom2.currentGame = some wordGame2 ∧ wordGame2.status = .wordCollection ∧
    TrimSpace [0x78] ≠ [] ∧ wordGame2.wordsSubmitted.get "a" false = false ∧
    submittedCount (wordGame2.wordsSubmitted.insert "a" true) = wordRoom2.players.len ∧
    ∃ (g' : Game) (ids shuffled : List String),
      (gameHandleSubmitWord ⟨["c1"]⟩ idEnv wordRoom2 (some "a") [0x78]).1.currentGame = some g' ∧
      ids.Perm wordRoom2.players.keys ∧ shuffled.Perm ["c1"] ∧
      (∀ i (hi : i < ids.length), ∃ info : GamePlayerInfo,
        shuffled[i % shuffled.length]? = some info.challenge ∧
        g'.playerInfo.lookup (ids.get ⟨i, hi⟩) = some info) ∧
      (∀ id, id ∈ wordRoom2.players → ∃ info : GamePlayerInfo,
        g'.playerInfo.lookup id = some info ∧ info.challenge ∈ (["c1"] : List String)) ∧
      ((["c1"] : List String).Nodup → wordRoom2.players.len ≤ (["c1"] : List String).length →
        ∀ p q ip iq, p ∈ wordRoom2.players → q ∈ wordRoom2.players → p ≠ q →
          g'.playerInfo.lookup p = some ip → g'.playerInfo.lookup q = some iq →
          ip.challenge ≠ iq.challenge) :=
  ⟨by decide, rfl, rfl, by decide, by decide, by decide,
    (cyclic_challenges ⟨["c1"]⟩ idEnv wordRoom2 wordGame2 "a" [0x78] (by decide) rfl rfl
      (by decide) (by decide) (by decide)).2⟩

/-- C12. Vote-count bound. Starting from a game in Voting with an empty `votes`
map and at least one player, after every sequence of requests (in particular
of `CastVote` calls) the players are the same, the size of `votes` is at most
the player count, and it is below the player count while the game is still in
Voting. Whenever a `CastVote` brings the size to the player count, that same
call performs the tally: it leaves the game either reset for a revote (votes
empty, round incremented, still Voting) or Finished. -/
theorem vote_count_bound (maxVoteRounds : Int) (ctx : Context) (lobby : Lobby) (g : Game)
    (hg : lobby.currentGame = some g) (hs : g.status = .voting) (hempty : g.votes = ∅)
    (hpl : 0 < lobby.players.len) (calls : List (Env × Call)) :
    ∃ g', (run maxVoteRounds ctx calls lobby).currentGame = some g' ∧
      (run maxVoteRounds ctx calls lobby).players = lobby.players ∧
      g'.votes.len ≤ lobby.players.len ∧
      (g'.status = .voting → g'.votes.len < lobby.players.len) ∧
      ∀ (env : Env) (playerID suspectID : String),
        g'.status = .voting →
        GoMap.len (g'.votes.insert playerID suspectID) = lobby.players.len →
        ∃ g'', (step maxVoteRounds ctx env (run maxVoteRounds ctx calls lobby)
            (.castVote (some playerID) suspectID)).1.currentGame = some g'' ∧
          ((g''.votes = ∅ ∧ g''.voteRound = g'.voteRound + 1 ∧ g''.status = .voting) ∨
           g''.status = .finished) := by
  have h0 : VoteInv lobby lobby :=
    ⟨rfl, g, hg, Or.inl ⟨hs, by rw [hempty, len_empty]; exact hpl⟩⟩
  obtain ⟨hp, g', hg', hst⟩ := run_voteInv maxVoteRounds ctx calls lobby h0
  refine ⟨g', hg', hp, ?_, ?_, ?_⟩
  · rcases hst with ⟨_, h⟩ | ⟨_, h⟩
    · exact le_of_lt h
    · exact h
  · intro hv
    rcases hst with ⟨_, h⟩ | ⟨hf, _⟩
    · exact h
    · rw [hf] at hv; cases hv
  · intro env playerID suspectID hv hfull
    rw [← hp] at hfull
    show ∃ g'', (gameHandleVoteCookie maxVoteRounds env _ (some playerID) suspectID).1.currentGame
      = some g'' ∧ _
    by_cases htie : TopTie (g'.votes.insert playerID suspectID) ∧ g'.voteRound < maxVoteRounds
    · rw [vote_revote maxVoteRounds env _ g' playerID suspectID hg' hv hfull htie]
      exact ⟨_, rfl, Or.inl ⟨rfl, rfl, hv⟩⟩
    · rw [vote_finish maxVoteRounds env _ g' playerID suspectID hg' hv hfull htie]
      exact ⟨_, rfl, Or.inr rfl⟩

/-- Instance of C12: three votes resolve the game and a fourth one is turned away. -/
theorem vote_count_bound_witness :
    freshVotingRoom3.currentGame = some (emptyGame .standard .voting) ∧
    (emptyGame .standard .voting).status = .voting ∧
    (emptyGame .standard .voting).votes = ∅ ∧
    0 < freshVotingRoom3.players.len ∧
    ∃ g', (run 3 ⟨["c1"]⟩
        [(idEnv, .castVote (some "a") "b"), (idEnv, .castVote (some "b") "a"),
         (idEnv, .castVote (some "c") "a"), (idEnv, .castVote (some "a") "c")]
        freshVotingRoom3).currentGame = some g' ∧
      g'.votes.len ≤ freshVotingRoom3.players.len :=
  ⟨rfl, rfl, rfl, by decide,
    (vote_count_bound 3 ⟨["c1"]⟩ freshVotingRoom3 (emptyGame .standard .voting) rfl rfl rfl
      (by decide)
      [(idEnv, .castVote (some "a") "b"), (idEnv, .castVote (some "b") "a"),
       (idEnv, .castVote (some "c") "a"), (idEnv, .castVote (some "a") "c")]).imp
      fun _ h => ⟨h.1, h.2.2.1⟩⟩

/-- Counterexample to C13 as stated. In the three-player room the toggle of `c`
fires the advance from ReadyCheck to RoleReveal; a second `ToggleReady` of `c`
is answered with the HTML fragment, not with "Invalid game phase", and it
changes a readiness map: the entry of `c` in `readyAfterReveal` goes from
false to true. -/
theorem advance_once_counterexample :
    statusOf readyRoom3 = some .readyCheck ∧
    statusOf (gameHandleReadyCookie idEnv readyRoom3 (some "c")).1 = some .roleReveal ∧
    (gameHandleReadyCookie idEnv
        (gameHandleReadyCookie idEnv readyRoom3 (some "c")).1 (some "c")).2 = .html ∧
    (gameHandleReadyCookie idEnv readyRoom3 (some "c")).1.currentGame.map
        (fun g => g.readyAfterReveal.get "c" false) = some false ∧
    (gameHandleReadyCookie idEnv
        (gameHandleReadyCookie idEnv readyRoom3 (some "c")).1 (some "c")).1.currentGame.map
        (fun g => g.readyAfterReveal.get "c" false) = some true := by
  decide

/-- C13, amended. Once a `ToggleReady` has fired the advance out of ReadyCheck or
RoleReveal, the game is in the next phase (RoleReveal, respectively Playing)
and a subsequent `ToggleReady` of any player is not rejected: it is handled
in that next phase, flipping the caller's entry in the next phase's readiness
map. It leaves the readiness map of the phase that was left unchanged, and
the game does not go back to an earlier phase. -/
theorem advance_once (env₁ env₂ : Env) (lobby : Lobby) (g : Game) (playerID playerID' : String)
    (hg : lobby.currentGame = some g)
    (hph : g.status = .readyCheck ∨ g.status = .roleReveal)
    (hadv : statusOf (gameHandleReadyCookie env₁ lobby (some playerID)).1 ≠ some g.status) :
    ∃ g₁ g₂, (gameHandleReadyCookie env₁ lobby (some playerID)).1.currentGame = some g₁ ∧
      (gameHandleReadyCookie env₂ (gameHandleReadyCookie env₁ lobby (some playerID)).1
        (some playerID')).1.currentGame = some g₂ ∧
      phaseRank g₁.status = phaseRank g.status + 1 ∧
      (∀ msg code,
        (gameHandleReadyCookie env₂ (gameHandleReadyCookie env₁ lobby (some playerID)).1
          (some playerID')).2 ≠ .httpError msg code) ∧
      readyMapOf g₁.status g₂ = toggle (readyMapOf g₁.status g₁) playerID' ∧
      readyMapOf g.status g₂ = readyMapOf g.status g₁ ∧
      phaseRank g₁.status ≤ phaseRank g₂.status := by
  obtain ⟨g₁, hg₁, hst⟩ := ready_advanced env₁ lobby g playerID hg hph hadv
  have hph₁ : g₁.status = .readyCheck ∨ g₁.status = .roleReveal ∨ g₁.status = .playing := by
    rcases hst with ⟨_, h⟩ | ⟨_, h⟩
    · exact Or.inr (Or.inl h)
    · exact Or.inr (Or.inr h)
  obtain ⟨g₂, hg₂, hresp, hmap, hrank, hold₁, hold₂⟩ :=
    ready_in_phase env₂ _ g₁ playerID' hg₁ hph₁
  refine ⟨g₁, g₂, hg₁, hg₂, ?_, hresp, hmap, ?_, hrank⟩
  · rcases hst with ⟨h, h'⟩ | ⟨h, h'⟩ <;> simp [h, h', phaseRank]
  · rcases hst with ⟨h, h'⟩ | ⟨h, h'⟩
    · rw [h]
      exact hold₁ (by simp [h'])
    · rw [h]
      exact hold₂ h'

/-- Instance of the amended C13: `c` fires the advance, then `a` toggles in RoleReveal. -/
theorem advance_once_witness :
    readyRoom3.currentGame = some readyGame3 ∧
    (readyGame3.status = .readyCheck ∨ readyGame3.status = .roleReveal) ∧
    statusOf (gameHandleReadyCookie idEnv readyRoom3 (some "c")).1 ≠ some readyGame3.status ∧
    ∃ g₁ g₂, (gameHandleReadyCookie idEnv readyRoom3 (some "c")).1.currentGame = some g₁ ∧
      (gameHandleReadyCookie idEnv (gameHandleReadyCookie idEnv readyRoom3 (some "c")).1
        (some "a")).1.currentGame = some g₂ ∧
      phaseRank g₁.status = phaseRank readyGame3.status + 1 ∧
      (∀ msg code,
        (gameHandleReadyCookie idEnv (gameHandleReadyCookie idEnv readyRoom3 (some "c")).1
          (some "a")).2 ≠ .httpError msg code) ∧
      readyMapOf g₁.status g₂ = toggle (readyMapOf g₁.status g₁) "a" ∧
      readyMapOf readyGame3.status g₂ = readyMapOf readyGame3.status g₁ ∧
      phaseRank g₁.status ≤ phaseRank g₂.status :=
  ⟨rfl, Or.inl rfl, by decide,
    advance_once idEnv idEnv readyRoom3 readyGame3 "c" "a" rfl (Or.inl rfl) (by decide)⟩

/-- Counterexample to C14 as stated. The maps of the three-player room have
their keys among the players; a `ToggleReady` presenting the id `zz`, which is
not a player of the room, is accepted and adds the key `zz` to
`readyToReveal`. -/
theorem domains_within_counterexample :
    DomainsWithin readyRoom3 ∧
    ¬ DomainsWithin (gameHandleReadyCookie idEnv readyRoom3 (some "zz")).1 := by
  constructor
  · intro g hg
    have : g = readyGame3 := (Option.some.inj hg).symm
    subst this
    decide
  · intro h
    have hzz := h { readyGame3 with readyToReveal := toggle readyGame3.readyToReveal "zz" } rfl
      "zz" (by decide)
    revert hzz
    decide

/-- C14, amended. If the key sets of `readyToReveal`, `readyAfterReveal`,
`readyToVote` and `votes` are subsets of the current room players' ids before
a request, then after it the players are the same and every key of those maps
is a player's id or the id presented by the request; so for every
`ToggleReady`, `CastVote` or `SubmitWord` that presents no id or the id of a
current room player, the key sets are still subsets of the players' ids. -/
theorem domains_within (maxVoteRounds : Int) (ctx : Context) (env : Env) (lobby : Lobby)
    (call : Call) (hdom : DomainsWithin lobby) :
    (step maxVoteRounds ctx env lobby call).1.players = lobby.players ∧
    (∀ g', (step maxVoteRounds ctx env lobby call).1.currentGame = some g' →
      ∀ id ∈ gameKeys g', id ∈ lobby.players.keys ∨ call.cookie = some id) ∧
    ((∀ p, call.cookie = some p → p ∈ lobby.players.keys) →
      DomainsWithin (step maxVoteRounds ctx env lobby call).1) := by
  cases hg : lobby.currentGame with
  | none =>
    have hsame := step_no_game maxVoteRounds ctx env lobby call hg
    rw [hsame]
    refine ⟨rfl, fun g' hg' => ?_, fun _ => hdom⟩
    rw [hg] at hg'; cases hg'
  | some g =>
    obtain ⟨g', h1, hp, hk⟩ := step_keys maxVoteRounds ctx env lobby g call hg
    have hgen : ∀ g'', (step maxVoteRounds ctx env lobby call).1.currentGame = some g'' →
        ∀ id ∈ gameKeys g'', id ∈ lobby.players.keys ∨ call.cookie = some id := by
      intro g'' hg'' id hid
      rw [h1] at hg''
      cases hg''
      rcases hk id hid with h | h | h
      · exact Or.inl (hdom g hg id h)
      · exact Or.inr h
      · exact Or.inl (AList.mem_keys.mp h)
    refine ⟨hp, hgen, fun hmem g'' hg'' id hid => ?_⟩
    rw [hp]
    rcases hgen g'' hg'' id hid with h | h
    · exact h
    · exact hmem id h

/-- Instance of the amended C14: player `c` of the three-player room toggles. -/
theorem domains_within_witness :
    DomainsWithin readyRoom3 ∧
    (∀ p, (Call.toggleReady (some "c")).cookie = some p → p ∈ readyRoom3.players.keys) ∧
    DomainsWithin (step 3 ⟨["c1"]⟩ idEnv readyRoom3 (.toggleReady (some "c"))).1 :=
  have hdom : DomainsWithin readyRoom3 := by
    intro g hg
    have : g = readyGame3 := (Option.some.inj hg).symm
    subst this
    decide
  have hmem : ∀ p, (Call.toggleReady (some "c")).cookie = some p →
      p ∈ readyRoom3.players.keys := by
    intro p hp
    have : p = "c" := (Option.some.inj hp).symm
    subst this
    decide
  ⟨hdom, hmem,
    (domains_within 3 ⟨["c1"]⟩ idEnv readyRoom3 (.toggleReady (some "c")) hdom).2.2 hmem⟩

end Sus
